import Mathlib

/-!
# ecsm-operator client set: pagination traversal and client-side checks

Shallow embedding of the list and list-all operations of
`pkg/ecsm-client/clientset` (service.go, record.go, micro_service.go,
config.go), of the operations that check their input before sending
(`CreateConfig`, `UpdateConfig`, `Services().Update`, `UpdateMicroService`,
`ControlByID`, `ControlByLabel`), and proofs about them.

Conventions of the embedding

* Go `int` is `Int`.  The only arithmetic the loops perform is
  `opts.PageNum++` (once per non-empty page, starting from 1) and the
  comparison of `len(allItems)` with `Total` or `PageSize`; the page number
  never exceeds the number of accumulated items plus one, so wrap-around of
  the machine integer is not reachable and is not modelled.
* A Go slice is a `List`; the nil slice is `[]`.
* A Go result pair `([]T, error)` is kept as a pair (`Returned.items`,
  `Returned.err`) so that "no items next to an error" is a statement about
  the code and not about the type.
* The remote side is a state machine `Transport`: a request and the current
  server state give a decoded answer or an error, and the next server state.
  `World` pairs the server state with the log of every request sent so far.
* A Go `error` is `Option (GoError ε)`: `none` is the nil error, an error is
  either built locally by `fmt.Errorf` (its message is kept) or returned by
  the transport.  A Go pointer result that may be nil is an `Option`.
* A Go `interface{}` value is its dynamic type (reflect kind and the text
  `%T` prints) with its content; the nil interface is `none`.
* The `for { ... }` loops need not terminate against an arbitrary server.
  They are run with a step budget: `Run.done r` is the value returned by the
  Go function, `Run.running st` is the loop state reached when the budget is
  used up and the loop is still iterating.
-/

namespace EcsmClient

/-! ## Package rest (request builder) -/

/-- HTTP verbs offered by the request builder. -/
inductive Verb where
  | GET
  | POST
  | PUT
  | DELETE
  deriving DecidableEq, Repr

/-! ### Go values held in `interface{}` fields -/

/-- Go `reflect.Kind`. -/
inductive Kind where
  | Invalid
  | Bool
  | Int
  | Int8
  | Int16
  | Int32
  | Int64
  | Uint
  | Uint8
  | Uint16
  | Uint32
  | Uint64
  | Uintptr
  | Float32
  | Float64
  | Complex64
  | Complex128
  | Array
  | Chan
  | Func
  | Interface
  | Map
  | Pointer
  | Slice
  | String
  | Struct
  | UnsafePointer
  deriving DecidableEq, Repr

/-- Go `reflect.Kind.String()`: the name `%s` prints for a kind. -/
def kindName : Kind → String
  | Kind.Invalid => "invalid"
  | Kind.Bool => "bool"
  | Kind.Int => "int"
  | Kind.Int8 => "int8"
  | Kind.Int16 => "int16"
  | Kind.Int32 => "int32"
  | Kind.Int64 => "int64"
  | Kind.Uint => "uint"
  | Kind.Uint8 => "uint8"
  | Kind.Uint16 => "uint16"
  | Kind.Uint32 => "uint32"
  | Kind.Uint64 => "uint64"
  | Kind.Uintptr => "uintptr"
  | Kind.Float32 => "float32"
  | Kind.Float64 => "float64"
  | Kind.Complex64 => "complex64"
  | Kind.Complex128 => "complex128"
  | Kind.Array => "array"
  | Kind.Chan => "chan"
  | Kind.Func => "func"
  | Kind.Interface => "interface"
  | Kind.Map => "map"
  | Kind.Pointer => "ptr"
  | Kind.Slice => "slice"
  | Kind.String => "string"
  | Kind.Struct => "struct"
  | Kind.UnsafePointer => "unsafe.Pointer"

/-- A Go dynamic type as far as the checks can tell types apart: its reflect
kind and the text `%T` prints for it (`string`, `float64`,
`map[string]interface {}`, `clientset.ConfigItemType`, ...).  A defined type
keeps the kind of its underlying type and prints its own qualified name. -/
structure GoType where
  kind : Kind
  text : String
  deriving DecidableEq, Repr

/-- The predeclared Go type `string`. -/
def GoType.string : GoType := ⟨Kind.String, "string"⟩

/-- The predeclared Go type `float64`. -/
def GoType.float64 : GoType := ⟨Kind.Float64, "float64"⟩

/-- The predeclared Go type `int`. -/
def GoType.int : GoType := ⟨Kind.Int, "int"⟩

/-- The predeclared Go type `int8`. -/
def GoType.int8 : GoType := ⟨Kind.Int8, "int8"⟩

/-- The predeclared Go type `int16`. -/
def GoType.int16 : GoType := ⟨Kind.Int16, "int16"⟩

/-- The predeclared Go type `bool`. -/
def GoType.bool : GoType := ⟨Kind.Bool, "bool"⟩

/-- The Go type `map[string]interface{}`, printed by `%T` with a blank. -/
def GoType.stringMap : GoType := ⟨Kind.Map, "map[string]interface {}"⟩

/-- A non-nil Go value stored in an interface: its dynamic type and its
content (kept in its JSON rendering). -/
structure GoValue where
  typ : GoType
  data : String
  deriving DecidableEq, Repr

/-- A Go `interface{}`: `none` is the nil interface. -/
abbrev Any := Option GoValue

/-- Go `reflect.ValueOf(x).Kind()`: `Invalid` for the nil interface. -/
def Any.kind : Any → Kind
  | none => Kind.Invalid
  | some v => v.typ.kind

/-- What `%T` prints for an `interface{}` value: `<nil>` for the nil
interface. -/
def Any.typeText : Any → String
  | none => "<nil>"
  | some v => v.typ.text

/-- The `ok` of the Go type assertion `x.(string)`: the dynamic type is
exactly `string`. -/
def Any.isString : Any → Bool
  | none => false
  | some v => decide (v.typ = GoType.string)

/-- A Go `error` value that is not nil: built by `fmt.Errorf` with the given
message, or handed back by the transport. -/
inductive GoError (ε : Type) where
  | errorf (msg : String)
  | transport (e : ε)

/-- The message `msg` contains the text `part`. -/
def Contains (msg part : String) : Prop := ∃ pre post : String, msg = pre ++ part ++ post

/-! ### Request payloads -/

/-- Go `ConfigItemType` (config_types.go:7). -/
abbrev ConfigItemType := String

/-- Go constant `ConfigItemTypeString` (config_types.go:11). -/
def ConfigItemTypeString : ConfigItemType := "string"

/-- Go constant `ConfigItemTypeNumber` (config_types.go:13). -/
def ConfigItemTypeNumber : ConfigItemType := "number"

/-- Go constant `ConfigItemTypeJSON` (config_types.go:15). -/
def ConfigItemTypeJSON : ConfigItemType := "json"

/-- Go `CreateConfigRequest` (config_types.go:21); the field `Type` is
written `Type_`, `Type` being reserved. -/
structure CreateConfigRequest where
  Key : String
  Type_ : ConfigItemType
  Value : Any
  deriving DecidableEq, Repr

/-- Go `ConfigItem` (config_types.go:27); the field `Type` is written
`Type_`, `Type` being reserved. -/
structure ConfigItem where
  ID : String
  Key : String
  Type_ : ConfigItemType
  Value : Any
  deriving DecidableEq, Repr

/-- Go `UpdateServiceRequest`; the type declaration is not part of the
snapshot.  `serviceClient.Update` reads the field `ID`; whatever else the
request carries is kept as `Rest`. -/
structure UpdateServiceRequest where
  ID : String
  Rest : String
  deriving DecidableEq, Repr

/-- Go `ServiceCreateResponse`; the type declaration is not part of the
snapshot, the field `ID` is the one the tests read.  The zero value has the
empty `ID`. -/
structure ServiceCreateResponse where
  ID : String
  deriving DecidableEq, Repr

/-- Go `ControlServicesResponse`; the type declaration is not part of the
snapshot, the field `IDs` is the one `ControlByID` sets.  The zero value has
the nil slice. -/
structure ControlServicesResponse where
  IDs : List String
  deriving DecidableEq, Repr

/-- Go `LoadBalanceDetailSpec` (micro_service_types.go:46). -/
structure LoadBalanceDetailSpec where
  Master : String
  TaskID : String
  deriving DecidableEq, Repr

/-- Go `UpdateMicroServiceRequest` (micro_service_types.go:54). -/
structure UpdateMicroServiceRequest where
  ID : String
  LoadBalance : String
  LoadBalanceDetail : List LoadBalanceDetailSpec
  deriving DecidableEq, Repr

/-- Go `RollBackRequest`; the type declaration is not part of the snapshot,
the fields are those the tests set. -/
structure RollBackRequest where
  ID : String
  RecordID : String
  deriving DecidableEq, Repr

/-- Go `TemplateUpdateBatchSpec` (template_types.go:78). -/
structure TemplateUpdateBatchSpec where
  Name : String
  ID : String
  ImageRef : String
  Action : String
  deriving DecidableEq, Repr

/-- Go `UpdateTemplatesBatchRequest` (template_types.go:72). -/
structure UpdateTemplatesBatchRequest where
  Templates : List TemplateUpdateBatchSpec
  Action : String
  deriving DecidableEq, Repr

/-- The payloads handed to `Body(...)` by the operations embedded here. -/
inductive Body where
  | createConfig (config : CreateConfigRequest)
  | configItem (config : ConfigItem)
  | updateService (service : UpdateServiceRequest)
  | updateMicroService (microService : UpdateMicroServiceRequest)
  | controlIDs (requestBody : ControlServicesResponse)
  | path (Path : String)
  | rollBack (req : RollBackRequest)
  | updateTemplatesBatch (req : UpdateTemplatesBatchRequest)
  deriving DecidableEq, Repr

/-- Modelled from the spec: the request description assembled by the builder
of package `rest`, whose source is not part of the repository snapshot
(spec 3, RequestSpec: verb, resource path, optional name, subresource
segments in call order, query parameters, optional body). -/
structure Request where
  verb : Verb
  resource : String := ""
  name : Option String := none
  subresources : List String := []
  params : List (String × String) := []
  body : Option Body := none
  deriving DecidableEq, Repr

/-- Modelled from the spec: `restClient.Get()` of the absent package `rest`
starts a GET request with nothing else set (spec 4.1, `verb(V)`). -/
def Request.Get : Request := { verb := Verb.GET }

/-- Modelled from the spec: `restClient.Post()` of the absent package `rest`
starts a POST request with nothing else set (spec 4.1, `verb(V)`). -/
def Request.Post : Request := { verb := Verb.POST }

/-- Modelled from the spec: `restClient.Put()` of the absent package `rest`
starts a PUT request with nothing else set (spec 4.1, `verb(V)`). -/
def Request.Put : Request := { verb := Verb.PUT }

/-- Modelled from the spec: `Subresource(segment)` of the absent package
`rest` appends one more path segment, in call order (spec 4.1). -/
def Request.Subresource (r : Request) (segment : String) : Request :=
  { r with subresources := r.subresources ++ [segment] }

/-- Modelled from the spec: `Body(payload)` of the absent package `rest` sets
the request body to be serialized (spec 4.1). -/
def Request.Body (r : Request) (payload : Body) : Request :=
  { r with body := some payload }

/-- Modelled from the spec: `Resource(path)` of the absent package `rest`
sets the primary resource path segment (spec 4.1). -/
def Request.Resource (r : Request) (path : String) : Request :=
  { r with resource := path }

/-- Modelled from the spec: `Param(key, value)` of the absent package `rest`
adds one query parameter; parameters are kept in call order (spec 4.1). -/
def Request.Param (r : Request) (key value : String) : Request :=
  { r with params := r.params ++ [(key, value)] }

/-- Modelled from the spec: the value a request carries for a query key; the
last `Param` call for a key wins (spec 4.1, `param`). -/
def Request.getParam (r : Request) (key : String) : Option String :=
  r.params.reverse.lookup key

/-- The remote side: answers one request in a server state with a decoded
payload or an error, and moves to the next server state. -/
abbrev Transport (σ ε ρ : Type) := Request → σ → Except ε ρ × σ

/-- Server state together with the log of requests sent so far. -/
structure World (σ : Type) where
  server : σ
  sent : List Request

/-- Modelled from the spec: `Do(ctx).Into(result)` of the absent package
`rest`: executes the assembled request once against the transport and decodes
the answer, or reports the failure (spec 4.1, `do` and `Response.into`).  The
request is appended to the log of the world. -/
def Request.Do {σ ε ρ : Type} (tr : Transport σ ε ρ) (r : Request) (w : World σ) :
    Except ε ρ × World σ :=
  ((tr r w.server).1, { server := (tr r w.server).2, sent := w.sent ++ [r] })

/-- Go `strconv.Itoa`: decimal text of an integer. -/
def Itoa (i : Int) : String := toString i

/-! ## Option and page types -/

/-- Options of `Services().List`; the type declaration is not part of the
snapshot, the fields are those read by `serviceClient.List`. -/
structure ListServicesOptions where
  PageNum : Int
  PageSize : Int
  Name : String
  ImageID : String
  NodeID : String
  Label : String
  deriving DecidableEq, Repr

/-- Modelled from the spec: the page answered by `Services().List`; the type
declaration is not part of the snapshot (spec 3, PageResult: total, pageNum,
pageSize, items).  `serviceClient.ListAll` reads `Total` and `Items`. -/
structure ServiceList (α : Type) where
  Total : Int
  PageNum : Int
  PageSize : Int
  Items : List α

/-- Options of `ListRecord` (record_types.go). -/
structure ListRecordOptions where
  PageNum : Int
  PageSize : Int
  ServiceID : String
  deriving DecidableEq, Repr

/-- Page answered by `ListRecord` (record_types.go). -/
structure RecordList (α : Type) where
  Total : Int
  PageNum : Int
  PageSize : Int
  Items : List α

/-- Options of `ListMicroService` (micro_service_types.go). -/
structure ListMicroServicesOptions where
  PageNum : Int
  PageSize : Int
  KeyWord : String
  ImageID : Int
  NodeID : String
  Label : String
  deriving DecidableEq, Repr

/-- Page answered by `ListMicroService` (micro_service_types.go). -/
structure MicroServiceList (α : Type) where
  Total : Int
  PageNum : Int
  PageSize : Int
  Items : List α

/-- Options of `ListConfig` (config_types.go). -/
structure ListConfigsOptions where
  PageNum : Int
  PageSize : Int
  Key : String
  deriving DecidableEq, Repr

/-! ## Loop bookkeeping -/

/-- A Go slice `[]T`; the nil slice is the empty list.  (Inside the
declarations of `serviceClient` the bare name `List` is the list operation of
the client, hence the separate name for the type.) -/
abbrev Slice (α : Type) := List α

/-- Local variables of a list-all loop at the head of an iteration. -/
structure LoopState (O α σ : Type) where
  opts : O
  allItems : List α
  world : World σ

/-- Value returned by a list-all function, with the world it leaves. -/
structure Returned (ε α σ : Type) where
  items : List α
  err : Option ε
  world : World σ

/-- Outcome of running a loop with a step budget. -/
inductive Run (S R : Type) where
  | running (st : S)
  | done (r : R)

/-- The world reached by a budgeted run, finished or not. -/
def Run.world {O ε α σ : Type} : Run (LoopState O α σ) (Returned ε α σ) → World σ
  | Run.running st => st.world
  | Run.done r => r.world

/-! ## Single-page list operations -/

/-- Go `serviceClient.List` (service.go:243). -/
def serviceClient.List {σ ε α : Type} (tr : Transport σ ε (ServiceList α))
    (opts : ListServicesOptions) (w : World σ) : Except ε (ServiceList α) × World σ :=
  let req := Request.Get.Resource "service"
  let req := req.Param "pageNum" (Itoa opts.PageNum)
  let req := req.Param "pageSize" (Itoa opts.PageSize)
  let req := if opts.Name ≠ "" then req.Param "name" opts.Name else req
  let req := if opts.ImageID ≠ "" then req.Param "id" opts.ImageID else req
  let req := if opts.NodeID ≠ "" then req.Param "nodeId" opts.NodeID else req
  let req := if opts.Label ≠ "" then req.Param "label" opts.Label else req
  match req.Do tr w with
  | (Except.error err, w1) => (Except.error err, w1)
  | (Except.ok result, w1) => (Except.ok result, w1)

/-- Go `recordClient.ListRecord` (record.go:64). -/
def recordClient.ListRecord {σ ε α : Type} (tr : Transport σ ε (RecordList α))
    (opts : ListRecordOptions) (w : World σ) : Except ε (RecordList α) × World σ :=
  let req := Request.Get.Resource "service/record"
  let req := req.Param "id" opts.ServiceID
  let req := req.Param "pageNum" (Itoa opts.PageNum)
  let req := req.Param "pageSize" (Itoa opts.PageSize)
  match req.Do tr w with
  | (Except.error err, w1) => (Except.error err, w1)
  | (Except.ok result, w1) => (Except.ok result, w1)

/-- Go `MicroserviceClient.ListMicroService` (micro_service.go:41). -/
def MicroserviceClient.ListMicroService {σ ε α : Type}
    (tr : Transport σ ε (MicroServiceList α))
    (opts : ListMicroServicesOptions) (w : World σ) :
    Except ε (MicroServiceList α) × World σ :=
  let req := Request.Get.Resource "micro-service"
  let req := req.Param "pageNum" (Itoa opts.PageNum)
  let req := req.Param "pageSize" (Itoa opts.PageSize)
  let req := if opts.KeyWord ≠ "" then req.Param "name" opts.KeyWord else req
  let req := if opts.ImageID ≠ 0 then req.Param "projectId" (Itoa opts.ImageID) else req
  let req := if opts.NodeID ≠ "" then req.Param "nodeId" opts.NodeID else req
  let req := if opts.Label ≠ "" then req.Param "label" opts.Label else req
  match req.Do tr w with
  | (Except.error err, w1) => (Except.error err, w1)
  | (Except.ok result, w1) => (Except.ok result, w1)

/-- Go `configClient.ListConfig` (config.go:127). -/
def configClient.ListConfig {σ ε α : Type} (tr : Transport σ ε (List α))
    (opts : ListConfigsOptions) (w : World σ) : Except ε (List α) × World σ :=
  let req := Request.Get.Resource "configmap"
  let req := req.Param "pageNum" (Itoa opts.PageNum)
  let req := req.Param "pageSize" (Itoa opts.PageSize)
  let req := if opts.Key ≠ "" then req.Param "key" opts.Key else req
  match req.Do tr w with
  | (Except.error err, w1) => (Except.error err, w1)
  | (Except.ok result, w1) => (Except.ok result, w1)

/-! ## List-all operations -/

/-- The `for` loop of Go `serviceClient.ListAll` (service.go:282-299). -/
def serviceClient.ListAll.loop {σ ε α : Type} (tr : Transport σ ε (ServiceList α)) :
    Nat → ListServicesOptions → Slice α → World σ →
      Run (LoopState ListServicesOptions α σ) (Returned ε α σ)
  | 0, opts, allItems, w => Run.running ⟨opts, allItems, w⟩
  | fuel + 1, opts, allItems, w =>
    match serviceClient.List tr opts w with
    | (Except.error err, w1) => Run.done ⟨[], some err, w1⟩
    | (Except.ok list, w1) =>
      if list.Items.length = 0 then Run.done ⟨allItems, none, w1⟩
      else
        let allItems := allItems ++ list.Items
        if (allItems.length : Int) ≥ list.Total then Run.done ⟨allItems, none, w1⟩
        else
          serviceClient.ListAll.loop tr fuel
            { opts with PageNum := opts.PageNum + 1 } allItems w1

/-- Go `serviceClient.ListAll` (service.go:275). -/
def serviceClient.ListAll {σ ε α : Type} (tr : Transport σ ε (ServiceList α))
    (fuel : Nat) (opts : ListServicesOptions) (w : World σ) :
    Run (LoopState ListServicesOptions α σ) (Returned ε α σ) :=
  let allItems : Slice α := []
  let opts := { opts with PageNum := 1 }
  let opts := if opts.PageSize = 0 then { opts with PageSize := 100 } else opts
  serviceClient.ListAll.loop tr fuel opts allItems w

/-- The `for` loop of Go `recordClient.ListAllRecord` (record.go:91-108). -/
def recordClient.ListAllRecord.loop {σ ε α : Type} (tr : Transport σ ε (RecordList α)) :
    Nat → ListRecordOptions → List α → World σ →
      Run (LoopState ListRecordOptions α σ) (Returned ε α σ)
  | 0, opts, allItems, w => Run.running ⟨opts, allItems, w⟩
  | fuel + 1, opts, allItems, w =>
    match recordClient.ListRecord tr opts w with
    | (Except.error err, w1) => Run.done ⟨[], some err, w1⟩
    | (Except.ok list, w1) =>
      if list.Items.length = 0 then Run.done ⟨allItems, none, w1⟩
      else
        let allItems := allItems ++ list.Items
        if (allItems.length : Int) ≥ list.Total then Run.done ⟨allItems, none, w1⟩
        else
          recordClient.ListAllRecord.loop tr fuel
            { opts with PageNum := opts.PageNum + 1 } allItems w1

/-- Go `recordClient.ListAllRecord` (record.go:84). -/
def recordClient.ListAllRecord {σ ε α : Type} (tr : Transport σ ε (RecordList α))
    (fuel : Nat) (opts : ListRecordOptions) (w : World σ) :
    Run (LoopState ListRecordOptions α σ) (Returned ε α σ) :=
  let allItems : List α := []
  let opts := { opts with PageNum := 1 }
  let opts := if opts.PageSize = 0 then { opts with PageSize := 100 } else opts
  recordClient.ListAllRecord.loop tr fuel opts allItems w

/-- The `for` loop of Go `MicroserviceClient.ListAllMicroService`
(micro_service.go:80-97). -/
def MicroserviceClient.ListAllMicroService.loop {σ ε α : Type}
    (tr : Transport σ ε (MicroServiceList α)) :
    Nat → ListMicroServicesOptions → List α → World σ →
      Run (LoopState ListMicroServicesOptions α σ) (Returned ε α σ)
  | 0, opts, allItems, w => Run.running ⟨opts, allItems, w⟩
  | fuel + 1, opts, allItems, w =>
    match MicroserviceClient.ListMicroService tr opts w with
    | (Except.error err, w1) => Run.done ⟨[], some err, w1⟩
    | (Except.ok list, w1) =>
      if list.Items.length = 0 then Run.done ⟨allItems, none, w1⟩
      else
        let allItems := allItems ++ list.Items
        if (allItems.length : Int) ≥ list.Total then Run.done ⟨allItems, none, w1⟩
        else
          MicroserviceClient.ListAllMicroService.loop tr fuel
            { opts with PageNum := opts.PageNum + 1 } allItems w1

/-- Go `MicroserviceClient.ListAllMicroService` (micro_service.go:73). -/
def MicroserviceClient.ListAllMicroService {σ ε α : Type}
    (tr : Transport σ ε (MicroServiceList α))
    (fuel : Nat) (opts : ListMicroServicesOptions) (w : World σ) :
    Run (LoopState ListMicroServicesOptions α σ) (Returned ε α σ) :=
  let allItems : List α := []
  let opts := { opts with PageNum := 1 }
  let opts := if opts.PageSize = 0 then { opts with PageSize := 100 } else opts
  MicroserviceClient.ListAllMicroService.loop tr fuel opts allItems w

/-- The `for` loop of Go `configClient.ListAllConfig` (config.go:153-170). -/
def configClient.ListAllConfig.loop {σ ε α : Type} (tr : Transport σ ε (List α)) :
    Nat → ListConfigsOptions → List α → World σ →
      Run (LoopState ListConfigsOptions α σ) (Returned ε α σ)
  | 0, opts, allItems, w => Run.running ⟨opts, allItems, w⟩
  | fuel + 1, opts, allItems, w =>
    match configClient.ListConfig tr opts w with
    | (Except.error err, w1) => Run.done ⟨[], some err, w1⟩
    | (Except.ok pageItems, w1) =>
      if pageItems.length = 0 then Run.done ⟨allItems, none, w1⟩
      else
        let allItems := allItems ++ pageItems
        if (pageItems.length : Int) < opts.PageSize then Run.done ⟨allItems, none, w1⟩
        else
          configClient.ListAllConfig.loop tr fuel
            { opts with PageNum := opts.PageNum + 1 } allItems w1

/-- Go `configClient.ListAllConfig` (config.go:146). -/
def configClient.ListAllConfig {σ ε α : Type} (tr : Transport σ ε (List α))
    (fuel : Nat) (opts : ListConfigsOptions) (w : World σ) :
    Run (LoopState ListConfigsOptions α σ) (Returned ε α σ) :=
  let allItems : List α := []
  let opts := { opts with PageNum := 1 }
  let opts := if opts.PageSize = 0 then { opts with PageSize := 100 } else opts
  configClient.ListAllConfig.loop tr fuel opts allItems w

/-! ## Proof device: the common shape of the four loops -/

/-- The shape shared by the four list-all loops: fetch a page, return on
error, return on an empty page, append, return when the stop test holds,
otherwise advance the options and repeat.  The four source loops are shown
equal to instances of it (`loop_services`, `loop_records`,
`loop_microservices`, `loop_configs`). -/
def pageLoop {O ρ σ ε α : Type} (list : O → World σ → Except ε ρ × World σ)
    (items : ρ → List α) (stop : O → List α → ρ → Bool) (next : O → O) :
    Nat → O → List α → World σ → Run (LoopState O α σ) (Returned ε α σ)
  | 0, opts, acc, w => Run.running ⟨opts, acc, w⟩
  | fuel + 1, opts, acc, w =>
    match list opts w with
    | (Except.error err, w1) => Run.done ⟨[], some err, w1⟩
    | (Except.ok page, w1) =>
      if (items page).length = 0 then Run.done ⟨acc, none, w1⟩
      else if stop opts (acc ++ items page) page then
        Run.done ⟨acc ++ items page, none, w1⟩
      else pageLoop list items stop next fuel (next opts) (acc ++ items page) w1

/-- Items of page `p` (1-based) of a dataset served in pages of size `S`:
the positions `(p-1)*S .. min(p*S, N)-1`. -/
def pageOf {α : Type} (data : List α) (S p : Nat) : List α :=
  (data.drop ((p - 1) * S)).take S

/-- Ceiling of `N / S` on natural numbers. -/
def ceilDiv (N S : Nat) : Nat := (N + S - 1) / S

/-! ## Requests sent by the single-page operations -/

/-- The request `serviceClient.List` sends for given options. -/
def servicesRequest (opts : ListServicesOptions) : Request :=
  let req := Request.Get.Resource "service"
  let req := req.Param "pageNum" (Itoa opts.PageNum)
  let req := req.Param "pageSize" (Itoa opts.PageSize)
  let req := if opts.Name ≠ "" then req.Param "name" opts.Name else req
  let req := if opts.ImageID ≠ "" then req.Param "id" opts.ImageID else req
  let req := if opts.NodeID ≠ "" then req.Param "nodeId" opts.NodeID else req
  if opts.Label ≠ "" then req.Param "label" opts.Label else req

/-- The request `recordClient.ListRecord` sends for given options. -/
def recordsRequest (opts : ListRecordOptions) : Request :=
  let req := Request.Get.Resource "service/record"
  let req := req.Param "id" opts.ServiceID
  let req := req.Param "pageNum" (Itoa opts.PageNum)
  req.Param "pageSize" (Itoa opts.PageSize)

/-- The request `MicroserviceClient.ListMicroService` sends for given options. -/
def microServicesRequest (opts : ListMicroServicesOptions) : Request :=
  let req := Request.Get.Resource "micro-service"
  let req := req.Param "pageNum" (Itoa opts.PageNum)
  let req := req.Param "pageSize" (Itoa opts.PageSize)
  let req := if opts.KeyWord ≠ "" then req.Param "name" opts.KeyWord else req
  let req := if opts.ImageID ≠ 0 then req.Param "projectId" (Itoa opts.ImageID) else req
  let req := if opts.NodeID ≠ "" then req.Param "nodeId" opts.NodeID else req
  if opts.Label ≠ "" then req.Param "label" opts.Label else req

/-- The request `configClient.ListConfig` sends for given options. -/
def configsRequest (opts : ListConfigsOptions) : Request :=
  let req := Request.Get.Resource "configmap"
  let req := req.Param "pageNum" (Itoa opts.PageNum)
  let req := req.Param "pageSize" (Itoa opts.PageSize)
  if opts.Key ≠ "" then req.Param "key" opts.Key else req

/-! ## Faithfully paged servers, as seen through the single-page operations -/

/-- `Services().List`, asked with the caller's options for any page
`1 ≤ p ≤ B` in any world, succeeds with the items at positions
`(p-1)*S .. min(p*S, N)-1` of `data` and reports total `T`. -/
def FaithfulServices {σ ε α : Type} (tr : Transport σ ε (ServiceList α))
    (opts : ListServicesOptions) (data : List α) (S : Nat) (T : Int) (B : Nat) : Prop :=
  ∀ p : Nat, 1 ≤ p → p ≤ B → ∀ w0 : World σ, ∃ pg,
    (serviceClient.List tr { opts with PageNum := p } w0).1 = Except.ok pg ∧
      pg.Items = pageOf data S p ∧ pg.Total = T

/-- `ListRecord`, asked with the caller's options for any page `1 ≤ p ≤ B` in
any world, succeeds with the items at positions `(p-1)*S .. min(p*S, N)-1` of
`data` and reports total `T`. -/
def FaithfulRecords {σ ε α : Type} (tr : Transport σ ε (RecordList α))
    (opts : ListRecordOptions) (data : List α) (S : Nat) (T : Int) (B : Nat) : Prop :=
  ∀ p : Nat, 1 ≤ p → p ≤ B → ∀ w0 : World σ, ∃ pg,
    (recordClient.ListRecord tr { opts with PageNum := p } w0).1 = Except.ok pg ∧
      pg.Items = pageOf data S p ∧ pg.Total = T

/-- `ListMicroService`, asked with the caller's options for any page
`1 ≤ p ≤ B` in any world, succeeds with the items at positions
`(p-1)*S .. min(p*S, N)-1` of `data` and reports total `T`. -/
def FaithfulMicroServices {σ ε α : Type} (tr : Transport σ ε (MicroServiceList α))
    (opts : ListMicroServicesOptions) (data : List α) (S : Nat) (T : Int) (B : Nat) :
    Prop :=
  ∀ p : Nat, 1 ≤ p → p ≤ B → ∀ w0 : World σ, ∃ pg,
    (MicroserviceClient.ListMicroService tr { opts with PageNum := p } w0).1 =
        Except.ok pg ∧
      pg.Items = pageOf data S p ∧ pg.Total = T

/-- `ListConfig`, asked with the caller's options for any page `1 ≤ p ≤ B` in
any world, succeeds with the items at positions `(p-1)*S .. min(p*S, N)-1` of
`data` (the answer carries no total). -/
def FaithfulConfigs {σ ε α : Type} (tr : Transport σ ε (List α))
    (opts : ListConfigsOptions) (data : List α) (S : Nat) (B : Nat) : Prop :=
  ∀ p : Nat, 1 ≤ p → p ≤ B → ∀ w0 : World σ,
    (configClient.ListConfig tr { opts with PageNum := p } w0).1 =
      Except.ok (pageOf data S p)

/-! ## Concrete servers used in the worked instances -/

/-- Items a stateless test server holding `data` in pages of size `S` sends
for a request: it reads the `pageNum` parameter, recognises the decimal
numerals of the pages `1 .. N + 1`, and answers any other page number with an
empty page. -/
def servedItems {α : Type} (data : List α) (S : Nat) (req : Request) : List α :=
  match (List.range (data.length + 1)).find?
      (fun i => req.getParam "pageNum" == some (Itoa ((i + 1 : Nat) : Int))) with
  | some i => pageOf data S (i + 1)
  | none => []

/-- Stateless test server for `service`: pages of `data`, reported total `T`. -/
def servicesServer {α : Type} (data : List α) (S : Nat) (T : Int) :
    Transport Unit String (ServiceList α) :=
  fun req s => (Except.ok ⟨T, 0, S, servedItems data S req⟩, s)

/-- Stateless test server for `service/record`. -/
def recordsServer {α : Type} (data : List α) (S : Nat) (T : Int) :
    Transport Unit String (RecordList α) :=
  fun req s => (Except.ok ⟨T, 0, S, servedItems data S req⟩, s)

/-- Stateless test server for `micro-service`. -/
def microServicesServer {α : Type} (data : List α) (S : Nat) (T : Int) :
    Transport Unit String (MicroServiceList α) :=
  fun req s => (Except.ok ⟨T, 0, S, servedItems data S req⟩, s)

/-- Stateless test server for `configmap`: a bare array per page. -/
def configsServer {α : Type} (data : List α) (S : Nat) :
    Transport Unit String (List α) :=
  fun req s => (Except.ok (servedItems data S req), s)

/-- Test server that answers page 1 with `first` and fails on every other
request with the error `"boom"`. -/
def failAfterFirst {ρ : Type} (first : ρ) : Transport Unit String ρ :=
  fun req s =>
    if req.getParam "pageNum" = some "1" then (Except.ok first, s)
    else (Except.error "boom", s)

/-- Test server that answers every request with the same payload. -/
def constServer {ρ : Type} (answer : ρ) : Transport Unit String ρ :=
  fun _ s => (Except.ok answer, s)

/-- The empty world of the worked instances: no request sent yet. -/
def world0 : World Unit := ⟨(), []⟩

/-- Caller options of the worked instances for `Services().ListAll`. -/
def demoServices (pageSize : Int) : ListServicesOptions :=
  { PageNum := 0, PageSize := pageSize, Name := "demo", ImageID := "", NodeID := "",
    Label := "" }

/-- Caller options of the worked instances for `ListAllRecord`. -/
def demoRecords (pageSize : Int) : ListRecordOptions :=
  { PageNum := 0, PageSize := pageSize, ServiceID := "svc-1" }

/-- Caller options of the worked instances for `ListAllMicroService`. -/
def demoMicroServices (pageSize : Int) : ListMicroServicesOptions :=
  { PageNum := 0, PageSize := pageSize, KeyWord := "", ImageID := 0, NodeID := "",
    Label := "" }

/-- Caller options of the worked instances for `ListAllConfig`. -/
def demoConfigs (pageSize : Int) : ListConfigsOptions :=
  { PageNum := 0, PageSize := pageSize, Key := "" }


/-- Dataset of the worked instances. -/
def demoData : List Nat := [10, 20, 30, 40, 50]

/-! ## Operations with a client-side check -/

/-- What an operation with a pointer result hands back: the pointer (`none`
for nil), the error (`none` for nil) and the world it leaves. -/
structure Reply (ρ ε σ : Type) where
  result : Option ρ
  err : Option (GoError ε)
  world : World σ

/-- The `switch` of Go `configClient.CreateConfig` (config.go:45-63): the
message of the error it returns, or `none` when control reaches the request. -/
def configClient.CreateConfig.validate (config : CreateConfigRequest) : Option String :=
  if config.Type_ = ConfigItemTypeString then
    if ¬ Any.isString config.Value then
      some ("config type is 'string', but provided value is of type " ++
        Any.typeText config.Value ++ ", not a string")
    else none
  else if config.Type_ = ConfigItemTypeNumber then
    let valKind := Any.kind config.Value
    if valKind ≠ Kind.Float64 ∧ valKind ≠ Kind.Int ∧ valKind ≠ Kind.Int32 ∧
        valKind ≠ Kind.Int64 then
      some ("config type is 'number', but provided value is of type " ++
        Any.typeText config.Value ++ ", not a number")
    else none
  else if config.Type_ = ConfigItemTypeJSON then
    let valKind := Any.kind config.Value
    if valKind ≠ Kind.Map ∧ valKind ≠ Kind.Slice then
      some ("config type is 'json', but provided value is a " ++ kindName valKind ++
        ", not a map or slice")
    else none
  else
    some ("unsupported config type: '" ++ config.Type_ ++ "'. Must be one of: " ++
      ConfigItemTypeString ++ ", " ++ ConfigItemTypeNumber ++ ", " ++ ConfigItemTypeJSON)

/-- Go `configClient.CreateConfig` (config.go:43). -/
def configClient.CreateConfig {σ ε ρ : Type} (tr : Transport σ ε ρ)
    (config : CreateConfigRequest) (w : World σ) : Option (GoError ε) × World σ :=
  match configClient.CreateConfig.validate config with
  | some msg => (some (GoError.errorf msg), w)
  | none =>
    match ((Request.Post.Resource "configmap").Body (Body.createConfig config)).Do tr w with
    | (Except.error err, w1) => (some (GoError.transport err), w1)
    | (Except.ok _, w1) => (none, w1)

/-- The `switch` of Go `configClient.UpdateConfig` (config.go:76-94): the
message of the error it returns, or `none` when control reaches the request. -/
def configClient.UpdateConfig.validate (config : ConfigItem) : Option String :=
  if config.Type_ = ConfigItemTypeString then
    if ¬ Any.isString config.Value then
      some ("config type is 'string', but provided value is of type " ++
        Any.typeText config.Value ++ ", not a string")
    else none
  else if config.Type_ = ConfigItemTypeNumber then
    let valKind := Any.kind config.Value
    if valKind ≠ Kind.Float64 ∧ valKind ≠ Kind.Int ∧ valKind ≠ Kind.Int32 ∧
        valKind ≠ Kind.Int64 then
      some ("config type is 'number', but provided value is of type " ++
        Any.typeText config.Value ++ ", not a number")
    else none
  else if config.Type_ = ConfigItemTypeJSON then
    let valKind := Any.kind config.Value
    if valKind ≠ Kind.Map ∧ valKind ≠ Kind.Slice then
      some ("config type is 'json', but provided value is a " ++ kindName valKind ++
        ", not a map or slice")
    else none
  else
    some ("unsupported config type: '" ++ config.Type_ ++ "'. Must be one of: " ++
      ConfigItemTypeString ++ ", " ++ ConfigItemTypeNumber ++ ", " ++ ConfigItemTypeJSON)

/-- Go `configClient.UpdateConfig` (config.go:74). -/
def configClient.UpdateConfig {σ ε ρ : Type} (tr : Transport σ ε ρ)
    (config : ConfigItem) (w : World σ) : Option (GoError ε) × World σ :=
  match configClient.UpdateConfig.validate config with
  | some msg => (some (GoError.errorf msg), w)
  | none =>
    match ((Request.Put.Resource "configmap").Body (Body.configItem config)).Do tr w with
    | (Except.error err, w1) => (some (GoError.transport err), w1)
    | (Except.ok _, w1) => (none, w1)

/-- Go `serviceClient.Update` (service.go:87).  `result` starts as the zero
`ServiceCreateResponse` and is filled by a successful decode. -/
def serviceClient.Update {σ ε : Type} (tr : Transport σ ε ServiceCreateResponse)
    (serviceID : String) (service : UpdateServiceRequest) (w : World σ) :
    Reply ServiceCreateResponse ε σ :=
  if serviceID ≠ service.ID then
    ⟨none, some (GoError.errorf ("serviceID in path (" ++ serviceID ++
      ") does not match serviceID in body (" ++ service.ID ++ ")")), w⟩
  else
    let result : ServiceCreateResponse := ⟨""⟩
    match ((Request.Put.Resource "service").Body (Body.updateService service)).Do tr w with
    | (Except.error err, w1) => ⟨some result, some (GoError.transport err), w1⟩
    | (Except.ok decoded, w1) => ⟨some decoded, none, w1⟩

/-- Go `serviceClient.ControlByID` (service.go:176).  The map literal
`validActions` is an association list; a missing key reads as `false`. -/
def serviceClient.ControlByID {σ ε : Type} (tr : Transport σ ε ControlServicesResponse)
    (serviceIDs : Slice String) (action : String) (w : World σ) :
    Reply ControlServicesResponse ε σ :=
  let validActions : Slice (String × Bool) :=
    [("start", true), ("stop", true), ("restart", true), ("pause", true),
      ("unpause", true), ("destroy", true)]
  if ¬ (validActions.lookup action).getD false then
    ⟨none, some (GoError.errorf ("invalid action: '" ++ action ++
      "', must be one of [start, stop, restart, pause, unpause, destroy]")), w⟩
  else
    let requestBody : ControlServicesResponse := ⟨serviceIDs⟩
    let result : ControlServicesResponse := ⟨[]⟩
    match ((((Request.Post.Resource "service").Subresource action).Subresource "ids").Body
        (Body.controlIDs requestBody)).Do tr w with
    | (Except.error err, w1) => ⟨some result, some (GoError.transport err), w1⟩
    | (Except.ok decoded, w1) => ⟨some decoded, none, w1⟩

/-- Go `serviceClient.ControlByLabel` (service.go:208). -/
def serviceClient.ControlByLabel {σ ε : Type} (tr : Transport σ ε ControlServicesResponse)
    (path : String) (action : String) (w : World σ) :
    Reply ControlServicesResponse ε σ :=
  let validActions : Slice (String × Bool) :=
    [("start", true), ("stop", true), ("restart", true), ("pause", true),
      ("unpause", true), ("destroy", true)]
  if ¬ (validActions.lookup action).getD false then
    ⟨none, some (GoError.errorf ("invalid action: '" ++ action ++
      "', must be one of [start, stop, restart, pause, unpause, destroy]")), w⟩
  else
    let requestBody : Body := Body.path path
    let result : ControlServicesResponse := ⟨[]⟩
    match ((((Request.Post.Resource "service").Subresource action).Subresource
        "path-label").Body requestBody).Do tr w with
    | (Except.error err, w1) => ⟨some result, some (GoError.transport err), w1⟩
    | (Except.ok decoded, w1) => ⟨some decoded, none, w1⟩

/-- Go `MicroserviceClient.UpdateMicroService` (micro_service.go:114). -/
def MicroserviceClient.UpdateMicroService {σ ε ρ : Type} (tr : Transport σ ε ρ)
    (MicroService : UpdateMicroServiceRequest) (w : World σ) :
    Option (GoError ε) × World σ :=
  if MicroService.LoadBalance ≠ "masterSlave" ∧ MicroService.LoadBalanceDetail.length > 0 then
    (some (GoError.errorf ("validation failed: loadBalanceDetail can only be set when " ++
      "loadBalance strategy is 'masterSlave', but the strategy was '" ++
      MicroService.LoadBalance ++ "'")), w)
  else if MicroService.LoadBalance = "masterSlave" ∧
      MicroService.LoadBalanceDetail.length = 0 then
    (some (GoError.errorf ("validation failed: loadBalanceDetail must be provided when " ++
      "loadBalance strategy is 'masterSlave'")), w)
  else
    match ((Request.Put.Resource "micro-service").Body
        (Body.updateMicroService MicroService)).Do tr w with
    | (Except.error err, w1) => (some (GoError.transport err), w1)
    | (Except.ok _, w1) => (none, w1)

/-- The error an operation reports for the outcome of its single request:
nil on success, the transport's error otherwise. -/
def errOf {ε ρ : Type} : Except ε ρ → Option (GoError ε)
  | Except.error err => some (GoError.transport err)
  | Except.ok _ => none

/-! ## Name validation, rollback and batch template update -/

/-- Go `ValidateNameOptions`; the type declaration is not part of the
snapshot, the fields are those read by `serviceClient.ValidateName`. -/
structure ValidateNameOptions where
  Name : String
  ID : String
  deriving DecidableEq, Repr

/-- Go `ValidationResult`; the type declaration is not part of the snapshot,
the fields are those set by `serviceClient.ValidateName`.  The zero value has
`IsValid = false` and the empty `Message`. -/
structure ValidationResult where
  IsValid : Bool
  Message : String
  deriving DecidableEq, Repr

/-- Go `serviceClient.ValidateName` (service.go:318).  The transport decodes
the answer into the boolean `nameExists`. -/
def serviceClient.ValidateName {σ ε : Type} (tr : Transport σ ε Bool)
    (opts : ValidateNameOptions) (w : World σ) : Reply ValidationResult ε σ :=
  let req := Request.Get.Resource "service/name/check"
  let req := req.Param "name" opts.Name
  let req := if opts.ID ≠ "" then req.Param "id" opts.ID else req
  match req.Do tr w with
  | (Except.error err, w1) => ⟨none, some (GoError.transport err), w1⟩
  | (Except.ok nameExists, w1) =>
    let result : ValidationResult := { IsValid := !nameExists, Message := "" }
    let result :=
      if nameExists then
        { result with Message := "service name '" ++ opts.Name ++ "' already exists" }
      else result
    ⟨some result, none, w1⟩

/-- Go `serviceClient.RollBack` (service.go:349).  The declaration of
`Transaction` is not part of the snapshot: the type and its zero value
`&Transaction{}` are parameters.  `result` is returned whether or not the
request failed. -/
def serviceClient.RollBack {σ ε Transaction : Type} (zero : Transaction)
    (tr : Transport σ ε Transaction) (req : RollBackRequest) (w : World σ) :
    Reply Transaction ε σ :=
  let result : Transaction := zero
  match (((Request.Put.Resource "service").Subresource "rollback").Body
      (Body.rollBack req)).Do tr w with
  | (Except.error err, w1) => ⟨some result, some (GoError.transport err), w1⟩
  | (Except.ok decoded, w1) => ⟨some decoded, none, w1⟩

/-- The `for i, t := range req.Templates` pre-check of Go
`templateClient.UpdateTemplatesByID` (template.go:115-119), from index `i` on:
the message of the error it returns, or `none` when the loop runs out. -/
def templateClient.UpdateTemplatesByID.check :
    List TemplateUpdateBatchSpec → Nat → Option String
  | [], _ => none
  | t :: rest, i =>
    if t.ID = "" then
      some ("template ID is required for UpdateTemplatesByID at index " ++ Itoa i)
    else templateClient.UpdateTemplatesByID.check rest (i + 1)

/-- Go `templateClient.UpdateTemplatesByID` (template.go:113).  The element
type of the decoded result is not inspected and is a parameter. -/
def templateClient.UpdateTemplatesByID {σ ε α : Type} (tr : Transport σ ε (List α))
    (req : UpdateTemplatesBatchRequest) (w : World σ) : Returned (GoError ε) α σ :=
  match templateClient.UpdateTemplatesByID.check req.Templates 0 with
  | some msg => ⟨[], some (GoError.errorf msg), w⟩
  | none =>
    match ((Request.Put.Resource "provision-templates").Body
        (Body.updateTemplatesBatch req)).Do tr w with
    | (Except.error err, w1) => ⟨[], some (GoError.transport err), w1⟩
    | (Except.ok result, w1) => ⟨result, none, w1⟩

/-- The `for i, t := range req.Templates` pre-check of Go
`templateClient.UpdateTemplatesByName` (template.go:135-139), from index `i`
on. -/
def templateClient.UpdateTemplatesByName.check :
    List TemplateUpdateBatchSpec → Nat → Option String
  | [], _ => none
  | t :: rest, i =>
    if t.Name = "" then
      some ("template Name is required for UpdateTemplatesByName at index " ++ Itoa i)
    else templateClient.UpdateTemplatesByName.check rest (i + 1)

/-- Go `templateClient.UpdateTemplatesByName` (template.go:133). -/
def templateClient.UpdateTemplatesByName {σ ε α : Type} (tr : Transport σ ε (List α))
    (req : UpdateTemplatesBatchRequest) (w : World σ) : Returned (GoError ε) α σ :=
  match templateClient.UpdateTemplatesByName.check req.Templates 0 with
  | some msg => ⟨[], some (GoError.errorf msg), w⟩
  | none =>
    match ((Request.Put.Resource "provision-templates/images").Body
        (Body.updateTemplatesBatch req)).Do tr w with
    | (Except.error err, w1) => ⟨[], some (GoError.transport err), w1⟩
    | (Except.ok result, w1) => ⟨result, none, w1⟩

/-- Test transport that fails every request with the error `e`. -/
def errorServer {ρ : Type} (e : String) : Transport Unit String ρ :=
  fun _ s => (Except.error e, s)

/-- Items of the pages `1 .. k` of a sequence of pages, in page order and
in-page order. -/
def concatPages {α : Type} (items : Nat → List α) : Nat → List α
  | 0 => []
  | k + 1 => concatPages items k ++ items (k + 1)

/-- Test transport that answers the request for page `p` (recognised by the
decimal numeral in `pageNum`, `1 ≤ p ≤ pages.length`) with the `p`-th entry
of `pages`, and any other request with `dflt`. -/
def scriptedServer {ρ : Type} (pages : List ρ) (dflt : ρ) : Transport Unit String ρ :=
  fun req s =>
    match (List.range pages.length).find?
        (fun i => req.getParam "pageNum" == some (Itoa ((i + 1 : Nat) : Int))) with
    | some i => (Except.ok (pages.getD i dflt), s)
    | none => (Except.ok dflt, s)

/-- Pages of the worked instance of an inconsistent server: page 1 carries
two items and total 5, page 2 carries one item and total 3. -/
def demoServicePages : List (ServiceList Nat) := [⟨5, 1, 2, [10, 20]⟩, ⟨3, 2, 2, [30]⟩]

/-- The same pages as answers of `ListRecord`. -/
def demoRecordPages : List (RecordList Nat) := [⟨5, 1, 2, [10, 20]⟩, ⟨3, 2, 2, [30]⟩]

/-- The same pages as answers of `ListMicroService`. -/
def demoMicroPages : List (MicroServiceList Nat) := [⟨5, 1, 2, [10, 20]⟩, ⟨3, 2, 2, [30]⟩]

/-! ## The source loops are instances of `pageLoop` -/

theorem loop_services {σ ε α : Type} (tr : Transport σ ε (ServiceList α)) :
    ∀ (fuel : Nat) (opts : ListServicesOptions) (acc : List α) (w : World σ),
      serviceClient.ListAll.loop tr fuel opts acc w =
        pageLoop (serviceClient.List tr) (fun pg => pg.Items)
          (fun _ acc pg => decide ((acc.length : Int) ≥ pg.Total))
          (fun o => { o with PageNum := o.PageNum + 1 }) fuel opts acc w := by
  intro fuel
  induction fuel with
  | zero => intro opts acc w; rfl
  | succ n ih =>
    intro opts acc w
    simp only [serviceClient.ListAll.loop, pageLoop]
    rcases serviceClient.List tr opts w with ⟨_ | pg, w1⟩
    · rfl
    · simp only [ih, decide_eq_true_eq]

theorem loop_records {σ ε α : Type} (tr : Transport σ ε (RecordList α)) :
    ∀ (fuel : Nat) (opts : ListRecordOptions) (acc : List α) (w : World σ),
      recordClient.ListAllRecord.loop tr fuel opts acc w =
        pageLoop (recordClient.ListRecord tr) (fun pg => pg.Items)
          (fun _ acc pg => decide ((acc.length : Int) ≥ pg.Total))
          (fun o => { o with PageNum := o.PageNum + 1 }) fuel opts acc w := by
  intro fuel
  induction fuel with
  | zero => intro opts acc w; rfl
  | succ n ih =>
    intro opts acc w
    simp only [recordClient.ListAllRecord.loop, pageLoop]
    rcases recordClient.ListRecord tr opts w with ⟨_ | pg, w1⟩
    · rfl
    · simp only [ih, decide_eq_true_eq]

theorem loop_microservices {σ ε α : Type} (tr : Transport σ ε (MicroServiceList α)) :
    ∀ (fuel : Nat) (opts : ListMicroServicesOptions) (acc : List α) (w : World σ),
      MicroserviceClient.ListAllMicroService.loop tr fuel opts acc w =
        pageLoop (MicroserviceClient.ListMicroService tr) (fun pg => pg.Items)
          (fun _ acc pg => decide ((acc.length : Int) ≥ pg.Total))
          (fun o => { o with PageNum := o.PageNum + 1 }) fuel opts acc w := by
  intro fuel
  induction fuel with
  | zero => intro opts acc w; rfl
  | succ n ih =>
    intro opts acc w
    simp only [MicroserviceClient.ListAllMicroService.loop, pageLoop]
    rcases MicroserviceClient.ListMicroService tr opts w with ⟨_ | pg, w1⟩
    · rfl
    · simp only [ih, decide_eq_true_eq]

theorem loop_configs {σ ε α : Type} (tr : Transport σ ε (List α)) :
    ∀ (fuel : Nat) (opts : ListConfigsOptions) (acc : List α) (w : World σ),
      configClient.ListAllConfig.loop tr fuel opts acc w =
        pageLoop (configClient.ListConfig tr) (fun pg => pg)
          (fun o _ pg => decide ((pg.length : Int) < o.PageSize))
          (fun o => { o with PageNum := o.PageNum + 1 }) fuel opts acc w := by
  intro fuel
  induction fuel with
  | zero => intro opts acc w; rfl
  | succ n ih =>
    intro opts acc w
    simp only [configClient.ListAllConfig.loop, pageLoop]
    rcases configClient.ListConfig tr opts w with ⟨_ | pg, w1⟩
    · rfl
    · simp only [ih, decide_eq_true_eq]

/-! ## One iteration of `pageLoop` -/

section Engine

variable {O ρ σ ε α : Type} (list : O → World σ → Except ε ρ × World σ)
  (items : ρ → List α) (stop : O → List α → ρ → Bool) (next : O → O)

theorem pageLoop_error (fuel : Nat) (o : O) (acc : List α) (w w1 : World σ) (e : ε)
    (h : list o w = (Except.error e, w1)) :
    pageLoop list items stop next (fuel + 1) o acc w = Run.done ⟨[], some e, w1⟩ := by
  simp only [pageLoop, h]

theorem pageLoop_empty (fuel : Nat) (o : O) (acc : List α) (w w1 : World σ) (pg : ρ)
    (h : list o w = (Except.ok pg, w1)) (h0 : items pg = []) :
    pageLoop list items stop next (fuel + 1) o acc w = Run.done ⟨acc, none, w1⟩ := by
  simp [pageLoop, h, h0]

theorem pageLoop_stop (fuel : Nat) (o : O) (acc : List α) (w w1 : World σ) (pg : ρ)
    (h : list o w = (Except.ok pg, w1)) (h0 : items pg ≠ [])
    (hs : stop o (acc ++ items pg) pg = true) :
    pageLoop list items stop next (fuel + 1) o acc w =
      Run.done ⟨acc ++ items pg, none, w1⟩ := by
  simp [pageLoop, h, h0, hs]

theorem pageLoop_next (fuel : Nat) (o : O) (acc : List α) (w w1 : World σ) (pg : ρ)
    (h : list o w = (Except.ok pg, w1)) (h0 : items pg ≠ [])
    (hs : stop o (acc ++ items pg) pg = false) :
    pageLoop list items stop next (fuel + 1) o acc w =
      pageLoop list items stop next fuel (next o) (acc ++ items pg) w1 := by
  simp [pageLoop, h, h0, hs]

/-- A run that is still going after `k` iterations continues from the state
it reached. -/
theorem pageLoop_resume :
    ∀ (k m : Nat) (o : O) (acc : List α) (w : World σ) (st : LoopState O α σ),
      pageLoop list items stop next k o acc w = Run.running st →
      pageLoop list items stop next (k + m) o acc w =
        pageLoop list items stop next m st.opts st.allItems st.world := by
  intro k
  induction k with
  | zero =>
    intro m o acc w st h
    simp only [pageLoop, Run.running.injEq] at h
    subst h
    simp
  | succ n ih =>
    intro m o acc w st h
    have hk : n + 1 + m = (n + m) + 1 := by omega
    rw [hk]
    simp only [pageLoop] at h ⊢
    rcases hl : list o w with ⟨e | pg, w1⟩
    · rw [hl] at h
      simp at h
    · rw [hl] at h
      simp only at h ⊢
      by_cases h0 : (items pg).length = 0
      · simp [h0] at h
      · by_cases hs : stop o (acc ++ items pg) pg = true
        · simp [h0, hs] at h
        · simp only [h0, hs, if_false] at h ⊢
          exact ih m _ _ _ st h

/-- A finished run stays finished with more budget. -/
theorem pageLoop_done_mono :
    ∀ (k m : Nat) (o : O) (acc : List α) (w : World σ) (r : Returned ε α σ),
      pageLoop list items stop next k o acc w = Run.done r →
      pageLoop list items stop next (k + m) o acc w = Run.done r := by
  intro k
  induction k with
  | zero =>
    intro m o acc w r h
    simp [pageLoop] at h
  | succ n ih =>
    intro m o acc w r h
    have hk : n + 1 + m = (n + m) + 1 := by omega
    rw [hk]
    simp only [pageLoop] at h ⊢
    rcases hl : list o w with ⟨e | pg, w1⟩
    · rw [hl] at h
      exact h
    · rw [hl] at h
      simp only at h ⊢
      by_cases h0 : (items pg).length = 0
      · simpa [h0] using h
      · by_cases hs : stop o (acc ++ items pg) pg = true
        · simpa [h0, hs] using h
        · simp only [h0, hs, if_false] at h ⊢
          exact ih m _ _ _ r h

/-- The requests logged by a run are those of the options `o`, `next o`,
`next (next o)`, ..., one per iteration, and at least one when the budget is
positive. -/
theorem pageLoop_sent (reqOf : O → Request)
    (hs : ∀ o w, (list o w).2.sent = w.sent ++ [reqOf o]) :
    ∀ (fuel : Nat) (o : O) (acc : List α) (w : World σ),
      ∃ n, n ≤ fuel ∧ (0 < fuel → 0 < n) ∧
        (pageLoop list items stop next fuel o acc w).world.sent =
          w.sent ++ (List.range n).map (fun j => reqOf (next^[j] o)) := by
  intro fuel
  induction fuel with
  | zero =>
    intro o acc w
    exact ⟨0, le_refl _, by simp, by simp [pageLoop, Run.world]⟩
  | succ n ih =>
    intro o acc w
    have h1 := hs o w
    simp only [pageLoop]
    rcases hl : list o w with ⟨e | pg, w1⟩
    · rw [hl] at h1
      exact ⟨1, by omega, by simp, by simpa [Run.world] using h1⟩
    · rw [hl] at h1
      simp only at h1 ⊢
      by_cases h0 : (items pg).length = 0
      · exact ⟨1, by omega, by simp, by simpa [Run.world, h0] using h1⟩
      · by_cases hst : stop o (acc ++ items pg) pg = true
        · exact ⟨1, by omega, by simp, by simpa [Run.world, h0, hst] using h1⟩
        · obtain ⟨m, hm, _, hsent⟩ := ih (next o) (acc ++ items pg) w1
          refine ⟨m + 1, by omega, by simp, ?_⟩
          have hif : (if stop o (acc ++ items pg) pg = true then
                (Run.done ⟨acc ++ items pg, none, w1⟩ :
                  Run (LoopState O α σ) (Returned ε α σ))
              else pageLoop list items stop next n (next o) (acc ++ items pg) w1) =
              pageLoop list items stop next n (next o) (acc ++ items pg) w1 := by
            simp [hst]
          simp only [h0, if_false]
          rw [hif, hsent, h1, List.range_succ_eq_map]
          simp [Function.comp_def]

/-- A run still going after `k` iterations has logged exactly `k` requests. -/
theorem pageLoop_running_sent (reqOf : O → Request)
    (hs : ∀ o w, (list o w).2.sent = w.sent ++ [reqOf o]) :
    ∀ (k : Nat) (o : O) (acc : List α) (w : World σ) (st : LoopState O α σ),
      pageLoop list items stop next k o acc w = Run.running st →
      st.world.sent.length = w.sent.length + k := by
  intro k
  induction k with
  | zero =>
    intro o acc w st h
    simp only [pageLoop, Run.running.injEq] at h
    subst h
    simp
  | succ n ih =>
    intro o acc w st h
    have h1 := hs o w
    simp only [pageLoop] at h
    rcases hl : list o w with ⟨e | pg, w1⟩
    · rw [hl] at h
      simp at h
    · rw [hl] at h h1
      simp only at h h1
      by_cases h0 : (items pg).length = 0
      · simp [h0] at h
      · by_cases hst : stop o (acc ++ items pg) pg = true
        · simp [h0, hst] at h
        · simp only [h0, hst, if_false] at h
          have := ih _ _ _ st h
          rw [this, h1]
          simp only [List.length_append, List.length_singleton]
          omega

end Engine

/-! ## Runs against a faithfully paged dataset -/

section Faithful

variable {O ρ σ ε α : Type} (list : O → World σ → Except ε ρ × World σ)
  (items : ρ → List α) (stop : O → List α → ρ → Bool) (next : O → O)
  (reqOf : O → Request) (data : List α) (S : Nat) (o : O)

theorem take_page (i : Nat) :
    data.take (i * S) ++ (data.drop (i * S)).take S = data.take ((i + 1) * S) := by
  rw [Nat.succ_mul, List.take_add]

theorem page_length (i : Nat) :
    ((data.drop (i * S)).take S).length = min S (data.length - i * S) := by
  simp [List.length_take, List.length_drop]

/-- Count-based policy, total reported exactly: from iteration `i` with
`k + 1` pages left, the loop returns the dataset after exactly `k + 1`
requests. -/
theorem count_exact (B : Nat) (hS : 1 ≤ S)
    (hsent : ∀ o w, (list o w).2.sent = w.sent ++ [reqOf o])
    (hpage : ∀ i, i ≤ B → ∀ w0, ∃ pg, (list (next^[i] o) w0).1 = Except.ok pg ∧
      items pg = (data.drop (i * S)).take S ∧
      ∀ acc, stop (next^[i] o) acc pg = decide (data.length ≤ acc.length)) :
    ∀ (k i : Nat) (acc : List α) (w : World σ) (extra : Nat),
      acc = data.take (i * S) → (i + k) * S < data.length →
      data.length ≤ (i + k + 1) * S → i + k ≤ B →
      ∃ w1, pageLoop list items stop next (k + 1 + extra) (next^[i] o) acc w =
          Run.done ⟨data, none, w1⟩ ∧
        w1.sent = w.sent ++ (List.range (k + 1)).map (fun j => reqOf (next^[i + j] o)) := by
  intro k
  induction k with
  | zero =>
    intro i acc w extra hacc hlt hle hB
    obtain ⟨pg, hpg, hit, hst⟩ := hpage i (by omega) w
    have hl : list (next^[i] o) w = (Except.ok pg, (list (next^[i] o) w).2) := by
      rw [← hpg]
    have hne : items pg ≠ [] := by
      intro h0
      have := congrArg List.length h0
      rw [hit, page_length] at this
      simp only [Nat.add_zero, List.length_nil] at this hlt
      omega
    have hfull : acc ++ items pg = data := by
      rw [hacc, hit, take_page]
      exact List.take_of_length_le (by simpa using hle)
    refine ⟨(list (next^[i] o) w).2, ?_, ?_⟩
    · have := pageLoop_stop list items stop next (0 + extra) (next^[i] o) acc w _ pg hl hne
        (by rw [hst, hfull]; simp)
      rw [hfull] at this
      have hk : 0 + 1 + extra = 0 + extra + 1 := by omega
      rw [hk]
      exact this
    · simpa using hsent (next^[i] o) w
  | succ n ih =>
    intro i acc w extra hacc hlt hle hB
    obtain ⟨pg, hpg, hit, hst⟩ := hpage i (by omega) w
    have hl : list (next^[i] o) w = (Except.ok pg, (list (next^[i] o) w).2) := by
      rw [← hpg]
    have hmono : (i + 1) * S ≤ (i + (n + 1)) * S := Nat.mul_le_mul_right S (by omega)
    have hi : i * S + S = (i + 1) * S := by rw [Nat.succ_mul]
    have hne : items pg ≠ [] := by
      intro h0
      have := congrArg List.length h0
      rw [hit, page_length] at this
      simp only [List.length_nil] at this
      omega
    have hacc1 : acc ++ items pg = data.take ((i + 1) * S) := by
      rw [hacc, hit, take_page]
    have hns : stop (next^[i] o) (acc ++ items pg) pg = false := by
      rw [hst, hacc1, List.length_take]
      simp only [decide_eq_false_iff_not, not_le]
      omega
    have h1 : i + 1 + n = i + (n + 1) := by omega
    obtain ⟨w1, hrun, hsent1⟩ := ih (i + 1) (acc ++ items pg) (list (next^[i] o) w).2 extra
      hacc1 (by rw [h1]; exact hlt) (by rw [h1]; exact hle) (by omega)
    refine ⟨w1, ?_, ?_⟩
    · have hk : n + 1 + 1 + extra = (n + 1 + extra) + 1 := by omega
      rw [hk, pageLoop_next list items stop next _ _ acc w _ pg hl hne hns,
        ← Function.iterate_succ_apply' next i o]
      exact hrun
    · rw [hsent1, hsent (next^[i] o) w, List.range_succ_eq_map (n + 1)]
      simp only [List.map_cons, List.map_map, List.append_assoc, List.singleton_append,
        Nat.add_zero, Function.comp_def]
      have : ∀ j, i + 1 + j = i + (j + 1) := by intro j; omega
      simp only [this, Nat.succ_eq_add_one]

/-- Count-based policy, total reported above the real size: from iteration
`i` with `k` pages of data left, the loop returns the dataset after exactly
`k + 1` requests (the last one is answered by an empty page). -/
theorem count_over (B : Nat) (hS : 1 ≤ S)
    (hsent : ∀ o w, (list o w).2.sent = w.sent ++ [reqOf o])
    (hpage : ∀ i, i ≤ B → ∀ w0, ∃ pg, (list (next^[i] o) w0).1 = Except.ok pg ∧
      items pg = (data.drop (i * S)).take S ∧
      ∀ acc, acc.length ≤ data.length → stop (next^[i] o) acc pg = false) :
    ∀ (k i : Nat) (acc : List α) (w : World σ) (extra : Nat),
      acc = data.take (i * S) → data.length ≤ (i + k) * S →
      (1 ≤ k → (i + k - 1) * S < data.length) → i + k ≤ B →
      ∃ w1, pageLoop list items stop next (k + 1 + extra) (next^[i] o) acc w =
          Run.done ⟨data, none, w1⟩ ∧
        w1.sent = w.sent ++ (List.range (k + 1)).map (fun j => reqOf (next^[i + j] o)) := by
  intro k
  induction k with
  | zero =>
    intro i acc w extra hacc hle _ hB
    obtain ⟨pg, hpg, hit, _⟩ := hpage i (by omega) w
    have hl : list (next^[i] o) w = (Except.ok pg, (list (next^[i] o) w).2) := by
      rw [← hpg]
    have h0 : items pg = [] := by
      apply List.eq_nil_of_length_eq_zero
      rw [hit, page_length]
      simp only [Nat.add_zero] at hle
      omega
    have hfull : acc = data := by
      rw [hacc]
      exact List.take_of_length_le (by simpa using hle)
    refine ⟨(list (next^[i] o) w).2, ?_, ?_⟩
    · have := pageLoop_empty list items stop next (0 + extra) (next^[i] o) acc w _ pg hl h0
      have hk : 0 + 1 + extra = 0 + extra + 1 := by omega
      rw [hk]
      rw [hfull] at this ⊢
      exact this
    · simpa using hsent (next^[i] o) w
  | succ n ih =>
    intro i acc w extra hacc hle hlt hB
    obtain ⟨pg, hpg, hit, hst⟩ := hpage i (by omega) w
    have hl : list (next^[i] o) w = (Except.ok pg, (list (next^[i] o) w).2) := by
      rw [← hpg]
    have hlt1 : (i + n) * S < data.length := by
      have := hlt (by omega)
      simpa using this
    have hmono : i * S ≤ (i + n) * S := Nat.mul_le_mul_right S (by omega)
    have hne : items pg ≠ [] := by
      intro h0
      have := congrArg List.length h0
      rw [hit, page_length] at this
      simp only [List.length_nil] at this
      omega
    have hacc1 : acc ++ items pg = data.take ((i + 1) * S) := by
      rw [hacc, hit, take_page]
    have hns : stop (next^[i] o) (acc ++ items pg) pg = false := by
      apply hst
      rw [hacc1, List.length_take]
      omega
    have h1 : i + 1 + n = i + (n + 1) := by omega
    obtain ⟨w1, hrun, hsent1⟩ := ih (i + 1) (acc ++ items pg) (list (next^[i] o) w).2 extra
      hacc1 (by rw [h1]; exact hle)
      (by
        intro _
        have h2 : i + 1 + n - 1 = i + n := by omega
        rw [h2]; exact hlt1)
      (by omega)
    refine ⟨w1, ?_, ?_⟩
    · have hk : n + 1 + 1 + extra = (n + 1 + extra) + 1 := by omega
      rw [hk, pageLoop_next list items stop next _ _ acc w _ pg hl hne hns,
        ← Function.iterate_succ_apply' next i o]
      exact hrun
    · rw [hsent1, hsent (next^[i] o) w, List.range_succ_eq_map (n + 1)]
      simp only [List.map_cons, List.map_map, List.append_assoc, List.singleton_append,
        Nat.add_zero, Function.comp_def]
      have : ∀ j, i + 1 + j = i + (j + 1) := by intro j; omega
      simp only [this, Nat.succ_eq_add_one]

/-- Short-page policy: from iteration `i` with `k` full pages left, the loop
returns the dataset after exactly `k + 1` requests. -/
theorem short_exact (B : Nat) (hS : 1 ≤ S)
    (hsent : ∀ o w, (list o w).2.sent = w.sent ++ [reqOf o])
    (hpage : ∀ i, i ≤ B → ∀ w0, ∃ pg, (list (next^[i] o) w0).1 = Except.ok pg ∧
      items pg = (data.drop (i * S)).take S ∧
      ∀ acc, stop (next^[i] o) acc pg = decide ((items pg).length < S)) :
    ∀ (k i : Nat) (acc : List α) (w : World σ) (extra : Nat),
      acc = data.take (i * S) → (i + k) * S ≤ data.length →
      data.length < (i + k + 1) * S → i + k ≤ B →
      ∃ w1, pageLoop list items stop next (k + 1 + extra) (next^[i] o) acc w =
          Run.done ⟨data, none, w1⟩ ∧
        w1.sent = w.sent ++ (List.range (k + 1)).map (fun j => reqOf (next^[i + j] o)) := by
  intro k
  induction k with
  | zero =>
    intro i acc w extra hacc hle hlt hB
    obtain ⟨pg, hpg, hit, hst⟩ := hpage i (by omega) w
    have hl : list (next^[i] o) w = (Except.ok pg, (list (next^[i] o) w).2) := by
      rw [← hpg]
    have hi : i * S + S = (i + 1) * S := by rw [Nat.succ_mul]
    simp only [Nat.add_zero] at hle hlt
    have hk : 0 + 1 + extra = 0 + extra + 1 := by omega
    refine ⟨(list (next^[i] o) w).2, ?_, by simpa using hsent (next^[i] o) w⟩
    rw [hk]
    by_cases h0 : items pg = []
    · have hfull : acc = data := by
        rw [hacc]
        apply List.take_of_length_le
        have := congrArg List.length h0
        rw [hit, page_length] at this
        simp only [List.length_nil] at this
        omega
      have := pageLoop_empty list items stop next (0 + extra) (next^[i] o) acc w _ pg hl h0
      rw [hfull] at this ⊢
      exact this
    · have hfull : acc ++ items pg = data := by
        rw [hacc, hit, take_page]
        exact List.take_of_length_le (by omega)
      have := pageLoop_stop list items stop next (0 + extra) (next^[i] o) acc w _ pg hl h0
        (by
          rw [hst, hit, page_length]
          simp only [decide_eq_true_eq]
          omega)
      rw [hfull] at this
      exact this
  | succ n ih =>
    intro i acc w extra hacc hle hlt hB
    obtain ⟨pg, hpg, hit, hst⟩ := hpage i (by omega) w
    have hl : list (next^[i] o) w = (Except.ok pg, (list (next^[i] o) w).2) := by
      rw [← hpg]
    have hmono : (i + 1) * S ≤ (i + (n + 1)) * S := Nat.mul_le_mul_right S (by omega)
    have hi : i * S + S = (i + 1) * S := by rw [Nat.succ_mul]
    have hlen : (items pg).length = S := by
      rw [hit, page_length]
      omega
    have hne : items pg ≠ [] := by
      intro h0
      rw [h0] at hlen
      simp only [List.length_nil] at hlen
      omega
    have hacc1 : acc ++ items pg = data.take ((i + 1) * S) := by
      rw [hacc, hit, take_page]
    have hns : stop (next^[i] o) (acc ++ items pg) pg = false := by
      rw [hst, hlen]
      simp
    have h1 : i + 1 + n = i + (n + 1) := by omega
    obtain ⟨w1, hrun, hsent1⟩ := ih (i + 1) (acc ++ items pg) (list (next^[i] o) w).2 extra
      hacc1 (by rw [h1]; exact hle) (by rw [h1]; exact hlt) (by omega)
    refine ⟨w1, ?_, ?_⟩
    · have hk : n + 1 + 1 + extra = (n + 1 + extra) + 1 := by omega
      rw [hk, pageLoop_next list items stop next _ _ acc w _ pg hl hne hns,
        ← Function.iterate_succ_apply' next i o]
      exact hrun
    · rw [hsent1, hsent (next^[i] o) w, List.range_succ_eq_map (n + 1)]
      simp only [List.map_cons, List.map_map, List.append_assoc, List.singleton_append,
        Nat.add_zero, Function.comp_def]
      have : ∀ j, i + 1 + j = i + (j + 1) := by intro j; omega
      simp only [this, Nat.succ_eq_add_one]

/-! ### Arithmetic of page counts -/

theorem le_ceilDiv_mul (N : Nat) (hS : 1 ≤ S) : N ≤ ceilDiv N S * S := by
  unfold ceilDiv
  have h1 := Nat.div_add_mod (N + S - 1) S
  have h2 := Nat.mod_lt (N + S - 1) (show 0 < S by omega)
  rw [Nat.mul_comm] at h1
  omega

theorem ceilDiv_pred_mul_lt (N : Nat) (hS : 1 ≤ S) (hN : 1 ≤ N) :
    (ceilDiv N S - 1) * S < N := by
  unfold ceilDiv
  have h1 := Nat.div_add_mod (N + S - 1) S
  have h3 : 1 ≤ (N + S - 1) / S := by
    rw [Nat.one_le_div_iff (by omega)]
    omega
  rw [Nat.mul_comm] at h1
  rw [Nat.sub_mul]
  omega

theorem one_le_ceilDiv (N : Nat) (hS : 1 ≤ S) (hN : 1 ≤ N) : 1 ≤ ceilDiv N S := by
  unfold ceilDiv
  rw [Nat.one_le_div_iff (by omega)]
  omega

theorem div_mul_le (N : Nat) : N / S * S ≤ N := Nat.div_mul_le_self N S

theorem lt_div_succ_mul (N : Nat) (hS : 1 ≤ S) : N < (N / S + 1) * S := by
  have h1 := Nat.div_add_mod N S
  have h2 := Nat.mod_lt N (show 0 < S by omega)
  rw [Nat.mul_comm] at h1
  rw [Nat.succ_mul]
  omega

theorem ceilDiv_le_div_succ (N : Nat) (hS : 1 ≤ S) : ceilDiv N S ≤ N / S + 1 := by
  unfold ceilDiv
  have h : N + S - 1 < (N / S + 1 + 1) * S := by
    have := lt_div_succ_mul S N hS
    rw [Nat.succ_mul (N / S + 1)]
    omega
  have := (Nat.div_lt_iff_lt_mul (show 0 < S by omega)).2 h
  omega

/-! ### Whole runs from the first page -/

/-- Count-based policy against a server reporting the exact total: the
dataset after exactly `max 1 (ceil (N/S))` requests. -/
theorem count_run (B : Nat) (hS : 1 ≤ S)
    (hsent : ∀ o w, (list o w).2.sent = w.sent ++ [reqOf o])
    (hpage : ∀ i, i ≤ B → ∀ w0, ∃ pg, (list (next^[i] o) w0).1 = Except.ok pg ∧
      items pg = (data.drop (i * S)).take S ∧
      ∀ acc, stop (next^[i] o) acc pg = decide (data.length ≤ acc.length))
    (hB : max 1 (ceilDiv data.length S) ≤ B + 1) (w : World σ) (extra : Nat) :
    ∃ w1, pageLoop list items stop next (max 1 (ceilDiv data.length S) + extra) o [] w =
        Run.done ⟨data, none, w1⟩ ∧
      w1.sent = w.sent ++
        (List.range (max 1 (ceilDiv data.length S))).map (fun j => reqOf (next^[j] o)) := by
  rcases Nat.eq_zero_or_pos data.length with h0 | hpos
  · have hnil : data = [] := List.eq_nil_of_length_eq_zero h0
    obtain ⟨pg, hpg, hit, _⟩ := hpage 0 (by omega) w
    have hl : list o w = (Except.ok pg, (list o w).2) := by
      rw [← hpg]; rfl
    have hc : max 1 (ceilDiv data.length S) = 1 := by
      rw [h0]
      have : ceilDiv 0 S = 0 := by
        unfold ceilDiv
        exact Nat.div_eq_of_lt (by omega)
      rw [this]; rfl
    rw [hc]
    refine ⟨(list o w).2, ?_, by simpa using hsent o w⟩
    have hk : 1 + extra = extra + 1 := by omega
    rw [hk, pageLoop_empty list items stop next extra o [] w _ pg hl (by rw [hit, hnil]; simp),
      hnil]
  · have h1 := one_le_ceilDiv S data.length hS hpos
    have h2 := ceilDiv_pred_mul_lt S data.length hS hpos
    have h3 := le_ceilDiv_mul S data.length hS
    have hc : max 1 (ceilDiv data.length S) = (ceilDiv data.length S - 1) + 1 := by
      rw [Nat.max_eq_right h1]; omega
    rw [hc] at hB ⊢
    have := count_exact list items stop next reqOf data S o B hS hsent hpage
      (ceilDiv data.length S - 1) 0 [] w extra (by simp) (by simpa using h2)
      (by
        have h4 : 0 + (ceilDiv data.length S - 1) + 1 = ceilDiv data.length S := by omega
        rw [h4]; exact h3)
      (by omega)
    simpa using this

/-- Count-based policy against a server reporting a total above the real
size: the dataset after exactly `ceil (N/S) + 1` requests. -/
theorem over_run (B : Nat) (hS : 1 ≤ S)
    (hsent : ∀ o w, (list o w).2.sent = w.sent ++ [reqOf o])
    (hpage : ∀ i, i ≤ B → ∀ w0, ∃ pg, (list (next^[i] o) w0).1 = Except.ok pg ∧
      items pg = (data.drop (i * S)).take S ∧
      ∀ acc, acc.length ≤ data.length → stop (next^[i] o) acc pg = false)
    (hB : ceilDiv data.length S ≤ B) (w : World σ) (extra : Nat) :
    ∃ w1, pageLoop list items stop next (ceilDiv data.length S + 1 + extra) o [] w =
        Run.done ⟨data, none, w1⟩ ∧
      w1.sent = w.sent ++
        (List.range (ceilDiv data.length S + 1)).map (fun j => reqOf (next^[j] o)) := by
  have h3 := le_ceilDiv_mul S data.length hS
  have := count_over list items stop next reqOf data S o B hS hsent hpage
    (ceilDiv data.length S) 0 [] w extra (by simp) (by simpa using h3)
    (by
      intro h1
      have hpos : 1 ≤ data.length := by
        by_contra hn
        have h0 : data.length = 0 := by omega
        rw [h0] at h1
        have : ceilDiv 0 S = 0 := by
          unfold ceilDiv
          exact Nat.div_eq_of_lt (by omega)
        omega
      simpa using ceilDiv_pred_mul_lt S data.length hS hpos)
    (by omega)
  simpa using this

/-- Short-page policy: the dataset after exactly `N / S + 1` requests. -/
theorem short_run (B : Nat) (hS : 1 ≤ S)
    (hsent : ∀ o w, (list o w).2.sent = w.sent ++ [reqOf o])
    (hpage : ∀ i, i ≤ B → ∀ w0, ∃ pg, (list (next^[i] o) w0).1 = Except.ok pg ∧
      items pg = (data.drop (i * S)).take S ∧
      ∀ acc, stop (next^[i] o) acc pg = decide ((items pg).length < S))
    (hB : data.length / S ≤ B) (w : World σ) (extra : Nat) :
    ∃ w1, pageLoop list items stop next (data.length / S + 1 + extra) o [] w =
        Run.done ⟨data, none, w1⟩ ∧
      w1.sent = w.sent ++
        (List.range (data.length / S + 1)).map (fun j => reqOf (next^[j] o)) := by
  have := short_exact list items stop next reqOf data S o B hS hsent hpage
    (data.length / S) 0 [] w extra (by simp) (by simpa using div_mul_le S data.length)
    (by simpa using lt_div_succ_mul S data.length hS) (by omega)
  simpa using this

end Faithful

/-! ## The four clients as instances of the engine -/

section Services

variable {σ ε α : Type} (tr : Transport σ ε (ServiceList α))

theorem services_list_eq (opts : ListServicesOptions) (w : World σ) :
    serviceClient.List tr opts w = (servicesRequest opts).Do tr w := by
  unfold serviceClient.List servicesRequest
  dsimp only
  split <;> (rename_i h; exact h.symm)

theorem services_sent (o : ListServicesOptions) (w : World σ) :
    (serviceClient.List tr o w).2.sent = w.sent ++ [servicesRequest o] := by
  rw [services_list_eq]; rfl

theorem services_iterate (i : Nat) : ∀ o : ListServicesOptions,
    (fun o : ListServicesOptions => { o with PageNum := o.PageNum + 1 })^[i] o =
      { o with PageNum := o.PageNum + i } := by
  induction i with
  | zero => intro o; simp
  | succ n ih =>
    intro o
    rw [Function.iterate_succ_apply, ih]
    simp only [Nat.cast_add, Nat.cast_one, Int.add_assoc, Int.add_comm 1 (n : Int)]

theorem services_start (fuel : Nat) (opts : ListServicesOptions) (w : World σ) :
    serviceClient.ListAll tr fuel opts w =
      pageLoop (serviceClient.List tr) (fun pg => pg.Items)
        (fun _ acc pg => decide ((acc.length : Int) ≥ pg.Total))
        (fun o => { o with PageNum := o.PageNum + 1 }) fuel
        { opts with PageNum := 1,
                    PageSize := if opts.PageSize = 0 then 100 else opts.PageSize } [] w := by
  unfold serviceClient.ListAll
  rw [loop_services]
  by_cases h : opts.PageSize = 0 <;> simp [h]

theorem services_pageNum (o : ListServicesOptions) :
    (servicesRequest o).getParam "pageNum" = some (Itoa o.PageNum) := by
  unfold servicesRequest
  first
    | rfl
    | (split_ifs <;> rfl)

theorem services_pageSize (o : ListServicesOptions) :
    (servicesRequest o).getParam "pageSize" = some (Itoa o.PageSize) := by
  unfold servicesRequest
  first
    | rfl
    | (split_ifs <;> rfl)

theorem services_pages (opts : ListServicesOptions) (data : List α) (S : Nat) (T : Int)
    (B : Nat) (hne : opts.PageSize ≠ 0) (h : FaithfulServices tr opts data S T B) :
    ∀ i, i + 1 ≤ B → ∀ w0 : World σ, ∃ pg,
      (serviceClient.List tr
        ((fun o : ListServicesOptions => { o with PageNum := o.PageNum + 1 })^[i]
          { opts with PageNum := 1,
                      PageSize := if opts.PageSize = 0 then 100 else opts.PageSize }) w0).1 =
        Except.ok pg ∧ pg.Items = (data.drop (i * S)).take S ∧ pg.Total = T := by
  intro i hi w0
  obtain ⟨pg, h1, h2, h3⟩ := h (i + 1) (by omega) hi w0
  refine ⟨pg, ?_, ?_, h3⟩
  · rw [services_iterate, ← h1]
    simp only [hne, if_false, Nat.cast_add, Nat.cast_one]
    rw [Int.add_comm]
  · rw [h2]; simp [pageOf]

theorem services_reqs (opts : ListServicesOptions) (hne : opts.PageSize ≠ 0) (n : Nat) :
    (List.range n).map (fun j => servicesRequest
        ((fun o : ListServicesOptions => { o with PageNum := o.PageNum + 1 })^[j]
          { opts with PageNum := 1,
                      PageSize := if opts.PageSize = 0 then 100 else opts.PageSize })) =
      (List.range n).map (fun j => servicesRequest { opts with PageNum := ((j + 1 : Nat) : Int) }) := by
  apply List.map_congr_left
  intro j _
  rw [services_iterate]
  simp only [hne, if_false, Nat.cast_add, Nat.cast_one]
  rw [Int.add_comm]

/-- Exact total: the dataset after `max 1 (ceil (N/S))` requests. -/
theorem services_exact (opts : ListServicesOptions) (data : List α) (S : Nat)
    (hS : 1 ≤ S) (hps : opts.PageSize = S)
    (hf : FaithfulServices tr opts data S data.length (max 1 (ceilDiv data.length S)))
    (w : World σ) (extra : Nat) :
    ∃ w1, serviceClient.ListAll tr (max 1 (ceilDiv data.length S) + extra) opts w =
        Run.done ⟨data, none, w1⟩ ∧
      w1.sent = w.sent ++ (List.range (max 1 (ceilDiv data.length S))).map
        (fun j => servicesRequest { opts with PageNum := ((j + 1 : Nat) : Int) }) := by
  have hne : opts.PageSize ≠ 0 := by rw [hps]; exact_mod_cast (by omega : S ≠ 0)
  rw [services_start, ← services_reqs opts hne]
  apply count_run (serviceClient.List tr) (fun pg => pg.Items) _ _ servicesRequest data S _
    (max 1 (ceilDiv data.length S) - 1) hS (services_sent tr)
  · intro i hi w0
    obtain ⟨pg, h1, h2, h3⟩ := services_pages tr opts data S data.length _ hne hf i
      (by omega) w0
    exact ⟨pg, h1, h2, by intro acc; simp [h3]⟩
  · omega

/-- Total reported above the real size: the dataset after `ceil (N/S) + 1`
requests. -/
theorem services_over (opts : ListServicesOptions) (data : List α) (S : Nat) (T : Int)
    (hS : 1 ≤ S) (hps : opts.PageSize = S) (hT : (data.length : Int) < T)
    (hf : FaithfulServices tr opts data S T (ceilDiv data.length S + 1))
    (w : World σ) (extra : Nat) :
    ∃ w1, serviceClient.ListAll tr (ceilDiv data.length S + 1 + extra) opts w =
        Run.done ⟨data, none, w1⟩ ∧
      w1.sent = w.sent ++ (List.range (ceilDiv data.length S + 1)).map
        (fun j => servicesRequest { opts with PageNum := ((j + 1 : Nat) : Int) }) := by
  have hne : opts.PageSize ≠ 0 := by rw [hps]; exact_mod_cast (by omega : S ≠ 0)
  rw [services_start, ← services_reqs opts hne]
  apply over_run (serviceClient.List tr) (fun pg => pg.Items) _ _ servicesRequest data S _
    (ceilDiv data.length S) hS (services_sent tr)
  · intro i hi w0
    obtain ⟨pg, h1, h2, h3⟩ := services_pages tr opts data S T _ hne hf i (by omega) w0
    refine ⟨pg, h1, h2, ?_⟩
    intro acc hacc
    simp only [h3, ge_iff_le, decide_eq_false_iff_not, not_le]
    omega
  · omega

/-- First page empty: one request, empty result. -/
theorem services_empty_first (opts : ListServicesOptions) (w w1 : World σ)
    (pg : ServiceList α) (fuel : Nat)
    (h : serviceClient.List tr
      { opts with PageNum := 1,
                  PageSize := if opts.PageSize = 0 then 100 else opts.PageSize } w =
        (Except.ok pg, w1))
    (h0 : pg.Items = []) :
    serviceClient.ListAll tr (fuel + 1) opts w = Run.done ⟨[], none, w1⟩ ∧
      w1.sent.length = w.sent.length + 1 := by
  constructor
  · rw [services_start]
    exact pageLoop_empty _ _ _ _ fuel _ [] w w1 pg h h0
  · have := services_sent tr
      { opts with PageNum := 1,
                  PageSize := if opts.PageSize = 0 then 100 else opts.PageSize } w
    rw [h] at this
    simp only at this
    rw [this]
    simp

/-- First page reports total 0: one request, the items of that page. -/
theorem services_zero_total (opts : ListServicesOptions) (w w1 : World σ)
    (pg : ServiceList α) (fuel : Nat)
    (h : serviceClient.List tr
      { opts with PageNum := 1,
                  PageSize := if opts.PageSize = 0 then 100 else opts.PageSize } w =
        (Except.ok pg, w1))
    (h0 : pg.Total = 0) :
    serviceClient.ListAll tr (fuel + 1) opts w = Run.done ⟨pg.Items, none, w1⟩ ∧
      w1.sent.length = w.sent.length + 1 := by
  constructor
  · rw [services_start]
    by_cases hi : pg.Items = []
    · rw [hi]
      exact pageLoop_empty _ _ _ _ fuel _ [] w w1 pg h hi
    · have := pageLoop_stop (serviceClient.List tr) (fun pg => pg.Items)
        (fun _ acc pg => decide ((acc.length : Int) ≥ pg.Total))
        (fun o => { o with PageNum := o.PageNum + 1 }) fuel _ [] w w1 pg h hi
        (by simp [h0])
      simpa using this
  · have := services_sent tr
      { opts with PageNum := 1,
                  PageSize := if opts.PageSize = 0 then 100 else opts.PageSize } w
    rw [h] at this
    simp only at this
    rw [this]
    simp

/-- The request after `k` delivered pages fails: that error, no items, and no
further request. -/
theorem services_error (opts : ListServicesOptions) (w w1 : World σ) (k m : Nat)
    (st : LoopState ListServicesOptions α σ) (e : ε)
    (hrun : serviceClient.ListAll tr k opts w = Run.running st)
    (herr : serviceClient.List tr st.opts st.world = (Except.error e, w1)) :
    serviceClient.ListAll tr (k + 1 + m) opts w = Run.done ⟨[], some e, w1⟩ ∧
      w1.sent.length = w.sent.length + (k + 1) := by
  rw [services_start] at hrun ⊢
  constructor
  · rw [Nat.add_assoc, pageLoop_resume _ _ _ _ k (1 + m) _ _ _ st hrun, Nat.add_comm 1 m]
    exact pageLoop_error _ _ _ _ m _ _ _ w1 e herr
  · have h1 := pageLoop_running_sent _ _ _ _ servicesRequest (services_sent tr) k _ _ _ st hrun
    have h2 := services_sent tr st.opts st.world
    rw [herr] at h2
    simp only at h2
    rw [h2, List.length_append, h1]
    simp
    omega

/-- Requests of a run: the first carries `pageNum = 1`. -/
theorem services_first (opts : ListServicesOptions) (w : World σ) (fuel : Nat) :
    ∃ r rest, (serviceClient.ListAll tr (fuel + 1) opts w).world.sent = w.sent ++ r :: rest ∧
      r.getParam "pageNum" = some "1" := by
  rw [services_start]
  obtain ⟨n, _, hpos, hsent⟩ := pageLoop_sent (serviceClient.List tr) (fun pg => pg.Items)
    (fun _ acc pg => decide ((acc.length : Int) ≥ pg.Total))
    (fun o => { o with PageNum := o.PageNum + 1 }) servicesRequest (services_sent tr)
    (fuel + 1) { opts with PageNum := 1,
                           PageSize := if opts.PageSize = 0 then 100 else opts.PageSize } [] w
  obtain ⟨m, rfl⟩ : ∃ m, n = m + 1 := ⟨n - 1, by have := hpos (by omega); omega⟩
  rw [List.range_succ_eq_map, List.map_cons] at hsent
  exact ⟨_, _, hsent, by rw [Function.iterate_zero, id, services_pageNum]; rfl⟩

/-- Requests of a run: all carry the defaulted page size. -/
theorem services_sizes (opts : ListServicesOptions) (w : World σ) (fuel : Nat) :
    ∃ reqs, (serviceClient.ListAll tr fuel opts w).world.sent = w.sent ++ reqs ∧
      ∀ r ∈ reqs, r.getParam "pageSize" =
        some (Itoa (if opts.PageSize = 0 then 100 else opts.PageSize)) := by
  rw [services_start]
  obtain ⟨n, _, _, hsent⟩ := pageLoop_sent (serviceClient.List tr) (fun pg => pg.Items)
    (fun _ acc pg => decide ((acc.length : Int) ≥ pg.Total))
    (fun o => { o with PageNum := o.PageNum + 1 }) servicesRequest (services_sent tr)
    fuel { opts with PageNum := 1,
                     PageSize := if opts.PageSize = 0 then 100 else opts.PageSize } [] w
  refine ⟨_, hsent, ?_⟩
  intro r hr
  obtain ⟨j, _, rfl⟩ := List.mem_map.1 hr
  rw [services_iterate, services_pageSize]

end Services

section Records

variable {σ ε α : Type} (tr : Transport σ ε (RecordList α))

theorem records_list_eq (opts : ListRecordOptions) (w : World σ) :
    recordClient.ListRecord tr opts w = (recordsRequest opts).Do tr w := by
  unfold recordClient.ListRecord recordsRequest
  dsimp only
  split <;> (rename_i h; exact h.symm)

theorem records_sent (o : ListRecordOptions) (w : World σ) :
    (recordClient.ListRecord tr o w).2.sent = w.sent ++ [recordsRequest o] := by
  rw [records_list_eq]; rfl

theorem records_iterate (i : Nat) : ∀ o : ListRecordOptions,
    (fun o : ListRecordOptions => { o with PageNum := o.PageNum + 1 })^[i] o =
      { o with PageNum := o.PageNum + i } := by
  induction i with
  | zero => intro o; simp
  | succ n ih =>
    intro o
    rw [Function.iterate_succ_apply, ih]
    simp only [Nat.cast_add, Nat.cast_one, Int.add_assoc, Int.add_comm 1 (n : Int)]

theorem records_start (fuel : Nat) (opts : ListRecordOptions) (w : World σ) :
    recordClient.ListAllRecord tr fuel opts w =
      pageLoop (recordClient.ListRecord tr) (fun pg => pg.Items)
        (fun _ acc pg => decide ((acc.length : Int) ≥ pg.Total))
        (fun o => { o with PageNum := o.PageNum + 1 }) fuel
        { opts with PageNum := 1,
                    PageSize := if opts.PageSize = 0 then 100 else opts.PageSize } [] w := by
  unfold recordClient.ListAllRecord
  rw [loop_records]
  by_cases h : opts.PageSize = 0 <;> simp [h]

theorem records_pageNum (o : ListRecordOptions) :
    (recordsRequest o).getParam "pageNum" = some (Itoa o.PageNum) := by
  rfl

theorem records_pageSize (o : ListRecordOptions) :
    (recordsRequest o).getParam "pageSize" = some (Itoa o.PageSize) := by
  rfl

theorem records_pages (opts : ListRecordOptions) (data : List α) (S : Nat) (T : Int)
    (B : Nat) (hne : opts.PageSize ≠ 0) (h : FaithfulRecords tr opts data S T B) :
    ∀ i, i + 1 ≤ B → ∀ w0 : World σ, ∃ pg,
      (recordClient.ListRecord tr
        ((fun o : ListRecordOptions => { o with PageNum := o.PageNum + 1 })^[i]
          { opts with PageNum := 1,
                      PageSize := if opts.PageSize = 0 then 100 else opts.PageSize }) w0).1 =
        Except.ok pg ∧ pg.Items = (data.drop (i * S)).take S ∧ pg.Total = T := by
  intro i hi w0
  obtain ⟨pg, h1, h2, h3⟩ := h (i + 1) (by omega) hi w0
  refine ⟨pg, ?_, ?_, h3⟩
  · rw [records_iterate, ← h1]
    simp only [hne, if_false, Nat.cast_add, Nat.cast_one]
    rw [Int.add_comm]
  · rw [h2]; simp [pageOf]

theorem records_reqs (opts : ListRecordOptions) (hne : opts.PageSize ≠ 0) (n : Nat) :
    (List.range n).map (fun j => recordsRequest
        ((fun o : ListRecordOptions => { o with PageNum := o.PageNum + 1 })^[j]
          { opts with PageNum := 1,
                      PageSize := if opts.PageSize = 0 then 100 else opts.PageSize })) =
      (List.range n).map (fun j => recordsRequest { opts with PageNum := ((j + 1 : Nat) : Int) }) := by
  apply List.map_congr_left
  intro j _
  rw [records_iterate]
  simp only [hne, if_false, Nat.cast_add, Nat.cast_one]
  rw [Int.add_comm]

/-- Exact total: the dataset after `max 1 (ceil (N/S))` requests. -/
theorem records_exact (opts : ListRecordOptions) (data : List α) (S : Nat)
    (hS : 1 ≤ S) (hps : opts.PageSize = S)
    (hf : FaithfulRecords tr opts data S data.length (max 1 (ceilDiv data.length S)))
    (w : World σ) (extra : Nat) :
    ∃ w1, recordClient.ListAllRecord tr (max 1 (ceilDiv data.length S) + extra) opts w =
        Run.done ⟨data, none, w1⟩ ∧
      w1.sent = w.sent ++ (List.range (max 1 (ceilDiv data.length S))).map
        (fun j => recordsRequest { opts with PageNum := ((j + 1 : Nat) : Int) }) := by
  have hne : opts.PageSize ≠ 0 := by rw [hps]; exact_mod_cast (by omega : S ≠ 0)
  rw [records_start, ← records_reqs opts hne]
  apply count_run (recordClient.ListRecord tr) (fun pg => pg.Items) _ _ recordsRequest data S _
    (max 1 (ceilDiv data.length S) - 1) hS (records_sent tr)
  · intro i hi w0
    obtain ⟨pg, h1, h2, h3⟩ := records_pages tr opts data S data.length _ hne hf i
      (by omega) w0
    exact ⟨pg, h1, h2, by intro acc; simp [h3]⟩
  · omega

/-- Total reported above the real size: the dataset after `ceil (N/S) + 1`
requests. -/
theorem records_over (opts : ListRecordOptions) (data : List α) (S : Nat) (T : Int)
    (hS : 1 ≤ S) (hps : opts.PageSize = S) (hT : (data.length : Int) < T)
    (hf : FaithfulRecords tr opts data S T (ceilDiv data.length S + 1))
    (w : World σ) (extra : Nat) :
    ∃ w1, recordClient.ListAllRecord tr (ceilDiv data.length S + 1 + extra) opts w =
        Run.done ⟨data, none, w1⟩ ∧
      w1.sent = w.sent ++ (List.range (ceilDiv data.length S + 1)).map
        (fun j => recordsRequest { opts with PageNum := ((j + 1 : Nat) : Int) }) := by
  have hne : opts.PageSize ≠ 0 := by rw [hps]; exact_mod_cast (by omega : S ≠ 0)
  rw [records_start, ← records_reqs opts hne]
  apply over_run (recordClient.ListRecord tr) (fun pg => pg.Items) _ _ recordsRequest data S _
    (ceilDiv data.length S) hS (records_sent tr)
  · intro i hi w0
    obtain ⟨pg, h1, h2, h3⟩ := records_pages tr opts data S T _ hne hf i (by omega) w0
    refine ⟨pg, h1, h2, ?_⟩
    intro acc hacc
    simp only [h3, ge_iff_le, decide_eq_false_iff_not, not_le]
    omega
  · omega

/-- First page empty: one request, empty result. -/
theorem records_empty_first (opts : ListRecordOptions) (w w1 : World σ)
    (pg : RecordList α) (fuel : Nat)
    (h : recordClient.ListRecord tr
      { opts with PageNum := 1,
                  PageSize := if opts.PageSize = 0 then 100 else opts.PageSize } w =
        (Except.ok pg, w1))
    (h0 : pg.Items = []) :
    recordClient.ListAllRecord tr (fuel + 1) opts w = Run.done ⟨[], none, w1⟩ ∧
      w1.sent.length = w.sent.length + 1 := by
  constructor
  · rw [records_start]
    exact pageLoop_empty _ _ _ _ fuel _ [] w w1 pg h h0
  · have := records_sent tr
      { opts with PageNum := 1,
                  PageSize := if opts.PageSize = 0 then 100 else opts.PageSize } w
    rw [h] at this
    simp only at this
    rw [this]
    simp

/-- First page reports total 0: one request, the items of that page. -/
theorem records_zero_total (opts : ListRecordOptions) (w w1 : World σ)
    (pg : RecordList α) (fuel : Nat)
    (h : recordClient.ListRecord tr
      { opts with PageNum := 1,
                  PageSize := if opts.PageSize = 0 then 100 else opts.PageSize } w =
        (Except.ok pg, w1))
    (h0 : pg.Total = 0) :
    recordClient.ListAllRecord tr (fuel + 1) opts w = Run.done ⟨pg.Items, none, w1⟩ ∧
      w1.sent.length = w.sent.length + 1 := by
  constructor
  · rw [records_start]
    by_cases hi : pg.Items = []
    · rw [hi]
      exact pageLoop_empty _ _ _ _ fuel _ [] w w1 pg h hi
    · have := pageLoop_stop (recordClient.ListRecord tr) (fun pg => pg.Items)
        (fun _ acc pg => decide ((acc.length : Int) ≥ pg.Total))
        (fun o => { o with PageNum := o.PageNum + 1 }) fuel _ [] w w1 pg h hi
        (by simp [h0])
      simpa using this
  · have := records_sent tr
      { opts with PageNum := 1,
                  PageSize := if opts.PageSize = 0 then 100 else opts.PageSize } w
    rw [h] at this
    simp only at this
    rw [this]
    simp

/-- The request after `k` delivered pages fails: that error, no items, and no
further request. -/
theorem records_error (opts : ListRecordOptions) (w w1 : World σ) (k m : Nat)
    (st : LoopState ListRecordOptions α σ) (e : ε)
    (hrun : recordClient.ListAllRecord tr k opts w = Run.running st)
    (herr : recordClient.ListRecord tr st.opts st.world = (Except.error e, w1)) :
    recordClient.ListAllRecord tr (k + 1 + m) opts w = Run.done ⟨[], some e, w1⟩ ∧
      w1.sent.length = w.sent.length + (k + 1) := by
  rw [records_start] at hrun ⊢
  constructor
  · rw [Nat.add_assoc, pageLoop_resume _ _ _ _ k (1 + m) _ _ _ st hrun, Nat.add_comm 1 m]
    exact pageLoop_error _ _ _ _ m _ _ _ w1 e herr
  · have h1 := pageLoop_running_sent _ _ _ _ recordsRequest (records_sent tr) k _ _ _ st hrun
    have h2 := records_sent tr st.opts st.world
    rw [herr] at h2
    simp only at h2
    rw [h2, List.length_append, h1]
    simp
    omega

/-- Requests of a run: the first carries `pageNum = 1`. -/
theorem records_first (opts : ListRecordOptions) (w : World σ) (fuel : Nat) :
    ∃ r rest, (recordClient.ListAllRecord tr (fuel + 1) opts w).world.sent = w.sent ++ r :: rest ∧
      r.getParam "pageNum" = some "1" := by
  rw [records_start]
  obtain ⟨n, _, hpos, hsent⟩ := pageLoop_sent (recordClient.ListRecord tr) (fun pg => pg.Items)
    (fun _ acc pg => decide ((acc.length : Int) ≥ pg.Total))
    (fun o => { o with PageNum := o.PageNum + 1 }) recordsRequest (records_sent tr)
    (fuel + 1) { opts with PageNum := 1,
                           PageSize := if opts.PageSize = 0 then 100 else opts.PageSize } [] w
  obtain ⟨m, rfl⟩ : ∃ m, n = m + 1 := ⟨n - 1, by have := hpos (by omega); omega⟩
  rw [List.range_succ_eq_map, List.map_cons] at hsent
  exact ⟨_, _, hsent, by rw [Function.iterate_zero, id, records_pageNum]; rfl⟩

/-- Requests of a run: all carry the defaulted page size. -/
theorem records_sizes (opts : ListRecordOptions) (w : World σ) (fuel : Nat) :
    ∃ reqs, (recordClient.ListAllRecord tr fuel opts w).world.sent = w.sent ++ reqs ∧
      ∀ r ∈ reqs, r.getParam "pageSize" =
        some (Itoa (if opts.PageSize = 0 then 100 else opts.PageSize)) := by
  rw [records_start]
  obtain ⟨n, _, _, hsent⟩ := pageLoop_sent (recordClient.ListRecord tr) (fun pg => pg.Items)
    (fun _ acc pg => decide ((acc.length : Int) ≥ pg.Total))
    (fun o => { o with PageNum := o.PageNum + 1 }) recordsRequest (records_sent tr)
    fuel { opts with PageNum := 1,
                     PageSize := if opts.PageSize = 0 then 100 else opts.PageSize } [] w
  refine ⟨_, hsent, ?_⟩
  intro r hr
  obtain ⟨j, _, rfl⟩ := List.mem_map.1 hr
  rw [records_iterate, records_pageSize]

end Records

section MicroServices

variable {σ ε α : Type} (tr : Transport σ ε (MicroServiceList α))

theorem micro_list_eq (opts : ListMicroServicesOptions) (w : World σ) :
    MicroserviceClient.ListMicroService tr opts w = (microServicesRequest opts).Do tr w := by
  unfold MicroserviceClient.ListMicroService microServicesRequest
  dsimp only
  split <;> (rename_i h; exact h.symm)

theorem micro_sent (o : ListMicroServicesOptions) (w : World σ) :
    (MicroserviceClient.ListMicroService tr o w).2.sent = w.sent ++ [microServicesRequest o] := by
  rw [micro_list_eq]; rfl

theorem micro_iterate (i : Nat) : ∀ o : ListMicroServicesOptions,
    (fun o : ListMicroServicesOptions => { o with PageNum := o.PageNum + 1 })^[i] o =
      { o with PageNum := o.PageNum + i } := by
  induction i with
  | zero => intro o; simp
  | succ n ih =>
    intro o
    rw [Function.iterate_succ_apply, ih]
    simp only [Nat.cast_add, Nat.cast_one, Int.add_assoc, Int.add_comm 1 (n : Int)]

theorem micro_start (fuel : Nat) (opts : ListMicroServicesOptions) (w : World σ) :
    MicroserviceClient.ListAllMicroService tr fuel opts w =
      pageLoop (MicroserviceClient.ListMicroService tr) (fun pg => pg.Items)
        (fun _ acc pg => decide ((acc.length : Int) ≥ pg.Total))
        (fun o => { o with PageNum := o.PageNum + 1 }) fuel
        { opts with PageNum := 1,
                    PageSize := if opts.PageSize = 0 then 100 else opts.PageSize } [] w := by
  unfold MicroserviceClient.ListAllMicroService
  rw [loop_microservices]
  by_cases h : opts.PageSize = 0 <;> simp [h]

theorem micro_pageNum (o : ListMicroServicesOptions) :
    (microServicesRequest o).getParam "pageNum" = some (Itoa o.PageNum) := by
  unfold microServicesRequest
  first
    | rfl
    | (split_ifs <;> rfl)

theorem micro_pageSize (o : ListMicroServicesOptions) :
    (microServicesRequest o).getParam "pageSize" = some (Itoa o.PageSize) := by
  unfold microServicesRequest
  first
    | rfl
    | (split_ifs <;> rfl)

theorem micro_pages (opts : ListMicroServicesOptions) (data : List α) (S : Nat) (T : Int)
    (B : Nat) (hne : opts.PageSize ≠ 0) (h : FaithfulMicroServices tr opts data S T B) :
    ∀ i, i + 1 ≤ B → ∀ w0 : World σ, ∃ pg,
      (MicroserviceClient.ListMicroService tr
        ((fun o : ListMicroServicesOptions => { o with PageNum := o.PageNum + 1 })^[i]
          { opts with PageNum := 1,
                      PageSize := if opts.PageSize = 0 then 100 else opts.PageSize }) w0).1 =
        Except.ok pg ∧ pg.Items = (data.drop (i * S)).take S ∧ pg.Total = T := by
  intro i hi w0
  obtain ⟨pg, h1, h2, h3⟩ := h (i + 1) (by omega) hi w0
  refine ⟨pg, ?_, ?_, h3⟩
  · rw [micro_iterate, ← h1]
    simp only [hne, if_false, Nat.cast_add, Nat.cast_one]
    rw [Int.add_comm]
  · rw [h2]; simp [pageOf]

theorem micro_reqs (opts : ListMicroServicesOptions) (hne : opts.PageSize ≠ 0) (n : Nat) :
    (List.range n).map (fun j => microServicesRequest
        ((fun o : ListMicroServicesOptions => { o with PageNum := o.PageNum + 1 })^[j]
          { opts with PageNum := 1,
                      PageSize := if opts.PageSize = 0 then 100 else opts.PageSize })) =
      (List.range n).map (fun j => microServicesRequest { opts with PageNum := ((j + 1 : Nat) : Int) }) := by
  apply List.map_congr_left
  intro j _
  rw [micro_iterate]
  simp only [hne, if_false, Nat.cast_add, Nat.cast_one]
  rw [Int.add_comm]

/-- Exact total: the dataset after `max 1 (ceil (N/S))` requests. -/
theorem micro_exact (opts : ListMicroServicesOptions) (data : List α) (S : Nat)
    (hS : 1 ≤ S) (hps : opts.PageSize = S)
    (hf : FaithfulMicroServices tr opts data S data.length (max 1 (ceilDiv data.length S)))
    (w : World σ) (extra : Nat) :
    ∃ w1, MicroserviceClient.ListAllMicroService tr (max 1 (ceilDiv data.length S) + extra) opts w =
        Run.done ⟨data, none, w1⟩ ∧
      w1.sent = w.sent ++ (List.range (max 1 (ceilDiv data.length S))).map
        (fun j => microServicesRequest { opts with PageNum := ((j + 1 : Nat) : Int) }) := by
  have hne : opts.PageSize ≠ 0 := by rw [hps]; exact_mod_cast (by omega : S ≠ 0)
  rw [micro_start, ← micro_reqs opts hne]
  apply count_run (MicroserviceClient.ListMicroService tr) (fun pg => pg.Items) _ _ microServicesRequest data S _
    (max 1 (ceilDiv data.length S) - 1) hS (micro_sent tr)
  · intro i hi w0
    obtain ⟨pg, h1, h2, h3⟩ := micro_pages tr opts data S data.length _ hne hf i
      (by omega) w0
    exact ⟨pg, h1, h2, by intro acc; simp [h3]⟩
  · omega

/-- Total reported above the real size: the dataset after `ceil (N/S) + 1`
requests. -/
theorem micro_over (opts : ListMicroServicesOptions) (data : List α) (S : Nat) (T : Int)
    (hS : 1 ≤ S) (hps : opts.PageSize = S) (hT : (data.length : Int) < T)
    (hf : FaithfulMicroServices tr opts data S T (ceilDiv data.length S + 1))
    (w : World σ) (extra : Nat) :
    ∃ w1, MicroserviceClient.ListAllMicroService tr (ceilDiv data.length S + 1 + extra) opts w =
        Run.done ⟨data, none, w1⟩ ∧
      w1.sent = w.sent ++ (List.range (ceilDiv data.length S + 1)).map
        (fun j => microServicesRequest { opts with PageNum := ((j + 1 : Nat) : Int) }) := by
  have hne : opts.PageSize ≠ 0 := by rw [hps]; exact_mod_cast (by omega : S ≠ 0)
  rw [micro_start, ← micro_reqs opts hne]
  apply over_run (MicroserviceClient.ListMicroService tr) (fun pg => pg.Items) _ _ microServicesRequest data S _
    (ceilDiv data.length S) hS (micro_sent tr)
  · intro i hi w0
    obtain ⟨pg, h1, h2, h3⟩ := micro_pages tr opts data S T _ hne hf i (by omega) w0
    refine ⟨pg, h1, h2, ?_⟩
    intro acc hacc
    simp only [h3, ge_iff_le, decide_eq_false_iff_not, not_le]
    omega
  · omega

/-- First page empty: one request, empty result. -/
theorem micro_empty_first (opts : ListMicroServicesOptions) (w w1 : World σ)
    (pg : MicroServiceList α) (fuel : Nat)
    (h : MicroserviceClient.ListMicroService tr
      { opts with PageNum := 1,
                  PageSize := if opts.PageSize = 0 then 100 else opts.PageSize } w =
        (Except.ok pg, w1))
    (h0 : pg.Items = []) :
    MicroserviceClient.ListAllMicroService tr (fuel + 1) opts w = Run.done ⟨[], none, w1⟩ ∧
      w1.sent.length = w.sent.length + 1 := by
  constructor
  · rw [micro_start]
    exact pageLoop_empty _ _ _ _ fuel _ [] w w1 pg h h0
  · have := micro_sent tr
      { opts with PageNum := 1,
                  PageSize := if opts.PageSize = 0 then 100 else opts.PageSize } w
    rw [h] at this
    simp only at this
    rw [this]
    simp

/-- First page reports total 0: one request, the items of that page. -/
theorem micro_zero_total (opts : ListMicroServicesOptions) (w w1 : World σ)
    (pg : MicroServiceList α) (fuel : Nat)
    (h : MicroserviceClient.ListMicroService tr
      { opts with PageNum := 1,
                  PageSize := if opts.PageSize = 0 then 100 else opts.PageSize } w =
        (Except.ok pg, w1))
    (h0 : pg.Total = 0) :
    MicroserviceClient.ListAllMicroService tr (fuel + 1) opts w = Run.done ⟨pg.Items, none, w1⟩ ∧
      w1.sent.length = w.sent.length + 1 := by
  constructor
  · rw [micro_start]
    by_cases hi : pg.Items = []
    · rw [hi]
      exact pageLoop_empty _ _ _ _ fuel _ [] w w1 pg h hi
    · have := pageLoop_stop (MicroserviceClient.ListMicroService tr) (fun pg => pg.Items)
        (fun _ acc pg => decide ((acc.length : Int) ≥ pg.Total))
        (fun o => { o with PageNum := o.PageNum + 1 }) fuel _ [] w w1 pg h hi
        (by simp [h0])
      simpa using this
  · have := micro_sent tr
      { opts with PageNum := 1,
                  PageSize := if opts.PageSize = 0 then 100 else opts.PageSize } w
    rw [h] at this
    simp only at this
    rw [this]
    simp

/-- The request after `k` delivered pages fails: that error, no items, and no
further request. -/
theorem micro_error (opts : ListMicroServicesOptions) (w w1 : World σ) (k m : Nat)
    (st : LoopState ListMicroServicesOptions α σ) (e : ε)
    (hrun : MicroserviceClient.ListAllMicroService tr k opts w = Run.running st)
    (herr : MicroserviceClient.ListMicroService tr st.opts st.world = (Except.error e, w1)) :
    MicroserviceClient.ListAllMicroService tr (k + 1 + m) opts w = Run.done ⟨[], some e, w1⟩ ∧
      w1.sent.length = w.sent.length + (k + 1) := by
  rw [micro_start] at hrun ⊢
  constructor
  · rw [Nat.add_assoc, pageLoop_resume _ _ _ _ k (1 + m) _ _ _ st hrun, Nat.add_comm 1 m]
    exact pageLoop_error _ _ _ _ m _ _ _ w1 e herr
  · have h1 := pageLoop_running_sent _ _ _ _ microServicesRequest (micro_sent tr) k _ _ _ st hrun
    have h2 := micro_sent tr st.opts st.world
    rw [herr] at h2
    simp only at h2
    rw [h2, List.length_append, h1]
    simp
    omega

/-- Requests of a run: the first carries `pageNum = 1`. -/
theorem micro_first (opts : ListMicroServicesOptions) (w : World σ) (fuel : Nat) :
    ∃ r rest, (MicroserviceClient.ListAllMicroService tr (fuel + 1) opts w).world.sent = w.sent ++ r :: rest ∧
      r.getParam "pageNum" = some "1" := by
  rw [micro_start]
  obtain ⟨n, _, hpos, hsent⟩ := pageLoop_sent (MicroserviceClient.ListMicroService tr) (fun pg => pg.Items)
    (fun _ acc pg => decide ((acc.length : Int) ≥ pg.Total))
    (fun o => { o with PageNum := o.PageNum + 1 }) microServicesRequest (micro_sent tr)
    (fuel + 1) { opts with PageNum := 1,
                           PageSize := if opts.PageSize = 0 then 100 else opts.PageSize } [] w
  obtain ⟨m, rfl⟩ : ∃ m, n = m + 1 := ⟨n - 1, by have := hpos (by omega); omega⟩
  rw [List.range_succ_eq_map, List.map_cons] at hsent
  exact ⟨_, _, hsent, by rw [Function.iterate_zero, id, micro_pageNum]; rfl⟩

/-- Requests of a run: all carry the defaulted page size. -/
theorem micro_sizes (opts : ListMicroServicesOptions) (w : World σ) (fuel : Nat) :
    ∃ reqs, (MicroserviceClient.ListAllMicroService tr fuel opts w).world.sent = w.sent ++ reqs ∧
      ∀ r ∈ reqs, r.getParam "pageSize" =
        some (Itoa (if opts.PageSize = 0 then 100 else opts.PageSize)) := by
  rw [micro_start]
  obtain ⟨n, _, _, hsent⟩ := pageLoop_sent (MicroserviceClient.ListMicroService tr) (fun pg => pg.Items)
    (fun _ acc pg => decide ((acc.length : Int) ≥ pg.Total))
    (fun o => { o with PageNum := o.PageNum + 1 }) microServicesRequest (micro_sent tr)
    fuel { opts with PageNum := 1,
                     PageSize := if opts.PageSize = 0 then 100 else opts.PageSize } [] w
  refine ⟨_, hsent, ?_⟩
  intro r hr
  obtain ⟨j, _, rfl⟩ := List.mem_map.1 hr
  rw [micro_iterate, micro_pageSize]

end MicroServices

section Configs

variable {σ ε α : Type} (tr : Transport σ ε (List α))

theorem configs_list_eq (opts : ListConfigsOptions) (w : World σ) :
    configClient.ListConfig tr opts w = (configsRequest opts).Do tr w := by
  unfold configClient.ListConfig configsRequest
  dsimp only
  split <;> (rename_i h; exact h.symm)

theorem configs_sent (o : ListConfigsOptions) (w : World σ) :
    (configClient.ListConfig tr o w).2.sent = w.sent ++ [configsRequest o] := by
  rw [configs_list_eq]; rfl

theorem configs_iterate (i : Nat) : ∀ o : ListConfigsOptions,
    (fun o : ListConfigsOptions => { o with PageNum := o.PageNum + 1 })^[i] o =
      { o with PageNum := o.PageNum + i } := by
  induction i with
  | zero => intro o; simp
  | succ n ih =>
    intro o
    rw [Function.iterate_succ_apply, ih]
    simp only [Nat.cast_add, Nat.cast_one, Int.add_assoc, Int.add_comm 1 (n : Int)]

theorem configs_start (fuel : Nat) (opts : ListConfigsOptions) (w : World σ) :
    configClient.ListAllConfig tr fuel opts w =
      pageLoop (configClient.ListConfig tr) (fun pg => pg)
        (fun o _ pg => decide ((pg.length : Int) < o.PageSize))
        (fun o => { o with PageNum := o.PageNum + 1 }) fuel
        { opts with PageNum := 1,
                    PageSize := if opts.PageSize = 0 then 100 else opts.PageSize } [] w := by
  unfold configClient.ListAllConfig
  rw [loop_configs]
  by_cases h : opts.PageSize = 0 <;> simp [h]

theorem configs_pageNum (o : ListConfigsOptions) :
    (configsRequest o).getParam "pageNum" = some (Itoa o.PageNum) := by
  unfold configsRequest
  first
    | rfl
    | (split_ifs <;> rfl)

theorem configs_pageSize (o : ListConfigsOptions) :
    (configsRequest o).getParam "pageSize" = some (Itoa o.PageSize) := by
  unfold configsRequest
  first
    | rfl
    | (split_ifs <;> rfl)

theorem configs_pages (opts : ListConfigsOptions) (data : List α) (S : Nat)
    (B : Nat) (hps : opts.PageSize = S) (hS : 1 ≤ S) (h : FaithfulConfigs tr opts data S B) :
    ∀ i, i + 1 ≤ B → ∀ w0 : World σ, ∃ pg,
      (configClient.ListConfig tr
        ((fun o : ListConfigsOptions => { o with PageNum := o.PageNum + 1 })^[i]
          { opts with PageNum := 1,
                      PageSize := if opts.PageSize = 0 then 100 else opts.PageSize }) w0).1 =
        Except.ok pg ∧ pg = (data.drop (i * S)).take S ∧
      ∀ acc : List α, (fun (o : ListConfigsOptions) (_ : List α) (pg : List α) =>
          decide ((pg.length : Int) < o.PageSize))
        ((fun o : ListConfigsOptions => { o with PageNum := o.PageNum + 1 })^[i]
          { opts with PageNum := 1,
                      PageSize := if opts.PageSize = 0 then 100 else opts.PageSize }) acc pg =
        decide (pg.length < S) := by
  have hne : opts.PageSize ≠ 0 := by rw [hps]; exact_mod_cast (by omega : S ≠ 0)
  intro i hi w0
  have h1 := h (i + 1) (by omega) hi w0
  refine ⟨pageOf data S (i + 1), ?_, by simp [pageOf], ?_⟩
  · rw [configs_iterate, ← h1]
    simp only [hne, if_false, Nat.cast_add, Nat.cast_one]
    rw [Int.add_comm]
  · intro acc
    rw [configs_iterate]
    simp only [hne, if_false]
    rw [hps]
    simp only [Nat.cast_lt]

theorem configs_reqs (opts : ListConfigsOptions) (hne : opts.PageSize ≠ 0) (n : Nat) :
    (List.range n).map (fun j => configsRequest
        ((fun o : ListConfigsOptions => { o with PageNum := o.PageNum + 1 })^[j]
          { opts with PageNum := 1,
                      PageSize := if opts.PageSize = 0 then 100 else opts.PageSize })) =
      (List.range n).map (fun j => configsRequest { opts with PageNum := ((j + 1 : Nat) : Int) }) := by
  apply List.map_congr_left
  intro j _
  rw [configs_iterate]
  simp only [hne, if_false, Nat.cast_add, Nat.cast_one]
  rw [Int.add_comm]

/-- Short-page policy: the dataset after `N / S + 1` requests. -/
theorem configs_short (opts : ListConfigsOptions) (data : List α) (S : Nat)
    (hS : 1 ≤ S) (hps : opts.PageSize = S)
    (hf : FaithfulConfigs tr opts data S (data.length / S + 1))
    (w : World σ) (extra : Nat) :
    ∃ w1, configClient.ListAllConfig tr (data.length / S + 1 + extra) opts w =
        Run.done ⟨data, none, w1⟩ ∧
      w1.sent = w.sent ++ (List.range (data.length / S + 1)).map
        (fun j => configsRequest { opts with PageNum := ((j + 1 : Nat) : Int) }) := by
  have hne : opts.PageSize ≠ 0 := by rw [hps]; exact_mod_cast (by omega : S ≠ 0)
  rw [configs_start, ← configs_reqs opts hne]
  apply short_run (configClient.ListConfig tr) (fun pg => pg) _ _ configsRequest data S _
    (data.length / S) hS (configs_sent tr)
  · intro i hi w0
    exact configs_pages tr opts data S _ hps hS hf i (by omega) w0
  · omega

/-- First page empty: one request, empty result. -/
theorem configs_empty_first (opts : ListConfigsOptions) (w w1 : World σ)
    (pg : List α) (fuel : Nat)
    (h : configClient.ListConfig tr
      { opts with PageNum := 1,
                  PageSize := if opts.PageSize = 0 then 100 else opts.PageSize } w =
        (Except.ok pg, w1))
    (h0 : pg = []) :
    configClient.ListAllConfig tr (fuel + 1) opts w = Run.done ⟨[], none, w1⟩ ∧
      w1.sent.length = w.sent.length + 1 := by
  constructor
  · rw [configs_start]
    exact pageLoop_empty _ _ _ _ fuel _ [] w w1 pg h h0
  · have := configs_sent tr
      { opts with PageNum := 1,
                  PageSize := if opts.PageSize = 0 then 100 else opts.PageSize } w
    rw [h] at this
    simp only at this
    rw [this]
    simp

/-- The request after `k` delivered pages fails: that error, no items, and no
further request. -/
theorem configs_error (opts : ListConfigsOptions) (w w1 : World σ) (k m : Nat)
    (st : LoopState ListConfigsOptions α σ) (e : ε)
    (hrun : configClient.ListAllConfig tr k opts w = Run.running st)
    (herr : configClient.ListConfig tr st.opts st.world = (Except.error e, w1)) :
    configClient.ListAllConfig tr (k + 1 + m) opts w = Run.done ⟨[], some e, w1⟩ ∧
      w1.sent.length = w.sent.length + (k + 1) := by
  rw [configs_start] at hrun ⊢
  constructor
  · rw [Nat.add_assoc, pageLoop_resume _ _ _ _ k (1 + m) _ _ _ st hrun, Nat.add_comm 1 m]
    exact pageLoop_error _ _ _ _ m _ _ _ w1 e herr
  · have h1 := pageLoop_running_sent _ _ _ _ configsRequest (configs_sent tr) k _ _ _ st hrun
    have h2 := configs_sent tr st.opts st.world
    rw [herr] at h2
    simp only at h2
    rw [h2, List.length_append, h1]
    simp
    omega

/-- Requests of a run: the first carries `pageNum = 1`. -/
theorem configs_first (opts : ListConfigsOptions) (w : World σ) (fuel : Nat) :
    ∃ r rest, (configClient.ListAllConfig tr (fuel + 1) opts w).world.sent = w.sent ++ r :: rest ∧
      r.getParam "pageNum" = some "1" := by
  rw [configs_start]
  obtain ⟨n, _, hpos, hsent⟩ := pageLoop_sent (configClient.ListConfig tr) (fun pg => pg)
    (fun o _ pg => decide ((pg.length : Int) < o.PageSize))
    (fun o => { o with PageNum := o.PageNum + 1 }) configsRequest (configs_sent tr)
    (fuel + 1) { opts with PageNum := 1,
                           PageSize := if opts.PageSize = 0 then 100 else opts.PageSize } [] w
  obtain ⟨m, rfl⟩ : ∃ m, n = m + 1 := ⟨n - 1, by have := hpos (by omega); omega⟩
  rw [List.range_succ_eq_map, List.map_cons] at hsent
  exact ⟨_, _, hsent, by rw [Function.iterate_zero, id, configs_pageNum]; rfl⟩

/-- Requests of a run: all carry the defaulted page size. -/
theorem configs_sizes (opts : ListConfigsOptions) (w : World σ) (fuel : Nat) :
    ∃ reqs, (configClient.ListAllConfig tr fuel opts w).world.sent = w.sent ++ reqs ∧
      ∀ r ∈ reqs, r.getParam "pageSize" =
        some (Itoa (if opts.PageSize = 0 then 100 else opts.PageSize)) := by
  rw [configs_start]
  obtain ⟨n, _, _, hsent⟩ := pageLoop_sent (configClient.ListConfig tr) (fun pg => pg)
    (fun o _ pg => decide ((pg.length : Int) < o.PageSize))
    (fun o => { o with PageNum := o.PageNum + 1 }) configsRequest (configs_sent tr)
    fuel { opts with PageNum := 1,
                     PageSize := if opts.PageSize = 0 then 100 else opts.PageSize } [] w
  refine ⟨_, hsent, ?_⟩
  intro r hr
  obtain ⟨j, _, rfl⟩ := List.mem_map.1 hr
  rw [configs_iterate, configs_pageSize]

end Configs

/-! ## Worked instances: the test servers are faithful -/

theorem faithfulServices_mono {σ ε α : Type} (tr : Transport σ ε (ServiceList α))
    (opts : ListServicesOptions) (data : List α) (S : Nat) (T : Int) (B B1 : Nat)
    (hB : B1 ≤ B) (h : FaithfulServices tr opts data S T B) :
    FaithfulServices tr opts data S T B1 :=
  fun p h1 h2 w0 => h p h1 (le_trans h2 hB) w0

theorem faithfulRecords_mono {σ ε α : Type} (tr : Transport σ ε (RecordList α))
    (opts : ListRecordOptions) (data : List α) (S : Nat) (T : Int) (B B1 : Nat)
    (hB : B1 ≤ B) (h : FaithfulRecords tr opts data S T B) :
    FaithfulRecords tr opts data S T B1 :=
  fun p h1 h2 w0 => h p h1 (le_trans h2 hB) w0

theorem faithfulMicroServices_mono {σ ε α : Type} (tr : Transport σ ε (MicroServiceList α))
    (opts : ListMicroServicesOptions) (data : List α) (S : Nat) (T : Int) (B B1 : Nat)
    (hB : B1 ≤ B) (h : FaithfulMicroServices tr opts data S T B) :
    FaithfulMicroServices tr opts data S T B1 :=
  fun p h1 h2 w0 => h p h1 (le_trans h2 hB) w0

theorem demo_services_faithful (T : Int) (B : Nat) (hB : B ≤ 6) :
    FaithfulServices (servicesServer demoData 2 T) (demoServices 2) demoData 2 T B := by
  intro p h1 h2 w0
  have h3 : p ≤ 6 := le_trans h2 hB
  interval_cases p <;> exact ⟨_, rfl, rfl, rfl⟩

theorem demo_records_faithful (T : Int) (B : Nat) (hB : B ≤ 6) :
    FaithfulRecords (recordsServer demoData 2 T) (demoRecords 2) demoData 2 T B := by
  intro p h1 h2 w0
  have h3 : p ≤ 6 := le_trans h2 hB
  interval_cases p <;> exact ⟨_, rfl, rfl, rfl⟩

theorem demo_micro_faithful (T : Int) (B : Nat) (hB : B ≤ 6) :
    FaithfulMicroServices (microServicesServer demoData 2 T) (demoMicroServices 2)
      demoData 2 T B := by
  intro p h1 h2 w0
  have h3 : p ≤ 6 := le_trans h2 hB
  interval_cases p <;> exact ⟨_, rfl, rfl, rfl⟩

theorem demo_configs_faithful (B : Nat) (hB : B ≤ 6) :
    FaithfulConfigs (configsServer demoData 2) (demoConfigs 2) demoData 2 B := by
  intro p h1 h2 w0
  have h3 : p ≤ 6 := le_trans h2 hB
  interval_cases p <;> rfl

/-! ## Runs for every caller page size -/

section AnyPageSize

variable {σ ε α : Type}

theorem services_default (tr : Transport σ ε (ServiceList α)) (fuel : Nat)
    (opts : ListServicesOptions) (w : World σ) :
    serviceClient.ListAll tr fuel opts w =
      serviceClient.ListAll tr fuel
        { opts with PageSize := if opts.PageSize = 0 then 100 else opts.PageSize } w := by
  rw [services_start, services_start]
  by_cases h : opts.PageSize = 0 <;> simp [h]

/-- Exact total, any caller page size other than the unset one: the dataset
after `max 1 (ceil (N/S))` requests, `S` being the server's page length. -/
theorem services_exact_ne (tr : Transport σ ε (ServiceList α)) (opts : ListServicesOptions)
    (data : List α) (S : Nat) (hS : 1 ≤ S) (hne : opts.PageSize ≠ 0)
    (hf : FaithfulServices tr opts data S data.length (max 1 (ceilDiv data.length S)))
    (w : World σ) (extra : Nat) :
    ∃ w1, serviceClient.ListAll tr (max 1 (ceilDiv data.length S) + extra) opts w =
        Run.done ⟨data, none, w1⟩ ∧
      w1.sent = w.sent ++ (List.range (max 1 (ceilDiv data.length S))).map
        (fun j => servicesRequest { opts with PageNum := ((j + 1 : Nat) : Int) }) := by
  rw [services_start, ← services_reqs opts hne]
  apply count_run _ (fun pg => pg.Items) _ _ servicesRequest data S _
    (max 1 (ceilDiv data.length S) - 1) hS (services_sent tr)
  · intro i hi w0
    obtain ⟨pg, h1, h2, h3⟩ := services_pages tr opts data S data.length _ hne hf i
      (by omega) w0
    exact ⟨pg, h1, h2, by intro acc; simp [h3]⟩
  · omega

/-- Exact total, every caller page size (the unset one included): the
dataset after `max 1 (ceil (N/S))` requests. -/
theorem services_exact_any (tr : Transport σ ε (ServiceList α)) (opts : ListServicesOptions)
    (data : List α) (S : Nat) (hS : 1 ≤ S)
    (hf : FaithfulServices tr
      { opts with PageSize := if opts.PageSize = 0 then 100 else opts.PageSize }
      data S data.length (max 1 (ceilDiv data.length S)))
    (w : World σ) (extra : Nat) :
    ∃ w1, serviceClient.ListAll tr (max 1 (ceilDiv data.length S) + extra) opts w =
        Run.done ⟨data, none, w1⟩ ∧
      w1.sent.length = w.sent.length + max 1 (ceilDiv data.length S) := by
  have hne : (if opts.PageSize = 0 then (100 : Int) else opts.PageSize) ≠ 0 := by
    split_ifs with h
    · decide
    · exact h
  rw [services_default]
  obtain ⟨w1, h1, h2⟩ := services_exact_ne tr
    { opts with PageSize := if opts.PageSize = 0 then 100 else opts.PageSize }
    data S hS hne hf w extra
  exact ⟨w1, h1, by rw [h2]; simp⟩

theorem records_default (tr : Transport σ ε (RecordList α)) (fuel : Nat)
    (opts : ListRecordOptions) (w : World σ) :
    recordClient.ListAllRecord tr fuel opts w =
      recordClient.ListAllRecord tr fuel
        { opts with PageSize := if opts.PageSize = 0 then 100 else opts.PageSize } w := by
  rw [records_start, records_start]
  by_cases h : opts.PageSize = 0 <;> simp [h]

/-- Exact total, any caller page size other than the unset one: the dataset
after `max 1 (ceil (N/S))` requests, `S` being the server's page length. -/
theorem records_exact_ne (tr : Transport σ ε (RecordList α)) (opts : ListRecordOptions)
    (data : List α) (S : Nat) (hS : 1 ≤ S) (hne : opts.PageSize ≠ 0)
    (hf : FaithfulRecords tr opts data S data.length (max 1 (ceilDiv data.length S)))
    (w : World σ) (extra : Nat) :
    ∃ w1, recordClient.ListAllRecord tr (max 1 (ceilDiv data.length S) + extra) opts w =
        Run.done ⟨data, none, w1⟩ ∧
      w1.sent = w.sent ++ (List.range (max 1 (ceilDiv data.length S))).map
        (fun j => recordsRequest { opts with PageNum := ((j + 1 : Nat) : Int) }) := by
  rw [records_start, ← records_reqs opts hne]
  apply count_run _ (fun pg => pg.Items) _ _ recordsRequest data S _
    (max 1 (ceilDiv data.length S) - 1) hS (records_sent tr)
  · intro i hi w0
    obtain ⟨pg, h1, h2, h3⟩ := records_pages tr opts data S data.length _ hne hf i
      (by omega) w0
    exact ⟨pg, h1, h2, by intro acc; simp [h3]⟩
  · omega

/-- Exact total, every caller page size (the unset one included): the
dataset after `max 1 (ceil (N/S))` requests. -/
theorem records_exact_any (tr : Transport σ ε (RecordList α)) (opts : ListRecordOptions)
    (data : List α) (S : Nat) (hS : 1 ≤ S)
    (hf : FaithfulRecords tr
      { opts with PageSize := if opts.PageSize = 0 then 100 else opts.PageSize }
      data S data.length (max 1 (ceilDiv data.length S)))
    (w : World σ) (extra : Nat) :
    ∃ w1, recordClient.ListAllRecord tr (max 1 (ceilDiv data.length S) + extra) opts w =
        Run.done ⟨data, none, w1⟩ ∧
      w1.sent.length = w.sent.length + max 1 (ceilDiv data.length S) := by
  have hne : (if opts.PageSize = 0 then (100 : Int) else opts.PageSize) ≠ 0 := by
    split_ifs with h
    · decide
    · exact h
  rw [records_default]
  obtain ⟨w1, h1, h2⟩ := records_exact_ne tr
    { opts with PageSize := if opts.PageSize = 0 then 100 else opts.PageSize }
    data S hS hne hf w extra
  exact ⟨w1, h1, by rw [h2]; simp⟩

theorem micro_default (tr : Transport σ ε (MicroServiceList α)) (fuel : Nat)
    (opts : ListMicroServicesOptions) (w : World σ) :
    MicroserviceClient.ListAllMicroService tr fuel opts w =
      MicroserviceClient.ListAllMicroService tr fuel
        { opts with PageSize := if opts.PageSize = 0 then 100 else opts.PageSize } w := by
  rw [micro_start, micro_start]
  by_cases h : opts.PageSize = 0 <;> simp [h]

/-- Exact total, any caller page size other than the unset one: the dataset
after `max 1 (ceil (N/S))` requests, `S` being the server's page length. -/
theorem micro_exact_ne (tr : Transport σ ε (MicroServiceList α)) (opts : ListMicroServicesOptions)
    (data : List α) (S : Nat) (hS : 1 ≤ S) (hne : opts.PageSize ≠ 0)
    (hf : FaithfulMicroServices tr opts data S data.length (max 1 (ceilDiv data.length S)))
    (w : World σ) (extra : Nat) :
    ∃ w1, MicroserviceClient.ListAllMicroService tr (max 1 (ceilDiv data.length S) + extra) opts w =
        Run.done ⟨data, none, w1⟩ ∧
      w1.sent = w.sent ++ (List.range (max 1 (ceilDiv data.length S))).map
        (fun j => microServicesRequest { opts with PageNum := ((j + 1 : Nat) : Int) }) := by
  rw [micro_start, ← micro_reqs opts hne]
  apply count_run _ (fun pg => pg.Items) _ _ microServicesRequest data S _
    (max 1 (ceilDiv data.length S) - 1) hS (micro_sent tr)
  · intro i hi w0
    obtain ⟨pg, h1, h2, h3⟩ := micro_pages tr opts data S data.length _ hne hf i
      (by omega) w0
    exact ⟨pg, h1, h2, by intro acc; simp [h3]⟩
  · omega

/-- Exact total, every caller page size (the unset one included): the
dataset after `max 1 (ceil (N/S))` requests. -/
theorem micro_exact_any (tr : Transport σ ε (MicroServiceList α)) (opts : ListMicroServicesOptions)
    (data : List α) (S : Nat) (hS : 1 ≤ S)
    (hf : FaithfulMicroServices tr
      { opts with PageSize := if opts.PageSize = 0 then 100 else opts.PageSize }
      data S data.length (max 1 (ceilDiv data.length S)))
    (w : World σ) (extra : Nat) :
    ∃ w1, MicroserviceClient.ListAllMicroService tr (max 1 (ceilDiv data.length S) + extra) opts w =
        Run.done ⟨data, none, w1⟩ ∧
      w1.sent.length = w.sent.length + max 1 (ceilDiv data.length S) := by
  have hne : (if opts.PageSize = 0 then (100 : Int) else opts.PageSize) ≠ 0 := by
    split_ifs with h
    · decide
    · exact h
  rw [micro_default]
  obtain ⟨w1, h1, h2⟩ := micro_exact_ne tr
    { opts with PageSize := if opts.PageSize = 0 then 100 else opts.PageSize }
    data S hS hne hf w extra
  exact ⟨w1, h1, by rw [h2]; simp⟩

theorem configs_default (tr : Transport σ ε (List α)) (fuel : Nat)
    (opts : ListConfigsOptions) (w : World σ) :
    configClient.ListAllConfig tr fuel opts w =
      configClient.ListAllConfig tr fuel
        { opts with PageSize := if opts.PageSize = 0 then 100 else opts.PageSize } w := by
  rw [configs_start, configs_start]
  by_cases h : opts.PageSize = 0 <;> simp [h]

/-- Short-page policy when the server's page length `S` is the page size the
traversal requests (the caller's, or 100 when unset): the dataset after
`N / S + 1` requests. -/
theorem configs_short_any (tr : Transport σ ε (List α)) (opts : ListConfigsOptions)
    (data : List α) (S : Nat) (hS : 1 ≤ S)
    (heff : (if opts.PageSize = 0 then 100 else opts.PageSize) = (S : Int))
    (hf : FaithfulConfigs tr
      { opts with PageSize := if opts.PageSize = 0 then 100 else opts.PageSize }
      data S (data.length / S + 1))
    (w : World σ) (extra : Nat) :
    ∃ w1, configClient.ListAllConfig tr (data.length / S + 1 + extra) opts w =
        Run.done ⟨data, none, w1⟩ ∧
      w1.sent.length = w.sent.length + (data.length / S + 1) := by
  rw [configs_default]
  obtain ⟨w1, h1, h2⟩ := configs_short tr
    { opts with PageSize := if opts.PageSize = 0 then 100 else opts.PageSize }
    data S hS heff hf w extra
  exact ⟨w1, h1, by rw [h2]; simp⟩


/-- Page sizes of the requests of a run, which are at least one when the
budget is positive. -/
theorem services_sizes_pos (tr : Transport σ ε (ServiceList α)) (opts : ListServicesOptions) (w : World σ)
    (fuel : Nat) :
    ∃ reqs, (serviceClient.ListAll tr fuel opts w).world.sent = w.sent ++ reqs ∧
      (1 ≤ fuel → reqs ≠ []) ∧
      ∀ r ∈ reqs, r.getParam "pageSize" =
        some (Itoa (if opts.PageSize = 0 then 100 else opts.PageSize)) := by
  rw [services_start]
  obtain ⟨n, _, hpos, hsent⟩ := pageLoop_sent (serviceClient.List tr) (fun pg => pg.Items)
    (fun _ acc pg => decide ((acc.length : Int) ≥ pg.Total))
    (fun o => { o with PageNum := o.PageNum + 1 }) servicesRequest (services_sent tr)
    fuel { opts with PageNum := 1,
                     PageSize := if opts.PageSize = 0 then 100 else opts.PageSize } [] w
  refine ⟨_, hsent, ?_, ?_⟩
  · intro hf hnil
    have h1 := congrArg List.length hnil
    have h2 := hpos hf
    simp only [List.length_map, List.length_range, List.length_nil] at h1
    omega
  · intro r hr
    obtain ⟨j, _, rfl⟩ := List.mem_map.1 hr
    rw [services_iterate, services_pageSize]

/-- Page sizes of the requests of a run, which are at least one when the
budget is positive. -/
theorem records_sizes_pos (tr : Transport σ ε (RecordList α)) (opts : ListRecordOptions) (w : World σ)
    (fuel : Nat) :
    ∃ reqs, (recordClient.ListAllRecord tr fuel opts w).world.sent = w.sent ++ reqs ∧
      (1 ≤ fuel → reqs ≠ []) ∧
      ∀ r ∈ reqs, r.getParam "pageSize" =
        some (Itoa (if opts.PageSize = 0 then 100 else opts.PageSize)) := by
  rw [records_start]
  obtain ⟨n, _, hpos, hsent⟩ := pageLoop_sent (recordClient.ListRecord tr) (fun pg => pg.Items)
    (fun _ acc pg => decide ((acc.length : Int) ≥ pg.Total))
    (fun o => { o with PageNum := o.PageNum + 1 }) recordsRequest (records_sent tr)
    fuel { opts with PageNum := 1,
                     PageSize := if opts.PageSize = 0 then 100 else opts.PageSize } [] w
  refine ⟨_, hsent, ?_, ?_⟩
  · intro hf hnil
    have h1 := congrArg List.length hnil
    have h2 := hpos hf
    simp only [List.length_map, List.length_range, List.length_nil] at h1
    omega
  · intro r hr
    obtain ⟨j, _, rfl⟩ := List.mem_map.1 hr
    rw [records_iterate, records_pageSize]

/-- Page sizes of the requests of a run, which are at least one when the
budget is positive. -/
theorem micro_sizes_pos (tr : Transport σ ε (MicroServiceList α)) (opts : ListMicroServicesOptions) (w : World σ)
    (fuel : Nat) :
    ∃ reqs, (MicroserviceClient.ListAllMicroService tr fuel opts w).world.sent = w.sent ++ reqs ∧
      (1 ≤ fuel → reqs ≠ []) ∧
      ∀ r ∈ reqs, r.getParam "pageSize" =
        some (Itoa (if opts.PageSize = 0 then 100 else opts.PageSize)) := by
  rw [micro_start]
  obtain ⟨n, _, hpos, hsent⟩ := pageLoop_sent (MicroserviceClient.ListMicroService tr) (fun pg => pg.Items)
    (fun _ acc pg => decide ((acc.length : Int) ≥ pg.Total))
    (fun o => { o with PageNum := o.PageNum + 1 }) microServicesRequest (micro_sent tr)
    fuel { opts with PageNum := 1,
                     PageSize := if opts.PageSize = 0 then 100 else opts.PageSize } [] w
  refine ⟨_, hsent, ?_, ?_⟩
  · intro hf hnil
    have h1 := congrArg List.length hnil
    have h2 := hpos hf
    simp only [List.length_map, List.length_range, List.length_nil] at h1
    omega
  · intro r hr
    obtain ⟨j, _, rfl⟩ := List.mem_map.1 hr
    rw [micro_iterate, micro_pageSize]

/-- Page sizes of the requests of a run, which are at least one when the
budget is positive. -/
theorem configs_sizes_pos (tr : Transport σ ε (List α)) (opts : ListConfigsOptions) (w : World σ)
    (fuel : Nat) :
    ∃ reqs, (configClient.ListAllConfig tr fuel opts w).world.sent = w.sent ++ reqs ∧
      (1 ≤ fuel → reqs ≠ []) ∧
      ∀ r ∈ reqs, r.getParam "pageSize" =
        some (Itoa (if opts.PageSize = 0 then 100 else opts.PageSize)) := by
  rw [configs_start]
  obtain ⟨n, _, hpos, hsent⟩ := pageLoop_sent (configClient.ListConfig tr) (fun pg => pg)
    (fun o _ pg => decide ((pg.length : Int) < o.PageSize))
    (fun o => { o with PageNum := o.PageNum + 1 }) configsRequest (configs_sent tr)
    fuel { opts with PageNum := 1,
                     PageSize := if opts.PageSize = 0 then 100 else opts.PageSize } [] w
  refine ⟨_, hsent, ?_, ?_⟩
  · intro hf hnil
    have h1 := congrArg List.length hnil
    have h2 := hpos hf
    simp only [List.length_map, List.length_range, List.length_nil] at h1
    omega
  · intro r hr
    obtain ⟨j, _, rfl⟩ := List.mem_map.1 hr
    rw [configs_iterate, configs_pageSize]

end AnyPageSize

/-! ## The test servers are faithful for every options value -/

theorem demo_served (S : Nat) (req : Request) (p : Nat) (h1 : 1 ≤ p) (h6 : p ≤ 6)
    (h : req.getParam "pageNum" = some (Itoa (p : Int))) :
    servedItems demoData S req = pageOf demoData S p := by
  unfold servedItems
  rw [h]
  interval_cases p <;> rfl

theorem demo_services_faithful_any (opts : ListServicesOptions) (S : Nat) (T : Int)
    (B : Nat) (hB : B ≤ 6) :
    FaithfulServices (servicesServer demoData S T) opts demoData S T B := by
  intro p h1 h2 w0
  have hs := demo_served S (servicesRequest { opts with PageNum := p }) p h1
    (le_trans h2 hB) (services_pageNum _)
  rw [services_list_eq]
  exact ⟨_, rfl, hs, rfl⟩

theorem demo_records_faithful_any (opts : ListRecordOptions) (S : Nat) (T : Int)
    (B : Nat) (hB : B ≤ 6) :
    FaithfulRecords (recordsServer demoData S T) opts demoData S T B := by
  intro p h1 h2 w0
  have hs := demo_served S (recordsRequest { opts with PageNum := p }) p h1
    (le_trans h2 hB) (records_pageNum _)
  rw [records_list_eq]
  exact ⟨_, rfl, hs, rfl⟩

theorem demo_micro_faithful_any (opts : ListMicroServicesOptions) (S : Nat) (T : Int)
    (B : Nat) (hB : B ≤ 6) :
    FaithfulMicroServices (microServicesServer demoData S T) opts demoData S T B := by
  intro p h1 h2 w0
  have hs := demo_served S (microServicesRequest { opts with PageNum := p }) p h1
    (le_trans h2 hB) (micro_pageNum _)
  rw [micro_list_eq]
  exact ⟨_, rfl, hs, rfl⟩

theorem demo_configs_faithful_any (opts : ListConfigsOptions) (S : Nat)
    (B : Nat) (hB : B ≤ 6) :
    FaithfulConfigs (configsServer demoData S) opts demoData S B := by
  intro p h1 h2 w0
  have hs := demo_served S (configsRequest { opts with PageNum := p }) p h1
    (le_trans h2 hB) (configs_pageNum _)
  rw [configs_list_eq]
  exact congrArg Except.ok hs

/-! ## Claims about the pagination traversal -/

/-- C1, refuted as stated: a `configmap` server that answers page `p` with
positions `(p-1)*2 .. min(p*2, 5)-1` of five items is faithful in pages of
two for every options value, yet `ListAllConfig` called with `PageSize = 3`,
or with `PageSize` left 0 (so that 100 is requested), returns after one
request with the first two items only: a page of two items is shorter than
the page size requested, which ends the short-page traversal. -/
theorem C1_counterexample :
    (∀ opts : ListConfigsOptions,
      FaithfulConfigs (configsServer demoData 2) opts demoData 2 3) ∧
    (∃ w1, configClient.ListAllConfig (configsServer demoData 2) 3 (demoConfigs 3) world0 =
        Run.done ⟨[10, 20], none, w1⟩ ∧ w1.sent.length = 1) ∧
    (∃ w1, configClient.ListAllConfig (configsServer demoData 2) 3 (demoConfigs 0) world0 =
        Run.done ⟨[10, 20], none, w1⟩ ∧ w1.sent.length = 1) ∧
    ([10, 20] : List Nat) ≠ demoData :=
  ⟨fun opts => demo_configs_faithful_any opts 2 3 (by decide), ⟨_, rfl, rfl⟩, ⟨_, rfl, rfl⟩,
    by decide⟩

/-- C1 (amended; pagination completeness, items): for every dataset `data`
of `N ≥ 0` items and every page length `S ≥ 1`, against a single-page list
operation that, asked with the options the traversal passes (the caller's,
with the page size defaulted to 100 when left 0), answers page `p` with the
items at positions `(p-1)*S .. min(p*S, N)-1` and reports total `N`:
`Services.ListAll`, `ListAllRecord` and `ListAllMicroService` return, within
`N / S + 1` loop iterations, no error and exactly `data` in the original
order, whatever page size the caller asked for; `ListAllConfig` does so when
`S` is the page size it requests (the caller's `PageSize`, or 100 when the
caller left it 0). -/
theorem C1_pagination_completeness {σ ε α : Type} (data : List α) (S : Nat) (hS : 1 ≤ S)
    (fuel : Nat) (hfuel : data.length / S + 1 ≤ fuel) :
    (∀ (tr : Transport σ ε (ServiceList α)) (opts : ListServicesOptions) (w : World σ),
      FaithfulServices tr
        { opts with PageSize := if opts.PageSize = 0 then 100 else opts.PageSize }
        data S data.length (data.length / S + 1) →
      ∃ w1, serviceClient.ListAll tr fuel opts w = Run.done ⟨data, none, w1⟩) ∧
    (∀ (tr : Transport σ ε (RecordList α)) (opts : ListRecordOptions) (w : World σ),
      FaithfulRecords tr
        { opts with PageSize := if opts.PageSize = 0 then 100 else opts.PageSize }
        data S data.length (data.length / S + 1) →
      ∃ w1, recordClient.ListAllRecord tr fuel opts w = Run.done ⟨data, none, w1⟩) ∧
    (∀ (tr : Transport σ ε (MicroServiceList α)) (opts : ListMicroServicesOptions)
        (w : World σ),
      FaithfulMicroServices tr
        { opts with PageSize := if opts.PageSize = 0 then 100 else opts.PageSize }
        data S data.length (data.length / S + 1) →
      ∃ w1, MicroserviceClient.ListAllMicroService tr fuel opts w =
        Run.done ⟨data, none, w1⟩) ∧
    (∀ (tr : Transport σ ε (List α)) (opts : ListConfigsOptions) (w : World σ),
      (if opts.PageSize = 0 then 100 else opts.PageSize) = (S : Int) →
      FaithfulConfigs tr
        { opts with PageSize := if opts.PageSize = 0 then 100 else opts.PageSize }
        data S (data.length / S + 1) →
      ∃ w1, configClient.ListAllConfig tr fuel opts w = Run.done ⟨data, none, w1⟩) := by
  have hc : max 1 (ceilDiv data.length S) ≤ data.length / S + 1 :=
    Nat.max_le.2 ⟨Nat.le_add_left 1 _, ceilDiv_le_div_succ S data.length hS⟩
  obtain ⟨e1, he1⟩ := Nat.exists_eq_add_of_le (le_trans hc hfuel)
  obtain ⟨e2, he2⟩ := Nat.exists_eq_add_of_le hfuel
  refine ⟨?_, ?_, ?_, ?_⟩
  · intro tr opts w hf
    obtain ⟨w1, h, _⟩ := services_exact_any tr opts data S hS
      (faithfulServices_mono tr _ data S _ _ _ hc hf) w e1
    exact ⟨w1, by rw [he1]; exact h⟩
  · intro tr opts w hf
    obtain ⟨w1, h, _⟩ := records_exact_any tr opts data S hS
      (faithfulRecords_mono tr _ data S _ _ _ hc hf) w e1
    exact ⟨w1, by rw [he1]; exact h⟩
  · intro tr opts w hf
    obtain ⟨w1, h, _⟩ := micro_exact_any tr opts data S hS
      (faithfulMicroServices_mono tr _ data S _ _ _ hc hf) w e1
    exact ⟨w1, by rw [he1]; exact h⟩
  · intro tr opts w heff hf
    obtain ⟨w1, h, _⟩ := configs_short_any tr opts data S hS heff hf w e2
    exact ⟨w1, by rw [he2]; exact h⟩

/-- C1 (amended), worked instances: five items served in pages of two are
returned whole by `Services.ListAll` with the page size left 0, by
`ListAllRecord` asking for 3, by `ListAllMicroService` asking for 2 and by
`ListAllConfig` asking for 2; and served in one page of 100 they are returned
whole by `ListAllConfig` with the page size left 0. -/
theorem C1_pagination_completeness_witness :
    (1 ≤ 2) ∧ (demoData.length / 2 + 1 ≤ 3) ∧
    (∃ w1, serviceClient.ListAll (servicesServer demoData 2 5) 3 (demoServices 0) world0 =
      Run.done ⟨demoData, none, w1⟩) ∧
    (∃ w1, recordClient.ListAllRecord (recordsServer demoData 2 5) 3 (demoRecords 3) world0 =
      Run.done ⟨demoData, none, w1⟩) ∧
    (∃ w1, MicroserviceClient.ListAllMicroService (microServicesServer demoData 2 5) 3
      (demoMicroServices 2) world0 = Run.done ⟨demoData, none, w1⟩) ∧
    (∃ w1, configClient.ListAllConfig (configsServer demoData 2) 3 (demoConfigs 2) world0 =
      Run.done ⟨demoData, none, w1⟩) ∧
    (1 ≤ 100) ∧ (demoData.length / 100 + 1 ≤ 1) ∧
    (∃ w1, configClient.ListAllConfig (configsServer demoData 100) 1 (demoConfigs 0) world0 =
      Run.done ⟨demoData, none, w1⟩) :=
  ⟨by decide, by decide,
    (@C1_pagination_completeness Unit String Nat demoData 2 (by decide) 3 (by decide)).1
      _ (demoServices 0) world0 (demo_services_faithful_any _ 2 5 3 (by decide)),
    (@C1_pagination_completeness Unit String Nat demoData 2 (by decide) 3 (by decide)).2.1
      _ (demoRecords 3) world0 (demo_records_faithful_any _ 2 5 3 (by decide)),
    (@C1_pagination_completeness Unit String Nat demoData 2 (by decide) 3 (by decide)).2.2.1
      _ (demoMicroServices 2) world0 (demo_micro_faithful_any _ 2 5 3 (by decide)),
    (@C1_pagination_completeness Unit String Nat demoData 2 (by decide) 3 (by decide)).2.2.2
      _ (demoConfigs 2) world0 rfl (demo_configs_faithful_any _ 2 3 (by decide)),
    by decide, by decide,
    (@C1_pagination_completeness Unit String Nat demoData 100 (by decide) 1 (by decide)).2.2.2
      _ (demoConfigs 0) world0 rfl (demo_configs_faithful_any _ 100 1 (by decide))⟩

/-- C2, refuted as stated: against the empty dataset (`N = 0`, `S = 1`,
total reported 0) `Services.ListAll` returns after one `List` request, while
`ceil (0 / 1) = 0`. -/
theorem C2_counterexample :
    FaithfulServices (servicesServer ([] : List Nat) 1 0) (demoServices 1) [] 1 0 1 ∧
    (∃ w1, serviceClient.ListAll (servicesServer ([] : List Nat) 1 0) 1 (demoServices 1)
        world0 = Run.done ⟨[], none, w1⟩ ∧ w1.sent.length = 1) ∧
    ceilDiv 0 1 = 0 := by
  refine ⟨?_, ⟨_, rfl, rfl⟩, by decide⟩
  intro p h1 h2 w0
  interval_cases p
  exact ⟨_, rfl, rfl, rfl⟩

/-- C2 (amended): for every `N ≥ 0` and `S ≥ 1`, against a server that reports
total `N` and serves the `N` items faithfully in pages of size `S`, each
count-based list-all operation (`Services.ListAll`, `ListAllRecord`,
`ListAllMicroService`) returns the items after exactly `max 1 (ceil (N/S))`
single-page list requests: `ceil (N/S)` when `N ≥ 1`, and one when `N = 0`. -/
theorem C2_request_count_count_based {σ ε α : Type} (data : List α) (S : Nat) (hS : 1 ≤ S)
    (fuel : Nat) (hfuel : max 1 (ceilDiv data.length S) ≤ fuel) :
    (∀ (tr : Transport σ ε (ServiceList α)) (opts : ListServicesOptions) (w : World σ),
      opts.PageSize = S →
      FaithfulServices tr opts data S data.length (max 1 (ceilDiv data.length S)) →
      ∃ w1, serviceClient.ListAll tr fuel opts w = Run.done ⟨data, none, w1⟩ ∧
        w1.sent.length = w.sent.length + max 1 (ceilDiv data.length S)) ∧
    (∀ (tr : Transport σ ε (RecordList α)) (opts : ListRecordOptions) (w : World σ),
      opts.PageSize = S →
      FaithfulRecords tr opts data S data.length (max 1 (ceilDiv data.length S)) →
      ∃ w1, recordClient.ListAllRecord tr fuel opts w = Run.done ⟨data, none, w1⟩ ∧
        w1.sent.length = w.sent.length + max 1 (ceilDiv data.length S)) ∧
    (∀ (tr : Transport σ ε (MicroServiceList α)) (opts : ListMicroServicesOptions)
        (w : World σ),
      opts.PageSize = S →
      FaithfulMicroServices tr opts data S data.length (max 1 (ceilDiv data.length S)) →
      ∃ w1, MicroserviceClient.ListAllMicroService tr fuel opts w =
          Run.done ⟨data, none, w1⟩ ∧
        w1.sent.length = w.sent.length + max 1 (ceilDiv data.length S)) := by
  obtain ⟨e1, he1⟩ := Nat.exists_eq_add_of_le hfuel
  refine ⟨?_, ?_, ?_⟩
  · intro tr opts w hps hf
    obtain ⟨w1, h, hs⟩ := services_exact tr opts data S hS hps hf w e1
    exact ⟨w1, by rw [he1]; exact h, by rw [hs]; simp⟩
  · intro tr opts w hps hf
    obtain ⟨w1, h, hs⟩ := records_exact tr opts data S hS hps hf w e1
    exact ⟨w1, by rw [he1]; exact h, by rw [hs]; simp⟩
  · intro tr opts w hps hf
    obtain ⟨w1, h, hs⟩ := micro_exact tr opts data S hS hps hf w e1
    exact ⟨w1, by rw [he1]; exact h, by rw [hs]; simp⟩

/-- C2 (amended), worked instance: five items in pages of two take three
requests. -/
theorem C2_request_count_count_based_witness :
    (1 ≤ 2) ∧ (max 1 (ceilDiv demoData.length 2) ≤ 3) ∧
    (∃ w1, serviceClient.ListAll (servicesServer demoData 2 5) 3 (demoServices 2) world0 =
        Run.done ⟨demoData, none, w1⟩ ∧
      w1.sent.length = world0.sent.length + max 1 (ceilDiv demoData.length 2)) ∧
    (∃ w1, recordClient.ListAllRecord (recordsServer demoData 2 5) 3 (demoRecords 2) world0 =
        Run.done ⟨demoData, none, w1⟩ ∧
      w1.sent.length = world0.sent.length + max 1 (ceilDiv demoData.length 2)) ∧
    (∃ w1, MicroserviceClient.ListAllMicroService (microServicesServer demoData 2 5) 3
        (demoMicroServices 2) world0 = Run.done ⟨demoData, none, w1⟩ ∧
      w1.sent.length = world0.sent.length + max 1 (ceilDiv demoData.length 2)) :=
  ⟨by decide, by decide,
    (@C2_request_count_count_based Unit String Nat demoData 2 (by decide) 3 (by decide)).1
      _ _ world0 rfl (demo_services_faithful 5 _ (by decide)),
    (@C2_request_count_count_based Unit String Nat demoData 2 (by decide) 3 (by decide)).2.1
      _ _ world0 rfl (demo_records_faithful 5 _ (by decide)),
    (@C2_request_count_count_based Unit String Nat demoData 2 (by decide) 3 (by decide)).2.2
      _ _ world0 rfl (demo_micro_faithful 5 _ (by decide))⟩

/-- C3, refuted as stated: against four config items served in pages of two
`ListAllConfig` returns after three `ListConfig` requests (the last one is
answered by an empty page), while `ceil (4 / 2) = 2`. -/
theorem C3_counterexample :
    FaithfulConfigs (configsServer [10, 20, 30, 40] 2) (demoConfigs 2) [10, 20, 30, 40] 2 3 ∧
    (∃ w1, configClient.ListAllConfig (configsServer [10, 20, 30, 40] 2) 3 (demoConfigs 2)
        world0 = Run.done ⟨[10, 20, 30, 40], none, w1⟩ ∧ w1.sent.length = 3) ∧
    ceilDiv 4 2 = 2 := by
  refine ⟨?_, ⟨_, rfl, rfl⟩, by decide⟩
  intro p h1 h2 w0
  interval_cases p <;> rfl

/-- C3 (amended): for every `N ≥ 0` and `S ≥ 1`, against a server that serves
a dataset of `N` config items faithfully in pages of size `S`, where `S` is
the page size `ListAllConfig` requests (the caller's `PageSize`, or 100 when
the caller left it 0), `ListAllConfig` returns the items after exactly
`floor (N/S) + 1` `ListConfig` requests; that is `ceil (N/S)` when `S` does
not divide `N`, and `ceil (N/S) + 1` when `S` divides `N` (`N = 0`
included). -/
theorem C3_request_count_short_page {σ ε α : Type} (data : List α) (S : Nat) (hS : 1 ≤ S)
    (fuel : Nat) (hfuel : data.length / S + 1 ≤ fuel)
    (tr : Transport σ ε (List α)) (opts : ListConfigsOptions) (w : World σ)
    (heff : (if opts.PageSize = 0 then 100 else opts.PageSize) = (S : Int))
    (hf : FaithfulConfigs tr
      { opts with PageSize := if opts.PageSize = 0 then 100 else opts.PageSize }
      data S (data.length / S + 1)) :
    (∃ w1, configClient.ListAllConfig tr fuel opts w = Run.done ⟨data, none, w1⟩ ∧
      w1.sent.length = w.sent.length + (data.length / S + 1)) ∧
    (¬ S ∣ data.length → data.length / S + 1 = ceilDiv data.length S) ∧
    (S ∣ data.length → data.length / S + 1 = ceilDiv data.length S + 1) := by
  obtain ⟨e2, he2⟩ := Nat.exists_eq_add_of_le hfuel
  obtain ⟨w1, h, hs⟩ := configs_short_any tr opts data S hS heff hf w e2
  refine ⟨⟨w1, by rw [he2]; exact h, hs⟩, ?_, ?_⟩
  · intro hnd
    have h1 := Nat.div_add_mod data.length S
    have h2 := Nat.mod_lt data.length (show 0 < S by omega)
    have h3 : data.length % S ≠ 0 := fun h0 => hnd (Nat.dvd_of_mod_eq_zero h0)
    have h4 := Nat.mul_comm S (data.length / S)
    unfold ceilDiv
    symm
    apply Nat.div_eq_of_lt_le
    · rw [Nat.succ_mul] at *; omega
    · rw [Nat.succ_mul, Nat.succ_mul]; omega
  · intro hd
    have h1 := Nat.div_add_mod data.length S
    have h3 : data.length % S = 0 := Nat.mod_eq_zero_of_dvd hd
    have h4 := Nat.mul_comm S (data.length / S)
    have : ceilDiv data.length S = data.length / S := by
      unfold ceilDiv
      apply Nat.div_eq_of_lt_le
      · omega
      · rw [Nat.succ_mul]; omega
    omega

/-- C3 (amended), worked instances: five config items in pages of two,
asked for with page size 2, take three requests; five config items in one
page of 100, asked for with the page size left 0, take one request. -/
theorem C3_request_count_short_page_witness :
    (1 ≤ 2) ∧ (demoData.length / 2 + 1 ≤ 3) ∧
    ((if (demoConfigs 2).PageSize = 0 then 100 else (demoConfigs 2).PageSize) =
      ((2 : Nat) : Int)) ∧
    ((∃ w1, configClient.ListAllConfig (configsServer demoData 2) 3 (demoConfigs 2) world0 =
        Run.done ⟨demoData, none, w1⟩ ∧
      w1.sent.length = world0.sent.length + (demoData.length / 2 + 1)) ∧
    (¬ 2 ∣ demoData.length → demoData.length / 2 + 1 = ceilDiv demoData.length 2) ∧
    (2 ∣ demoData.length → demoData.length / 2 + 1 = ceilDiv demoData.length 2 + 1)) ∧
    (1 ≤ 100) ∧ (demoData.length / 100 + 1 ≤ 1) ∧
    ((if (demoConfigs 0).PageSize = 0 then 100 else (demoConfigs 0).PageSize) =
      ((100 : Nat) : Int)) ∧
    ((∃ w1, configClient.ListAllConfig (configsServer demoData 100) 1 (demoConfigs 0)
        world0 = Run.done ⟨demoData, none, w1⟩ ∧
      w1.sent.length = world0.sent.length + (demoData.length / 100 + 1)) ∧
    (¬ 100 ∣ demoData.length → demoData.length / 100 + 1 = ceilDiv demoData.length 100) ∧
    (100 ∣ demoData.length →
      demoData.length / 100 + 1 = ceilDiv demoData.length 100 + 1)) :=
  ⟨by decide, by decide, rfl,
    C3_request_count_short_page demoData 2 (by decide) 3 (by decide)
      (configsServer demoData 2) (demoConfigs 2) world0 rfl
      (demo_configs_faithful_any _ 2 _ (by decide)),
    by decide, by decide, rfl,
    C3_request_count_short_page demoData 100 (by decide) 1 (by decide)
      (configsServer demoData 100) (demoConfigs 0) world0 rfl
      (demo_configs_faithful_any _ 100 _ (by decide))⟩

/-- C4 (pagination emptiness): for each of the four list-all operations and
every options value, if the first single-page response succeeds with zero
items, list-all returns the empty sequence with no error, whatever total the
page reports, and the world it leaves is the one right after that first
request: exactly one page request was issued. -/
theorem C4_pagination_emptiness {σ ε α : Type} (fuel : Nat) :
    (∀ (tr : Transport σ ε (ServiceList α)) (opts : ListServicesOptions) (w w1 : World σ)
        (pg : ServiceList α),
      serviceClient.List tr
        { opts with PageNum := 1,
                    PageSize := if opts.PageSize = 0 then 100 else opts.PageSize } w =
          (Except.ok pg, w1) →
      pg.Items = [] →
      serviceClient.ListAll tr (fuel + 1) opts w = Run.done ⟨[], none, w1⟩ ∧
        w1.sent.length = w.sent.length + 1) ∧
    (∀ (tr : Transport σ ε (RecordList α)) (opts : ListRecordOptions) (w w1 : World σ)
        (pg : RecordList α),
      recordClient.ListRecord tr
        { opts with PageNum := 1,
                    PageSize := if opts.PageSize = 0 then 100 else opts.PageSize } w =
          (Except.ok pg, w1) →
      pg.Items = [] →
      recordClient.ListAllRecord tr (fuel + 1) opts w = Run.done ⟨[], none, w1⟩ ∧
        w1.sent.length = w.sent.length + 1) ∧
    (∀ (tr : Transport σ ε (MicroServiceList α)) (opts : ListMicroServicesOptions)
        (w w1 : World σ) (pg : MicroServiceList α),
      MicroserviceClient.ListMicroService tr
        { opts with PageNum := 1,
                    PageSize := if opts.PageSize = 0 then 100 else opts.PageSize } w =
          (Except.ok pg, w1) →
      pg.Items = [] →
      MicroserviceClient.ListAllMicroService tr (fuel + 1) opts w =
          Run.done ⟨[], none, w1⟩ ∧
        w1.sent.length = w.sent.length + 1) ∧
    (∀ (tr : Transport σ ε (List α)) (opts : ListConfigsOptions) (w w1 : World σ)
        (pg : List α),
      configClient.ListConfig tr
        { opts with PageNum := 1,
                    PageSize := if opts.PageSize = 0 then 100 else opts.PageSize } w =
          (Except.ok pg, w1) →
      pg = [] →
      configClient.ListAllConfig tr (fuel + 1) opts w = Run.done ⟨[], none, w1⟩ ∧
        w1.sent.length = w.sent.length + 1) :=
  ⟨fun tr opts w w1 pg h h0 => services_empty_first tr opts w w1 pg fuel h h0,
   fun tr opts w w1 pg h h0 => records_empty_first tr opts w w1 pg fuel h h0,
   fun tr opts w w1 pg h h0 => micro_empty_first tr opts w w1 pg fuel h h0,
   fun tr opts w w1 pg h h0 => configs_empty_first tr opts w w1 pg fuel h h0⟩

/-- C4, worked instance: servers holding nothing; the count-based ones report
a stale total of 7. -/
theorem C4_pagination_emptiness_witness :
    (serviceClient.ListAll (servicesServer ([] : List Nat) 2 7) 5 (demoServices 0) world0 =
        Run.done ⟨[], none, ⟨(), [servicesRequest { demoServices 100 with PageNum := 1 }]⟩⟩) ∧
    (recordClient.ListAllRecord (recordsServer ([] : List Nat) 2 7) 5 (demoRecords 2) world0 =
        Run.done ⟨[], none, ⟨(), [recordsRequest { demoRecords 2 with PageNum := 1 }]⟩⟩) ∧
    (MicroserviceClient.ListAllMicroService (microServicesServer ([] : List Nat) 2 7) 5
        (demoMicroServices 2) world0 =
        Run.done ⟨[], none,
          ⟨(), [microServicesRequest { demoMicroServices 2 with PageNum := 1 }]⟩⟩) ∧
    (configClient.ListAllConfig (configsServer ([] : List Nat) 2) 5 (demoConfigs 2) world0 =
        Run.done ⟨[], none, ⟨(), [configsRequest { demoConfigs 2 with PageNum := 1 }]⟩⟩) :=
  ⟨((@C4_pagination_emptiness Unit String Nat 4).1 (servicesServer [] 2 7)
      (demoServices 0) world0 _ _ rfl rfl).1,
   ((@C4_pagination_emptiness Unit String Nat 4).2.1 (recordsServer [] 2 7)
      (demoRecords 2) world0 _ _ rfl rfl).1,
   ((@C4_pagination_emptiness Unit String Nat 4).2.2.1 (microServicesServer [] 2 7)
      (demoMicroServices 2) world0 _ _ rfl rfl).1,
   ((@C4_pagination_emptiness Unit String Nat 4).2.2.2 (configsServer [] 2)
      (demoConfigs 2) world0 _ _ rfl rfl).1⟩

/-- C5 (pagination termination safety): for every dataset of `M` items,
`S ≥ 1` and reported total `T > M`, against a server that serves the items
faithfully in pages of size `S` (empty pages past the end) and reports total
`T` on every page, each count-based list-all operation terminates: it returns
exactly the `M` items in order, with no error, after `ceil (M/S) + 1` page
requests (the last one answered by an empty page). -/
theorem C5_termination_safety {σ ε α : Type} (data : List α) (S : Nat) (T : Int)
    (hS : 1 ≤ S) (hT : (data.length : Int) < T)
    (fuel : Nat) (hfuel : ceilDiv data.length S + 1 ≤ fuel) :
    (∀ (tr : Transport σ ε (ServiceList α)) (opts : ListServicesOptions) (w : World σ),
      opts.PageSize = S →
      FaithfulServices tr opts data S T (ceilDiv data.length S + 1) →
      ∃ w1, serviceClient.ListAll tr fuel opts w = Run.done ⟨data, none, w1⟩ ∧
        w1.sent.length = w.sent.length + (ceilDiv data.length S + 1)) ∧
    (∀ (tr : Transport σ ε (RecordList α)) (opts : ListRecordOptions) (w : World σ),
      opts.PageSize = S →
      FaithfulRecords tr opts data S T (ceilDiv data.length S + 1) →
      ∃ w1, recordClient.ListAllRecord tr fuel opts w = Run.done ⟨data, none, w1⟩ ∧
        w1.sent.length = w.sent.length + (ceilDiv data.length S + 1)) ∧
    (∀ (tr : Transport σ ε (MicroServiceList α)) (opts : ListMicroServicesOptions)
        (w : World σ),
      opts.PageSize = S →
      FaithfulMicroServices tr opts data S T (ceilDiv data.length S + 1) →
      ∃ w1, MicroserviceClient.ListAllMicroService tr fuel opts w =
          Run.done ⟨data, none, w1⟩ ∧
        w1.sent.length = w.sent.length + (ceilDiv data.length S + 1)) := by
  obtain ⟨e1, he1⟩ := Nat.exists_eq_add_of_le hfuel
  refine ⟨?_, ?_, ?_⟩
  · intro tr opts w hps hf
    obtain ⟨w1, h, hs⟩ := services_over tr opts data S T hS hps hT hf w e1
    exact ⟨w1, by rw [he1]; exact h, by rw [hs]; simp⟩
  · intro tr opts w hps hf
    obtain ⟨w1, h, hs⟩ := records_over tr opts data S T hS hps hT hf w e1
    exact ⟨w1, by rw [he1]; exact h, by rw [hs]; simp⟩
  · intro tr opts w hps hf
    obtain ⟨w1, h, hs⟩ := micro_over tr opts data S T hS hps hT hf w e1
    exact ⟨w1, by rw [he1]; exact h, by rw [hs]; simp⟩

/-- C5, worked instance: five items in pages of two with total misreported
as 9; four requests. -/
theorem C5_termination_safety_witness :
    (1 ≤ 2) ∧ ((demoData.length : Int) < 9) ∧ (ceilDiv demoData.length 2 + 1 ≤ 4) ∧
    (∃ w1, serviceClient.ListAll (servicesServer demoData 2 9) 4 (demoServices 2) world0 =
        Run.done ⟨demoData, none, w1⟩ ∧
      w1.sent.length = world0.sent.length + (ceilDiv demoData.length 2 + 1)) ∧
    (∃ w1, recordClient.ListAllRecord (recordsServer demoData 2 9) 4 (demoRecords 2) world0 =
        Run.done ⟨demoData, none, w1⟩ ∧
      w1.sent.length = world0.sent.length + (ceilDiv demoData.length 2 + 1)) ∧
    (∃ w1, MicroserviceClient.ListAllMicroService (microServicesServer demoData 2 9) 4
        (demoMicroServices 2) world0 = Run.done ⟨demoData, none, w1⟩ ∧
      w1.sent.length = world0.sent.length + (ceilDiv demoData.length 2 + 1)) :=
  ⟨by decide, by decide, by decide,
    (@C5_termination_safety Unit String Nat demoData 2 9 (by decide) (by decide) 4
      (by decide)).1 _ _ world0 rfl (demo_services_faithful 9 _ (by decide)),
    (@C5_termination_safety Unit String Nat demoData 2 9 (by decide) (by decide) 4
      (by decide)).2.1 _ _ world0 rfl (demo_records_faithful 9 _ (by decide)),
    (@C5_termination_safety Unit String Nat demoData 2 9 (by decide) (by decide) 4
      (by decide)).2.2 _ _ world0 rfl (demo_micro_faithful 9 _ (by decide))⟩

/-- C6 (list-all error atomicity): for each of the four list-all operations,
if the loop is still running after `k` delivered pages (whatever items they
accumulated) and the next single-page request, the `(k+1)`-th, returns an
error, then list-all returns that same error together with the nil sequence,
and the world it leaves is the one right after the failing request, which is
request number `k + 1`: nothing is sent after it. -/
theorem C6_error_atomicity {σ ε α : Type} (k m : Nat) (e : ε) :
    (∀ (tr : Transport σ ε (ServiceList α)) (opts : ListServicesOptions) (w w1 : World σ)
        (st : LoopState ListServicesOptions α σ),
      serviceClient.ListAll tr k opts w = Run.running st →
      serviceClient.List tr st.opts st.world = (Except.error e, w1) →
      serviceClient.ListAll tr (k + 1 + m) opts w = Run.done ⟨[], some e, w1⟩ ∧
        w1.sent.length = w.sent.length + (k + 1)) ∧
    (∀ (tr : Transport σ ε (RecordList α)) (opts : ListRecordOptions) (w w1 : World σ)
        (st : LoopState ListRecordOptions α σ),
      recordClient.ListAllRecord tr k opts w = Run.running st →
      recordClient.ListRecord tr st.opts st.world = (Except.error e, w1) →
      recordClient.ListAllRecord tr (k + 1 + m) opts w = Run.done ⟨[], some e, w1⟩ ∧
        w1.sent.length = w.sent.length + (k + 1)) ∧
    (∀ (tr : Transport σ ε (MicroServiceList α)) (opts : ListMicroServicesOptions)
        (w w1 : World σ) (st : LoopState ListMicroServicesOptions α σ),
      MicroserviceClient.ListAllMicroService tr k opts w = Run.running st →
      MicroserviceClient.ListMicroService tr st.opts st.world = (Except.error e, w1) →
      MicroserviceClient.ListAllMicroService tr (k + 1 + m) opts w =
          Run.done ⟨[], some e, w1⟩ ∧
        w1.sent.length = w.sent.length + (k + 1)) ∧
    (∀ (tr : Transport σ ε (List α)) (opts : ListConfigsOptions) (w w1 : World σ)
        (st : LoopState ListConfigsOptions α σ),
      configClient.ListAllConfig tr k opts w = Run.running st →
      configClient.ListConfig tr st.opts st.world = (Except.error e, w1) →
      configClient.ListAllConfig tr (k + 1 + m) opts w = Run.done ⟨[], some e, w1⟩ ∧
        w1.sent.length = w.sent.length + (k + 1)) :=
  ⟨fun tr opts w w1 st hrun herr => services_error tr opts w w1 k m st e hrun herr,
   fun tr opts w w1 st hrun herr => records_error tr opts w w1 k m st e hrun herr,
   fun tr opts w w1 st hrun herr => micro_error tr opts w w1 k m st e hrun herr,
   fun tr opts w w1 st hrun herr => configs_error tr opts w w1 k m st e hrun herr⟩

/-- C6, worked instance: page 1 delivers two items, the second request fails
with `"boom"`; the two items are dropped and exactly two requests were sent. -/
theorem C6_error_atomicity_witness :
    (∃ st w1, serviceClient.ListAll (failAfterFirst ⟨5, 1, 2, [10, 20]⟩) 1 (demoServices 2)
        world0 = Run.running st ∧ st.allItems = [10, 20] ∧
      serviceClient.ListAll (failAfterFirst ⟨5, 1, 2, [10, 20]⟩) 2 (demoServices 2)
        world0 = Run.done ⟨[], some "boom", w1⟩ ∧
      w1.sent.length = 2) ∧
    (∃ st w1, recordClient.ListAllRecord (failAfterFirst ⟨5, 1, 2, [10, 20]⟩) 1
        (demoRecords 2) world0 = Run.running st ∧ st.allItems = [10, 20] ∧
      recordClient.ListAllRecord (failAfterFirst ⟨5, 1, 2, [10, 20]⟩) 2 (demoRecords 2)
        world0 = Run.done ⟨[], some "boom", w1⟩ ∧
      w1.sent.length = 2) ∧
    (∃ st w1, MicroserviceClient.ListAllMicroService (failAfterFirst ⟨5, 1, 2, [10, 20]⟩) 1
        (demoMicroServices 2) world0 = Run.running st ∧ st.allItems = [10, 20] ∧
      MicroserviceClient.ListAllMicroService (failAfterFirst ⟨5, 1, 2, [10, 20]⟩) 2
        (demoMicroServices 2) world0 = Run.done ⟨[], some "boom", w1⟩ ∧
      w1.sent.length = 2) ∧
    (∃ st w1, configClient.ListAllConfig (failAfterFirst [10, 20]) 1 (demoConfigs 2)
        world0 = Run.running st ∧ st.allItems = [10, 20] ∧
      configClient.ListAllConfig (failAfterFirst [10, 20]) 2 (demoConfigs 2)
        world0 = Run.done ⟨[], some "boom", w1⟩ ∧
      w1.sent.length = 2) :=
  ⟨⟨_, _, rfl, rfl,
      (@C6_error_atomicity Unit String Nat 1 0 "boom").1
        (failAfterFirst ⟨5, 1, 2, [10, 20]⟩) (demoServices 2) world0 _ _ rfl rfl⟩,
   ⟨_, _, rfl, rfl,
      (@C6_error_atomicity Unit String Nat 1 0 "boom").2.1
        (failAfterFirst ⟨5, 1, 2, [10, 20]⟩) (demoRecords 2) world0 _ _ rfl rfl⟩,
   ⟨_, _, rfl, rfl,
      (@C6_error_atomicity Unit String Nat 1 0 "boom").2.2.1
        (failAfterFirst ⟨5, 1, 2, [10, 20]⟩) (demoMicroServices 2) world0 _ _ rfl rfl⟩,
   ⟨_, _, rfl, rfl,
      (@C6_error_atomicity Unit String Nat 1 0 "boom").2.2.2
        (failAfterFirst [10, 20]) (demoConfigs 2) world0 _ _ rfl rfl⟩⟩

/-- C7 (list-all always starts at page 1): for each of the four list-all
operations, every transport and every caller-supplied options value (any
`PageNum`), the first single-page request issued carries `pageNum = 1`, and
the whole run is the same whatever `PageNum` the caller supplied. -/
theorem C7_starts_at_page_one {σ ε α : Type} (fuel : Nat) :
    (∀ (tr : Transport σ ε (ServiceList α)) (opts : ListServicesOptions) (w : World σ),
      (∃ r rest, (serviceClient.ListAll tr (fuel + 1) opts w).world.sent =
          w.sent ++ r :: rest ∧ r.getParam "pageNum" = some "1") ∧
      ∀ n : Int, serviceClient.ListAll tr fuel { opts with PageNum := n } w =
        serviceClient.ListAll tr fuel opts w) ∧
    (∀ (tr : Transport σ ε (RecordList α)) (opts : ListRecordOptions) (w : World σ),
      (∃ r rest, (recordClient.ListAllRecord tr (fuel + 1) opts w).world.sent =
          w.sent ++ r :: rest ∧ r.getParam "pageNum" = some "1") ∧
      ∀ n : Int, recordClient.ListAllRecord tr fuel { opts with PageNum := n } w =
        recordClient.ListAllRecord tr fuel opts w) ∧
    (∀ (tr : Transport σ ε (MicroServiceList α)) (opts : ListMicroServicesOptions)
        (w : World σ),
      (∃ r rest, (MicroserviceClient.ListAllMicroService tr (fuel + 1) opts w).world.sent =
          w.sent ++ r :: rest ∧ r.getParam "pageNum" = some "1") ∧
      ∀ n : Int, MicroserviceClient.ListAllMicroService tr fuel { opts with PageNum := n } w =
        MicroserviceClient.ListAllMicroService tr fuel opts w) ∧
    (∀ (tr : Transport σ ε (List α)) (opts : ListConfigsOptions) (w : World σ),
      (∃ r rest, (configClient.ListAllConfig tr (fuel + 1) opts w).world.sent =
          w.sent ++ r :: rest ∧ r.getParam "pageNum" = some "1") ∧
      ∀ n : Int, configClient.ListAllConfig tr fuel { opts with PageNum := n } w =
        configClient.ListAllConfig tr fuel opts w) :=
  ⟨fun tr opts w => ⟨services_first tr opts w fuel, fun _ => rfl⟩,
   fun tr opts w => ⟨records_first tr opts w fuel, fun _ => rfl⟩,
   fun tr opts w => ⟨micro_first tr opts w fuel, fun _ => rfl⟩,
   fun tr opts w => ⟨configs_first tr opts w fuel, fun _ => rfl⟩⟩

/-- C8 (default page size): for each of the four list-all operations, every
transport, every options value and every budget, the page requests issued
(at least one as soon as the budget allows one iteration) all carry
`pageSize = 100` when the caller left `PageSize = 0`, and all carry exactly
the caller's page size otherwise. -/
theorem C8_default_page_size {σ ε α : Type} (fuel : Nat) :
    (∀ (tr : Transport σ ε (ServiceList α)) (opts : ListServicesOptions) (w : World σ),
      ∃ reqs, (serviceClient.ListAll tr fuel opts w).world.sent = w.sent ++ reqs ∧
        (1 ≤ fuel → reqs ≠ []) ∧
        ∀ r ∈ reqs, (opts.PageSize = 0 → r.getParam "pageSize" = some "100") ∧
          (opts.PageSize ≠ 0 → r.getParam "pageSize" = some (Itoa opts.PageSize))) ∧
    (∀ (tr : Transport σ ε (RecordList α)) (opts : ListRecordOptions) (w : World σ),
      ∃ reqs, (recordClient.ListAllRecord tr fuel opts w).world.sent = w.sent ++ reqs ∧
        (1 ≤ fuel → reqs ≠ []) ∧
        ∀ r ∈ reqs, (opts.PageSize = 0 → r.getParam "pageSize" = some "100") ∧
          (opts.PageSize ≠ 0 → r.getParam "pageSize" = some (Itoa opts.PageSize))) ∧
    (∀ (tr : Transport σ ε (MicroServiceList α)) (opts : ListMicroServicesOptions)
        (w : World σ),
      ∃ reqs, (MicroserviceClient.ListAllMicroService tr fuel opts w).world.sent =
          w.sent ++ reqs ∧
        (1 ≤ fuel → reqs ≠ []) ∧
        ∀ r ∈ reqs, (opts.PageSize = 0 → r.getParam "pageSize" = some "100") ∧
          (opts.PageSize ≠ 0 → r.getParam "pageSize" = some (Itoa opts.PageSize))) ∧
    (∀ (tr : Transport σ ε (List α)) (opts : ListConfigsOptions) (w : World σ),
      ∃ reqs, (configClient.ListAllConfig tr fuel opts w).world.sent = w.sent ++ reqs ∧
        (1 ≤ fuel → reqs ≠ []) ∧
        ∀ r ∈ reqs, (opts.PageSize = 0 → r.getParam "pageSize" = some "100") ∧
          (opts.PageSize ≠ 0 → r.getParam "pageSize" = some (Itoa opts.PageSize))) := by
  refine ⟨?_, ?_, ?_, ?_⟩
  · intro tr opts w
    obtain ⟨reqs, h1, hne, h2⟩ := services_sizes_pos tr opts w fuel
    refine ⟨reqs, h1, hne, fun r hr => ⟨fun h0 => ?_, fun h0 => ?_⟩⟩
    · rw [h2 r hr, if_pos h0]; rfl
    · rw [h2 r hr, if_neg h0]
  · intro tr opts w
    obtain ⟨reqs, h1, hne, h2⟩ := records_sizes_pos tr opts w fuel
    refine ⟨reqs, h1, hne, fun r hr => ⟨fun h0 => ?_, fun h0 => ?_⟩⟩
    · rw [h2 r hr, if_pos h0]; rfl
    · rw [h2 r hr, if_neg h0]
  · intro tr opts w
    obtain ⟨reqs, h1, hne, h2⟩ := micro_sizes_pos tr opts w fuel
    refine ⟨reqs, h1, hne, fun r hr => ⟨fun h0 => ?_, fun h0 => ?_⟩⟩
    · rw [h2 r hr, if_pos h0]; rfl
    · rw [h2 r hr, if_neg h0]
  · intro tr opts w
    obtain ⟨reqs, h1, hne, h2⟩ := configs_sizes_pos tr opts w fuel
    refine ⟨reqs, h1, hne, fun r hr => ⟨fun h0 => ?_, fun h0 => ?_⟩⟩
    · rw [h2 r hr, if_pos h0]; rfl
    · rw [h2 r hr, if_neg h0]

/-- C8, worked instances: against five items served in pages of two,
`Services.ListAll` with the page size left 0 issues three requests, all with
`pageSize=100`, and `ListAllConfig` asking for 2 issues three requests, all
with `pageSize=2`. -/
theorem C8_default_page_size_witness :
    (∃ reqs, (serviceClient.ListAll (servicesServer demoData 2 5) 3 (demoServices 0)
        world0).world.sent = world0.sent ++ reqs ∧ reqs ≠ [] ∧
      ∀ r ∈ reqs, r.getParam "pageSize" = some "100") ∧
    (∃ reqs, (configClient.ListAllConfig (configsServer demoData 2) 3 (demoConfigs 2)
        world0).world.sent = world0.sent ++ reqs ∧ reqs ≠ [] ∧
      ∀ r ∈ reqs, r.getParam "pageSize" = some "2") ∧
    (serviceClient.ListAll (servicesServer demoData 2 5) 3 (demoServices 0)
        world0).world.sent.map (fun r => r.getParam "pageSize") =
      [some "100", some "100", some "100"] ∧
    (configClient.ListAllConfig (configsServer demoData 2) 3 (demoConfigs 2)
        world0).world.sent.map (fun r => r.getParam "pageSize") =
      [some "2", some "2", some "2"] :=
  ⟨Exists.elim ((@C8_default_page_size Unit String Nat 3).1
      (servicesServer demoData 2 5) (demoServices 0) world0)
      (fun reqs h => ⟨reqs, h.1, h.2.1 (by decide), fun r hr => (h.2.2 r hr).1 rfl⟩),
    Exists.elim ((@C8_default_page_size Unit String Nat 3).2.2.2
      (configsServer demoData 2) (demoConfigs 2) world0)
      (fun reqs h => ⟨reqs, h.1, h.2.1 (by decide),
        fun r hr => (h.2.2 r hr).2 (by decide)⟩),
    rfl, rfl⟩

/-- The `pageNum` parameters of three consecutive page requests. -/
theorem three_pageNums {O : Type} (reqOf : O → Request) (at_ : Int → O) (pre : List Request)
    (sent : List Request)
    (hp : ∀ n : Int, (reqOf (at_ n)).getParam "pageNum" = some (Itoa n))
    (hs : sent = pre ++ (List.range 3).map (fun j => reqOf (at_ ((j + 1 : Nat) : Int)))) :
    (sent.drop pre.length).map (fun r => r.getParam "pageNum") =
      [some "1", some "2", some "3"] := by
  rw [hs, List.drop_left]
  have h3 : List.range 3 = [0, 1, 2] := by decide
  rw [h3]
  simp only [List.map_cons, List.map_nil, hp]
  rfl

/-- C9 (end-to-end scenario): list-all with `pageSize = 2` against a
faithfully paged dataset of 5 items (total reported as 5) returns all 5 items
in order after exactly 3 page requests, which carry `pageNum` 1, 2, 3 and are
answered with pages of 2, 2 and 1 items; for the three count-based operations
and for `ListAllConfig`, with any budget of at least 3 iterations. -/
theorem C9_end_to_end {σ ε α : Type} (data : List α) (h5 : data.length = 5) (extra : Nat) :
    (∀ (tr : Transport σ ε (ServiceList α)) (opts : ListServicesOptions) (w : World σ),
      opts.PageSize = 2 → FaithfulServices tr opts data 2 5 3 →
      ∃ w1, serviceClient.ListAll tr (3 + extra) opts w = Run.done ⟨data, none, w1⟩ ∧
        (w1.sent.drop w.sent.length).map (fun r => r.getParam "pageNum") =
          [some "1", some "2", some "3"]) ∧
    (∀ (tr : Transport σ ε (RecordList α)) (opts : ListRecordOptions) (w : World σ),
      opts.PageSize = 2 → FaithfulRecords tr opts data 2 5 3 →
      ∃ w1, recordClient.ListAllRecord tr (3 + extra) opts w = Run.done ⟨data, none, w1⟩ ∧
        (w1.sent.drop w.sent.length).map (fun r => r.getParam "pageNum") =
          [some "1", some "2", some "3"]) ∧
    (∀ (tr : Transport σ ε (MicroServiceList α)) (opts : ListMicroServicesOptions)
        (w : World σ),
      opts.PageSize = 2 → FaithfulMicroServices tr opts data 2 5 3 →
      ∃ w1, MicroserviceClient.ListAllMicroService tr (3 + extra) opts w =
          Run.done ⟨data, none, w1⟩ ∧
        (w1.sent.drop w.sent.length).map (fun r => r.getParam "pageNum") =
          [some "1", some "2", some "3"]) ∧
    (∀ (tr : Transport σ ε (List α)) (opts : ListConfigsOptions) (w : World σ),
      opts.PageSize = 2 → FaithfulConfigs tr opts data 2 3 →
      ∃ w1, configClient.ListAllConfig tr (3 + extra) opts w = Run.done ⟨data, none, w1⟩ ∧
        (w1.sent.drop w.sent.length).map (fun r => r.getParam "pageNum") =
          [some "1", some "2", some "3"]) ∧
    ((pageOf data 2 1).length = 2 ∧ (pageOf data 2 2).length = 2 ∧
      (pageOf data 2 3).length = 1) := by
  have hc : max 1 (ceilDiv data.length 2) = 3 := by rw [h5]; decide
  have hd : data.length / 2 + 1 = 3 := by rw [h5]
  refine ⟨?_, ?_, ?_, ?_, ?_⟩
  · intro tr opts w hps hf
    have hf1 : FaithfulServices tr opts data 2 data.length (max 1 (ceilDiv data.length 2)) := by
      rw [hc, h5]; exact hf
    obtain ⟨w1, h, hs⟩ := services_exact tr opts data 2 (by decide) hps hf1 w extra
    rw [hc] at h hs
    exact ⟨w1, h, three_pageNums servicesRequest (fun n => { opts with PageNum := n }) _ _
      (fun n => services_pageNum _) hs⟩
  · intro tr opts w hps hf
    have hf1 : FaithfulRecords tr opts data 2 data.length (max 1 (ceilDiv data.length 2)) := by
      rw [hc, h5]; exact hf
    obtain ⟨w1, h, hs⟩ := records_exact tr opts data 2 (by decide) hps hf1 w extra
    rw [hc] at h hs
    exact ⟨w1, h, three_pageNums recordsRequest (fun n => { opts with PageNum := n }) _ _
      (fun n => records_pageNum _) hs⟩
  · intro tr opts w hps hf
    have hf1 : FaithfulMicroServices tr opts data 2 data.length
        (max 1 (ceilDiv data.length 2)) := by
      rw [hc, h5]; exact hf
    obtain ⟨w1, h, hs⟩ := micro_exact tr opts data 2 (by decide) hps hf1 w extra
    rw [hc] at h hs
    exact ⟨w1, h, three_pageNums microServicesRequest (fun n => { opts with PageNum := n }) _ _
      (fun n => micro_pageNum _) hs⟩
  · intro tr opts w hps hf
    have hf1 : FaithfulConfigs tr opts data 2 (data.length / 2 + 1) := by
      rw [hd]; exact hf
    obtain ⟨w1, h, hs⟩ := configs_short tr opts data 2 (by decide) hps hf1 w extra
    rw [hd] at h hs
    exact ⟨w1, h, three_pageNums configsRequest (fun n => { opts with PageNum := n }) _ _
      (fun n => configs_pageNum _) hs⟩
  · simp [pageOf, h5]

/-- C9, worked instance: the dataset `[10, 20, 30, 40, 50]` in pages of two. -/
theorem C9_end_to_end_witness :
    (demoData.length = 5) ∧
    (∃ w1, serviceClient.ListAll (servicesServer demoData 2 5) 3 (demoServices 2) world0 =
        Run.done ⟨demoData, none, w1⟩ ∧
      (w1.sent.drop world0.sent.length).map (fun r => r.getParam "pageNum") =
        [some "1", some "2", some "3"]) ∧
    (∃ w1, recordClient.ListAllRecord (recordsServer demoData 2 5) 3 (demoRecords 2) world0 =
        Run.done ⟨demoData, none, w1⟩ ∧
      (w1.sent.drop world0.sent.length).map (fun r => r.getParam "pageNum") =
        [some "1", some "2", some "3"]) ∧
    (∃ w1, MicroserviceClient.ListAllMicroService (microServicesServer demoData 2 5) 3
        (demoMicroServices 2) world0 = Run.done ⟨demoData, none, w1⟩ ∧
      (w1.sent.drop world0.sent.length).map (fun r => r.getParam "pageNum") =
        [some "1", some "2", some "3"]) ∧
    (∃ w1, configClient.ListAllConfig (configsServer demoData 2) 3 (demoConfigs 2) world0 =
        Run.done ⟨demoData, none, w1⟩ ∧
      (w1.sent.drop world0.sent.length).map (fun r => r.getParam "pageNum") =
        [some "1", some "2", some "3"]) ∧
    ((pageOf demoData 2 1).length = 2 ∧ (pageOf demoData 2 2).length = 2 ∧
      (pageOf demoData 2 3).length = 1) :=
  ⟨rfl,
    (@C9_end_to_end Unit String Nat demoData rfl 0).1 _ _ world0 rfl
      (demo_services_faithful 5 3 (by decide)),
    (@C9_end_to_end Unit String Nat demoData rfl 0).2.1 _ _ world0 rfl
      (demo_records_faithful 5 3 (by decide)),
    (@C9_end_to_end Unit String Nat demoData rfl 0).2.2.1 _ _ world0 rfl
      (demo_micro_faithful 5 3 (by decide)),
    (@C9_end_to_end Unit String Nat demoData rfl 0).2.2.2.1 _ _ world0 rfl
      (demo_configs_faithful 3 (by decide)),
    (@C9_end_to_end Unit String Nat demoData rfl 0).2.2.2.2⟩

/-- C10, refuted as stated: a first page that reports total 0 but carries one
item makes `Services.ListAll` return that item, not the empty sequence. -/
theorem C10_counterexample :
    ∃ pg w1,
      serviceClient.List (constServer (⟨0, 1, 2, [7]⟩ : ServiceList Nat))
        { demoServices 2 with PageNum := 1 } world0 = (Except.ok pg, w1) ∧
      pg.Total = 0 ∧
      serviceClient.ListAll (constServer (⟨0, 1, 2, [7]⟩ : ServiceList Nat)) 1
        (demoServices 2) world0 = Run.done ⟨[7], none, w1⟩ ∧
      ([7] : List Nat) ≠ [] :=
  ⟨_, _, rfl, rfl, rfl, by decide⟩

/-- C10 (amended): for each count-based list-all operation, if the first page
response succeeds and reports total 0, list-all returns, with no error and
after that single request, exactly the items of that first page: the empty
sequence whenever the page carries no items. -/
theorem C10_zero_total {σ ε α : Type} (fuel : Nat) :
    (∀ (tr : Transport σ ε (ServiceList α)) (opts : ListServicesOptions) (w w1 : World σ)
        (pg : ServiceList α),
      serviceClient.List tr
        { opts with PageNum := 1,
                    PageSize := if opts.PageSize = 0 then 100 else opts.PageSize } w =
          (Except.ok pg, w1) →
      pg.Total = 0 →
      (serviceClient.ListAll tr (fuel + 1) opts w = Run.done ⟨pg.Items, none, w1⟩ ∧
        w1.sent.length = w.sent.length + 1) ∧
      (pg.Items = [] →
        serviceClient.ListAll tr (fuel + 1) opts w = Run.done ⟨[], none, w1⟩)) ∧
    (∀ (tr : Transport σ ε (RecordList α)) (opts : ListRecordOptions) (w w1 : World σ)
        (pg : RecordList α),
      recordClient.ListRecord tr
        { opts with PageNum := 1,
                    PageSize := if opts.PageSize = 0 then 100 else opts.PageSize } w =
          (Except.ok pg, w1) →
      pg.Total = 0 →
      (recordClient.ListAllRecord tr (fuel + 1) opts w = Run.done ⟨pg.Items, none, w1⟩ ∧
        w1.sent.length = w.sent.length + 1) ∧
      (pg.Items = [] →
        recordClient.ListAllRecord tr (fuel + 1) opts w = Run.done ⟨[], none, w1⟩)) ∧
    (∀ (tr : Transport σ ε (MicroServiceList α)) (opts : ListMicroServicesOptions)
        (w w1 : World σ) (pg : MicroServiceList α),
      MicroserviceClient.ListMicroService tr
        { opts with PageNum := 1,
                    PageSize := if opts.PageSize = 0 then 100 else opts.PageSize } w =
          (Except.ok pg, w1) →
      pg.Total = 0 →
      (MicroserviceClient.ListAllMicroService tr (fuel + 1) opts w =
          Run.done ⟨pg.Items, none, w1⟩ ∧
        w1.sent.length = w.sent.length + 1) ∧
      (pg.Items = [] →
        MicroserviceClient.ListAllMicroService tr (fuel + 1) opts w =
          Run.done ⟨[], none, w1⟩)) := by
  refine ⟨?_, ?_, ?_⟩
  · intro tr opts w w1 pg h h0
    have := services_zero_total tr opts w w1 pg fuel h h0
    exact ⟨this, fun hi => by rw [← hi]; exact this.1⟩
  · intro tr opts w w1 pg h h0
    have := records_zero_total tr opts w w1 pg fuel h h0
    exact ⟨this, fun hi => by rw [← hi]; exact this.1⟩
  · intro tr opts w w1 pg h h0
    have := micro_zero_total tr opts w w1 pg fuel h h0
    exact ⟨this, fun hi => by rw [← hi]; exact this.1⟩

/-- C10 (amended), worked instance: an empty first page with total 0, and a
first page with total 0 that carries one item. -/
theorem C10_zero_total_witness :
    (∃ w1, serviceClient.ListAll (servicesServer ([] : List Nat) 2 0) 5 (demoServices 2)
        world0 = Run.done ⟨[], none, w1⟩ ∧ w1.sent.length = world0.sent.length + 1) ∧
    (∃ w1, recordClient.ListAllRecord (constServer (⟨0, 1, 2, [7]⟩ : RecordList Nat)) 5
        (demoRecords 2) world0 = Run.done ⟨[7], none, w1⟩ ∧
      w1.sent.length = world0.sent.length + 1) ∧
    (∃ w1, MicroserviceClient.ListAllMicroService
        (microServicesServer ([] : List Nat) 2 0) 5 (demoMicroServices 2)
        world0 = Run.done ⟨[], none, w1⟩ ∧ w1.sent.length = world0.sent.length + 1) :=
  ⟨⟨_, ((@C10_zero_total Unit String Nat 4).1 (servicesServer [] 2 0)
      (demoServices 2) world0 _ _ rfl rfl).1⟩,
   ⟨_, ((@C10_zero_total Unit String Nat 4).2.1 (constServer ⟨0, 1, 2, [7]⟩)
      (demoRecords 2) world0 _ _ rfl rfl).1⟩,
   ⟨_, ((@C10_zero_total Unit String Nat 4).2.2 (microServicesServer [] 2 0)
      (demoMicroServices 2) world0 _ _ rfl rfl).1⟩⟩

/-! ## Client-side validation of config payloads -/

theorem create_validate_string (key : String) (v : Any) :
    configClient.CreateConfig.validate ⟨key, "string", v⟩ =
      if Any.isString v then none
      else some ("config type is 'string', but provided value is of type " ++
        Any.typeText v ++ ", not a string") := by
  by_cases h : Any.isString v = true <;>
    simp [configClient.CreateConfig.validate, ConfigItemTypeString, h]

theorem update_validate_string (id key : String) (v : Any) :
    configClient.UpdateConfig.validate ⟨id, key, "string", v⟩ =
      if Any.isString v then none
      else some ("config type is 'string', but provided value is of type " ++
        Any.typeText v ++ ", not a string") := by
  by_cases h : Any.isString v = true <;>
    simp [configClient.UpdateConfig.validate, ConfigItemTypeString, h]

theorem isString_iff (v : Any) :
    Any.isString v = true ↔ ∃ data, v = some ⟨GoType.string, data⟩ := by
  cases v with
  | none => simp [Any.isString]
  | some g =>
    rcases g with ⟨t, d⟩
    simp only [Any.isString, decide_eq_true_eq, Option.some.injEq, GoValue.mk.injEq]
    constructor
    · intro h; exact ⟨d, h, rfl⟩
    · rintro ⟨_, h, _⟩; exact h

/-- C11 (string validation): for every config payload whose declared type is
`"string"`, the check of `CreateConfig` and of `UpdateConfig` passes if and
only if the raw value is a non-nil value of dynamic type `string`; every
other value is rejected with the error `config type is 'string', but
provided value is of type T, not a string`, which says a string was expected. -/
theorem C11_string_validation (id key : String) (v : Any) :
    (configClient.CreateConfig.validate ⟨key, "string", v⟩ = none ↔
      ∃ data, v = some ⟨GoType.string, data⟩) ∧
    (configClient.UpdateConfig.validate ⟨id, key, "string", v⟩ = none ↔
      ∃ data, v = some ⟨GoType.string, data⟩) ∧
    ((¬ ∃ data, v = some ⟨GoType.string, data⟩) →
      configClient.CreateConfig.validate ⟨key, "string", v⟩ =
          some ("config type is 'string', but provided value is of type " ++
            Any.typeText v ++ ", not a string") ∧
        configClient.UpdateConfig.validate ⟨id, key, "string", v⟩ =
          some ("config type is 'string', but provided value is of type " ++
            Any.typeText v ++ ", not a string") ∧
        Contains ("config type is 'string', but provided value is of type " ++
            Any.typeText v ++ ", not a string") "not a string") := by
  rw [create_validate_string, update_validate_string, ← isString_iff]
  by_cases h : Any.isString v = true
  · simp [h]
  · simp only [h, if_false, false_iff, not_false_eq_true, true_and, forall_true_left,
      Bool.false_eq_true, reduceCtorEq]
    exact ⟨"config type is 'string', but provided value is of type " ++ Any.typeText v ++ ", ",
      "", by simp [String.append_assoc]⟩

theorem create_validate_number (key : String) (v : Any) :
    configClient.CreateConfig.validate ⟨key, "number", v⟩ =
      if Any.kind v ≠ Kind.Float64 ∧ Any.kind v ≠ Kind.Int ∧ Any.kind v ≠ Kind.Int32 ∧
          Any.kind v ≠ Kind.Int64 then
        some ("config type is 'number', but provided value is of type " ++
          Any.typeText v ++ ", not a number")
      else none := by
  simp [configClient.CreateConfig.validate, ConfigItemTypeString, ConfigItemTypeNumber]

theorem update_validate_number (id key : String) (v : Any) :
    configClient.UpdateConfig.validate ⟨id, key, "number", v⟩ =
      if Any.kind v ≠ Kind.Float64 ∧ Any.kind v ≠ Kind.Int ∧ Any.kind v ≠ Kind.Int32 ∧
          Any.kind v ≠ Kind.Int64 then
        some ("config type is 'number', but provided value is of type " ++
          Any.typeText v ++ ", not a number")
      else none := by
  simp [configClient.UpdateConfig.validate, ConfigItemTypeString, ConfigItemTypeNumber]

/-- C12, the code at the failing inputs: `int8(5)` and `int16(5)` are signed
integers, yet with declared type `"number"` the check of `CreateConfig` and
of `UpdateConfig` refuses them with the text `... is of type int8, not a
number`, and `CreateConfig` sends nothing. -/
theorem C12_counterexample :
    Any.kind (some ⟨GoType.int8, "5"⟩) = Kind.Int8 ∧
    Any.kind (some ⟨GoType.int16, "5"⟩) = Kind.Int16 ∧
    configClient.CreateConfig.validate ⟨"k", "number", some ⟨GoType.int8, "5"⟩⟩ =
      some "config type is 'number', but provided value is of type int8, not a number" ∧
    configClient.CreateConfig.validate ⟨"k", "number", some ⟨GoType.int16, "5"⟩⟩ =
      some "config type is 'number', but provided value is of type int16, not a number" ∧
    configClient.UpdateConfig.validate ⟨"7", "k", "number", some ⟨GoType.int8, "5"⟩⟩ =
      some "config type is 'number', but provided value is of type int8, not a number" ∧
    configClient.UpdateConfig.validate ⟨"7", "k", "number", some ⟨GoType.int16, "5"⟩⟩ =
      some "config type is 'number', but provided value is of type int16, not a number" ∧
    configClient.CreateConfig (constServer ()) ⟨"k", "number", some ⟨GoType.int8, "5"⟩⟩ world0 =
      (some (GoError.errorf
        "config type is 'number', but provided value is of type int8, not a number"),
        world0) :=
  ⟨rfl, rfl, rfl, rfl, rfl, rfl, rfl⟩

/-- C12, what the code does: for every config payload whose declared type is
`"number"`, the check of `CreateConfig` and of `UpdateConfig` passes if and
only if the raw value has kind float64, int, int32 or int64; every other
value (the signed integers int8 and int16 included, as well as float32, the
unsigned integers, strings, nil, ...) is refused with the error `config type
is 'number', but provided value is of type T, not a number`. -/
theorem C12_number_validation (id key : String) (v : Any) :
    (configClient.CreateConfig.validate ⟨key, "number", v⟩ = none ↔
      (Any.kind v = Kind.Float64 ∨ Any.kind v = Kind.Int ∨ Any.kind v = Kind.Int32 ∨
        Any.kind v = Kind.Int64)) ∧
    (configClient.UpdateConfig.validate ⟨id, key, "number", v⟩ = none ↔
      (Any.kind v = Kind.Float64 ∨ Any.kind v = Kind.Int ∨ Any.kind v = Kind.Int32 ∨
        Any.kind v = Kind.Int64)) ∧
    (¬ (Any.kind v = Kind.Float64 ∨ Any.kind v = Kind.Int ∨ Any.kind v = Kind.Int32 ∨
        Any.kind v = Kind.Int64) →
      configClient.CreateConfig.validate ⟨key, "number", v⟩ =
          some ("config type is 'number', but provided value is of type " ++
            Any.typeText v ++ ", not a number") ∧
        configClient.UpdateConfig.validate ⟨id, key, "number", v⟩ =
          some ("config type is 'number', but provided value is of type " ++
            Any.typeText v ++ ", not a number")) := by
  rw [create_validate_number, update_validate_number]
  by_cases h : Any.kind v ≠ Kind.Float64 ∧ Any.kind v ≠ Kind.Int ∧ Any.kind v ≠ Kind.Int32 ∧
      Any.kind v ≠ Kind.Int64
  · rw [if_pos h]
    have hn : ¬ (Any.kind v = Kind.Float64 ∨ Any.kind v = Kind.Int ∨ Any.kind v = Kind.Int32 ∨
        Any.kind v = Kind.Int64) := by
      rintro (hc | hc | hc | hc)
      · exact h.1 hc
      · exact h.2.1 hc
      · exact h.2.2.1 hc
      · exact h.2.2.2 hc
    exact ⟨⟨fun hc => by simp at hc, fun hc => absurd hc hn⟩,
      ⟨fun hc => by simp at hc, fun hc => absurd hc hn⟩, fun _ => ⟨rfl, rfl⟩⟩
  · rw [if_neg h]
    have hy : Any.kind v = Kind.Float64 ∨ Any.kind v = Kind.Int ∨ Any.kind v = Kind.Int32 ∨
        Any.kind v = Kind.Int64 := by
      by_contra hc
      simp only [not_or] at hc
      exact h hc
    exact ⟨⟨fun _ => hy, fun _ => rfl⟩, ⟨fun _ => hy, fun _ => rfl⟩, fun hc => absurd hy hc⟩

theorem create_validate_json (key : String) (v : Any) :
    configClient.CreateConfig.validate ⟨key, "json", v⟩ =
      if Any.kind v ≠ Kind.Map ∧ Any.kind v ≠ Kind.Slice then
        some ("config type is 'json', but provided value is a " ++ kindName (Any.kind v) ++
          ", not a map or slice")
      else none := by
  simp [configClient.CreateConfig.validate, ConfigItemTypeString, ConfigItemTypeNumber,
    ConfigItemTypeJSON]

theorem update_validate_json (id key : String) (v : Any) :
    configClient.UpdateConfig.validate ⟨id, key, "json", v⟩ =
      if Any.kind v ≠ Kind.Map ∧ Any.kind v ≠ Kind.Slice then
        some ("config type is 'json', but provided value is a " ++ kindName (Any.kind v) ++
          ", not a map or slice")
      else none := by
  simp [configClient.UpdateConfig.validate, ConfigItemTypeString, ConfigItemTypeNumber,
    ConfigItemTypeJSON]

/-- C13 (JSON validation): for every config payload whose declared type is
`"json"`, the check of `CreateConfig` and of `UpdateConfig` passes if and only
if the raw value has kind map or slice; every value of a scalar kind (string,
bool, the integer and floating kinds) is rejected. -/
theorem C13_json_validation (id key : String) (v : Any) :
    (configClient.CreateConfig.validate ⟨key, "json", v⟩ = none ↔
      (Any.kind v = Kind.Map ∨ Any.kind v = Kind.Slice)) ∧
    (configClient.UpdateConfig.validate ⟨id, key, "json", v⟩ = none ↔
      (Any.kind v = Kind.Map ∨ Any.kind v = Kind.Slice)) ∧
    (Any.kind v ∈ [Kind.String, Kind.Bool, Kind.Int, Kind.Int8, Kind.Int16, Kind.Int32,
        Kind.Int64, Kind.Uint, Kind.Uint8, Kind.Uint16, Kind.Uint32, Kind.Uint64,
        Kind.Float32, Kind.Float64] →
      configClient.CreateConfig.validate ⟨key, "json", v⟩ =
          some ("config type is 'json', but provided value is a " ++ kindName (Any.kind v) ++
            ", not a map or slice") ∧
        configClient.UpdateConfig.validate ⟨id, key, "json", v⟩ =
          some ("config type is 'json', but provided value is a " ++ kindName (Any.kind v) ++
            ", not a map or slice")) := by
  rw [create_validate_json, update_validate_json]
  by_cases h : Any.kind v ≠ Kind.Map ∧ Any.kind v ≠ Kind.Slice
  · rw [if_pos h]
    refine ⟨⟨fun hc => by simp at hc, fun hc => ?_⟩, ⟨fun hc => by simp at hc, fun hc => ?_⟩,
      fun _ => ⟨rfl, rfl⟩⟩
    · rcases hc with hc | hc
      · exact absurd hc h.1
      · exact absurd hc h.2
    · rcases hc with hc | hc
      · exact absurd hc h.1
      · exact absurd hc h.2
  · have h2 : Any.kind v = Kind.Map ∨ Any.kind v = Kind.Slice := by
      by_contra hc
      simp only [not_or] at hc
      exact h hc
    simp only [h, if_false, true_iff]
    refine ⟨h2, h2, ?_⟩
    intro hm
    rcases h2 with h2 | h2 <;> rw [h2] at hm <;> simp at hm

theorem create_validate_other (key t : String) (v : Any)
    (h1 : t ≠ "string") (h2 : t ≠ "number") (h3 : t ≠ "json") :
    configClient.CreateConfig.validate ⟨key, t, v⟩ =
      some ("unsupported config type: '" ++ t ++ "'. Must be one of: string, number, json") := by
  simp only [configClient.CreateConfig.validate, ConfigItemTypeString, ConfigItemTypeNumber,
    ConfigItemTypeJSON, h1, h2, h3, if_false, Option.some.injEq]
  simp only [String.append_assoc]
  rfl

theorem update_validate_other (id key t : String) (v : Any)
    (h1 : t ≠ "string") (h2 : t ≠ "number") (h3 : t ≠ "json") :
    configClient.UpdateConfig.validate ⟨id, key, t, v⟩ =
      some ("unsupported config type: '" ++ t ++ "'. Must be one of: string, number, json") := by
  simp only [configClient.UpdateConfig.validate, ConfigItemTypeString, ConfigItemTypeNumber,
    ConfigItemTypeJSON, h1, h2, h3, if_false, Option.some.injEq]
  simp only [String.append_assoc]
  rfl

/-- C14 (unsupported declared type): for every declared type `t` other than
`"string"`, `"number"` and `"json"` and every raw value, `CreateConfig` and
`UpdateConfig` fail, without sending anything, with the error
`unsupported config type: 't'. Must be one of: string, number, json`, which
names the offending type and the allowed set. -/
theorem C14_unsupported_type {σ ε ρ : Type} (id key t : String) (v : Any)
    (h1 : t ≠ "string") (h2 : t ≠ "number") (h3 : t ≠ "json")
    (tr : Transport σ ε ρ) (w : World σ) :
    configClient.CreateConfig tr ⟨key, t, v⟩ w =
      (some (GoError.errorf
        ("unsupported config type: '" ++ t ++ "'. Must be one of: string, number, json")), w) ∧
    configClient.UpdateConfig tr ⟨id, key, t, v⟩ w =
      (some (GoError.errorf
        ("unsupported config type: '" ++ t ++ "'. Must be one of: string, number, json")), w) ∧
    Contains ("unsupported config type: '" ++ t ++ "'. Must be one of: string, number, json")
      ("'" ++ t ++ "'") ∧
    Contains ("unsupported config type: '" ++ t ++ "'. Must be one of: string, number, json")
      "string, number, json" := by
  refine ⟨?_, ?_, ?_, ?_⟩
  · simp only [configClient.CreateConfig, create_validate_other key t v h1 h2 h3]
  · simp only [configClient.UpdateConfig, update_validate_other id key t v h1 h2 h3]
  · refine ⟨"unsupported config type: ", ". Must be one of: string, number, json", ?_⟩
    simp only [String.append_assoc]
    rfl
  · refine ⟨"unsupported config type: '" ++ t ++ "'. Must be one of: ", "", ?_⟩
    simp only [String.append_assoc, String.append_empty]
    rfl

/-- C14, worked instances: the empty declared type and the spelling
`"String"`. -/
theorem C14_unsupported_type_witness :
    (("" : String) ≠ "string" ∧ ("" : String) ≠ "number" ∧ ("" : String) ≠ "json") ∧
    ("String" ≠ "string" ∧ "String" ≠ "number" ∧ "String" ≠ "json") ∧
    configClient.CreateConfig (constServer ()) ⟨"k", "", some ⟨GoType.string, "x"⟩⟩ world0 =
      (some (GoError.errorf
        "unsupported config type: ''. Must be one of: string, number, json"), world0) ∧
    configClient.UpdateConfig (constServer ()) ⟨"7", "k", "String", some ⟨GoType.string, "x"⟩⟩
        world0 =
      (some (GoError.errorf
        "unsupported config type: 'String'. Must be one of: string, number, json"), world0) :=
  ⟨by decide, by decide,
    (C14_unsupported_type "7" "k" "" (some ⟨GoType.string, "x"⟩) (by decide) (by decide)
      (by decide) (constServer ()) world0).1,
    (C14_unsupported_type "7" "k" "String" (some ⟨GoType.string, "x"⟩) (by decide) (by decide)
      (by decide) (constServer ()) world0).2.1⟩

/-- C15 (create and update validate identically): for every declared type
and every raw value, the check of `CreateConfig` on `{Type, Value}` and the
check of `UpdateConfig` on the same `{Type, Value}` agree: both pass, or both
fail with the same error message, whatever the other fields are. -/
theorem C15_create_update_agree (id key key1 : String) (t : ConfigItemType) (v : Any) :
    configClient.CreateConfig.validate ⟨key, t, v⟩ =
      configClient.UpdateConfig.validate ⟨id, key1, t, v⟩ := by
  unfold configClient.CreateConfig.validate configClient.UpdateConfig.validate
  rfl

/-- C16 (invalid payloads are never sent): for every config payload, if the
client-side check fails, `CreateConfig` (resp. `UpdateConfig`) returns the
check's error and leaves the world untouched (no request); if the check
passes, it issues exactly one request, POST (resp. PUT) on resource
`configmap` with the payload as body, and returns that request's outcome. -/
theorem C16_invalid_never_sent {σ ε ρ : Type} (tr : Transport σ ε ρ) (w : World σ)
    (c : CreateConfigRequest) (u : ConfigItem) :
    (∀ msg, configClient.CreateConfig.validate c = some msg →
      configClient.CreateConfig tr c w = (some (GoError.errorf msg), w)) ∧
    (configClient.CreateConfig.validate c = none →
      configClient.CreateConfig tr c w =
        (errOf (tr { verb := Verb.POST, resource := "configmap",
                     body := some (Body.createConfig c) } w.server).1,
          ⟨(tr { verb := Verb.POST, resource := "configmap",
                 body := some (Body.createConfig c) } w.server).2,
            w.sent ++ [{ verb := Verb.POST, resource := "configmap",
                         body := some (Body.createConfig c) }]⟩)) ∧
    (∀ msg, configClient.UpdateConfig.validate u = some msg →
      configClient.UpdateConfig tr u w = (some (GoError.errorf msg), w)) ∧
    (configClient.UpdateConfig.validate u = none →
      configClient.UpdateConfig tr u w =
        (errOf (tr { verb := Verb.PUT, resource := "configmap",
                     body := some (Body.configItem u) } w.server).1,
          ⟨(tr { verb := Verb.PUT, resource := "configmap",
                 body := some (Body.configItem u) } w.server).2,
            w.sent ++ [{ verb := Verb.PUT, resource := "configmap",
                         body := some (Body.configItem u) }]⟩)) := by
  refine ⟨?_, ?_, ?_, ?_⟩
  · intro msg h
    simp only [configClient.CreateConfig, h]
  · intro h
    simp only [configClient.CreateConfig, h, Request.Do, Request.Body, Request.Resource,
      Request.Post]
    split <;> simp_all [errOf]
  · intro msg h
    simp only [configClient.UpdateConfig, h]
  · intro h
    simp only [configClient.UpdateConfig, h, Request.Do, Request.Body, Request.Resource,
      Request.Put]
    split <;> simp_all [errOf]

/-- C16, worked instance: a `"number"` payload holding a string is refused
locally, a `"number"` payload holding a float64 goes out as one POST. -/
theorem C16_invalid_never_sent_witness :
    configClient.CreateConfig (constServer ()) ⟨"k", "number", some ⟨GoType.string, "123"⟩⟩
        world0 =
      (some (GoError.errorf
        "config type is 'number', but provided value is of type string, not a number"),
        world0) ∧
    configClient.CreateConfig (constServer ()) ⟨"k", "number", some ⟨GoType.float64, "123.45"⟩⟩
        world0 =
      (none, ⟨(), [{ verb := Verb.POST, resource := "configmap",
                     body := some (Body.createConfig
                       ⟨"k", "number", some ⟨GoType.float64, "123.45"⟩⟩) }]⟩) ∧
    configClient.UpdateConfig (constServer ()) ⟨"7", "k", "json", some ⟨GoType.bool, "true"⟩⟩
        world0 =
      (some (GoError.errorf
        "config type is 'json', but provided value is a bool, not a map or slice"),
        world0) ∧
    configClient.UpdateConfig (constServer ())
        ⟨"7", "k", "string", some ⟨GoType.string, "updated hello world"⟩⟩ world0 =
      (none, ⟨(), [{ verb := Verb.PUT, resource := "configmap",
                     body := some (Body.configItem
                       ⟨"7", "k", "string", some ⟨GoType.string, "updated hello world"⟩⟩) }]⟩) :=
  ⟨(C16_invalid_never_sent (constServer ()) world0
      ⟨"k", "number", some ⟨GoType.string, "123"⟩⟩
      ⟨"7", "k", "json", some ⟨GoType.bool, "true"⟩⟩).1 _ rfl,
   (C16_invalid_never_sent (constServer ()) world0
      ⟨"k", "number", some ⟨GoType.float64, "123.45"⟩⟩
      ⟨"7", "k", "json", some ⟨GoType.bool, "true"⟩⟩).2.1 rfl,
   (C16_invalid_never_sent (constServer ()) world0
      ⟨"k", "number", some ⟨GoType.string, "123"⟩⟩
      ⟨"7", "k", "json", some ⟨GoType.bool, "true"⟩⟩).2.2.1 _ rfl,
   (C16_invalid_never_sent (constServer ()) world0
      ⟨"k", "number", some ⟨GoType.string, "123"⟩⟩
      ⟨"7", "k", "string", some ⟨GoType.string, "updated hello world"⟩⟩).2.2.2 rfl⟩

/-- C17 (validation witnesses): with declared type `"number"` the float64
value 123.45 passes; with declared type `"number"` the string value `"123"`
fails with the error `config type is 'number', but provided value is of type
string, not a number`, which names the type of the offending value; `"string"`
with `"hello world"` and `"json"` with a string-keyed map pass; the same
holds for `UpdateConfig`. -/
theorem C17_validation_witnesses :
    configClient.CreateConfig.validate ⟨"k", "number", some ⟨GoType.float64, "123.45"⟩⟩ = none ∧
    configClient.CreateConfig.validate ⟨"k", "number", some ⟨GoType.string, "123"⟩⟩ =
      some "config type is 'number', but provided value is of type string, not a number" ∧
    Contains "config type is 'number', but provided value is of type string, not a number"
      "of type string" ∧
    configClient.CreateConfig.validate ⟨"k", "string", some ⟨GoType.string, "hello world"⟩⟩ =
      none ∧
    configClient.CreateConfig.validate
      ⟨"k", "json", some ⟨GoType.stringMap, "map[enabled:true user:admin]"⟩⟩ = none ∧
    configClient.UpdateConfig.validate ⟨"7", "k", "number", some ⟨GoType.float64, "999"⟩⟩ =
      none ∧
    configClient.UpdateConfig.validate ⟨"7", "k", "number", some ⟨GoType.string, "123"⟩⟩ =
      some "config type is 'number', but provided value is of type string, not a number" ∧
    configClient.UpdateConfig.validate
      ⟨"7", "k", "string", some ⟨GoType.string, "updated hello world"⟩⟩ = none ∧
    configClient.UpdateConfig.validate
      ⟨"7", "k", "json", some ⟨GoType.stringMap, "map[level:10 status:disabled]"⟩⟩ = none :=
  ⟨rfl, rfl,
    ⟨"config type is 'number', but provided value is ", ", not a number", rfl⟩,
    rfl, rfl, rfl, rfl, rfl, rfl⟩

/-! ## Checks before sending: identity, conditional field, action set -/

theorem append_singleton_ne {α : Type} (l : List α) (a : α) : l ++ [a] ≠ l := by
  intro h
  have := congrArg List.length h
  simp at this

/-- C18 (identity-consistency check): for every `serviceID` and every update
request body, `Services.Update` issues a request, exactly one PUT on
`service` with the body, if and only if `serviceID` equals the body's `ID`;
when they differ it returns a nil response and the error `serviceID in path
(P) does not match serviceID in body (B)`, which contains both identifiers,
and leaves the world untouched. -/
theorem C18_identity_consistency {σ ε : Type} (tr : Transport σ ε ServiceCreateResponse)
    (serviceID : String) (service : UpdateServiceRequest) (w : World σ) :
    ((serviceClient.Update tr serviceID service w).world.sent ≠ w.sent ↔
      serviceID = service.ID) ∧
    (serviceID = service.ID →
      (serviceClient.Update tr serviceID service w).world.sent =
        w.sent ++ [{ verb := Verb.PUT, resource := "service",
                     body := some (Body.updateService service) }]) ∧
    (serviceID ≠ service.ID →
      serviceClient.Update tr serviceID service w =
        ⟨none, some (GoError.errorf ("serviceID in path (" ++ serviceID ++
          ") does not match serviceID in body (" ++ service.ID ++ ")")), w⟩ ∧
      Contains ("serviceID in path (" ++ serviceID ++
          ") does not match serviceID in body (" ++ service.ID ++ ")")
        ("(" ++ serviceID ++ ")") ∧
      Contains ("serviceID in path (" ++ serviceID ++
          ") does not match serviceID in body (" ++ service.ID ++ ")")
        ("(" ++ service.ID ++ ")")) := by
  have hsent : serviceID = service.ID →
      (serviceClient.Update tr serviceID service w).world.sent =
        w.sent ++ [{ verb := Verb.PUT, resource := "service",
                     body := some (Body.updateService service) }] := by
    intro h
    simp only [serviceClient.Update, h, ne_eq, not_true_eq_false, if_false, Request.Do,
      Request.Body, Request.Resource, Request.Put]
    split <;> (rename_i heq; have h2 := (Prod.mk.inj heq).2; rw [← h2])
  have hno : serviceID ≠ service.ID →
      serviceClient.Update tr serviceID service w =
        ⟨none, some (GoError.errorf ("serviceID in path (" ++ serviceID ++
          ") does not match serviceID in body (" ++ service.ID ++ ")")), w⟩ := by
    intro h
    simp only [serviceClient.Update, h, ne_eq, not_false_eq_true, if_true]
  refine ⟨⟨?_, ?_⟩, hsent, ?_⟩
  · intro h
    by_contra hne
    rw [hno hne] at h
    exact h rfl
  · intro h
    rw [hsent h]
    exact append_singleton_ne _ _
  · intro h
    refine ⟨hno h, ?_, ?_⟩
    · refine ⟨"serviceID in path ", " does not match serviceID in body (" ++ service.ID ++ ")", ?_⟩
      simp only [String.append_assoc]
      rfl
    · refine ⟨"serviceID in path (" ++ serviceID ++ ") does not match serviceID in body ", "", ?_⟩
      simp only [String.append_assoc, String.append_empty]
      rfl

/-- C18, worked instance: path `svc-1` with body `svc-2` fails locally; path
`svc-1` with body `svc-1` is sent. -/
theorem C18_identity_consistency_witness :
    serviceClient.Update (constServer (⟨"svc-1"⟩ : ServiceCreateResponse)) "svc-1"
        ⟨"svc-2", "policy=static"⟩ world0 =
      ⟨none, some (GoError.errorf
        "serviceID in path (svc-1) does not match serviceID in body (svc-2)"), world0⟩ ∧
    (serviceClient.Update (constServer (⟨"svc-1"⟩ : ServiceCreateResponse)) "svc-1"
        ⟨"svc-1", "policy=static"⟩ world0).world.sent =
      world0.sent ++ [{ verb := Verb.PUT, resource := "service",
                        body := some (Body.updateService ⟨"svc-1", "policy=static"⟩) }] :=
  ⟨((C18_identity_consistency (constServer (⟨"svc-1"⟩ : ServiceCreateResponse)) "svc-1"
      ⟨"svc-2", "policy=static"⟩ world0).2.2 (by decide)).1,
   (C18_identity_consistency (constServer (⟨"svc-1"⟩ : ServiceCreateResponse)) "svc-1"
      ⟨"svc-1", "policy=static"⟩ world0).2.1 rfl⟩

/-- C19 (conditional-field invariant): for every `UpdateMicroService`
request, the request is sent, as exactly one PUT on `micro-service` with the
request as body whose outcome is returned, if and only if
(`LoadBalance = "masterSlave"`) is equivalent to (the load-balance-detail
list is non-empty); otherwise it fails locally and nothing is sent. -/
theorem C19_conditional_field {σ ε ρ : Type} (tr : Transport σ ε ρ)
    (m : UpdateMicroServiceRequest) (w : World σ) :
    ((m.LoadBalance = "masterSlave" ↔ m.LoadBalanceDetail ≠ []) →
      MicroserviceClient.UpdateMicroService tr m w =
        (errOf (tr { verb := Verb.PUT, resource := "micro-service",
                     body := some (Body.updateMicroService m) } w.server).1,
          ⟨(tr { verb := Verb.PUT, resource := "micro-service",
                 body := some (Body.updateMicroService m) } w.server).2,
            w.sent ++ [{ verb := Verb.PUT, resource := "micro-service",
                         body := some (Body.updateMicroService m) }]⟩)) ∧
    (¬ (m.LoadBalance = "masterSlave" ↔ m.LoadBalanceDetail ≠ []) →
      ∃ msg, MicroserviceClient.UpdateMicroService tr m w =
        (some (GoError.errorf msg), w)) ∧
    ((MicroserviceClient.UpdateMicroService tr m w).2.sent ≠ w.sent ↔
      (m.LoadBalance = "masterSlave" ↔ m.LoadBalanceDetail ≠ [])) := by
  have hlen : m.LoadBalanceDetail.length > 0 ↔ m.LoadBalanceDetail ≠ [] := by
    rw [gt_iff_lt, List.length_pos]
  have hlen0 : m.LoadBalanceDetail.length = 0 ↔ m.LoadBalanceDetail = [] :=
    List.length_eq_zero
  have hyes : (m.LoadBalance = "masterSlave" ↔ m.LoadBalanceDetail ≠ []) →
      MicroserviceClient.UpdateMicroService tr m w =
        (errOf (tr { verb := Verb.PUT, resource := "micro-service",
                     body := some (Body.updateMicroService m) } w.server).1,
          ⟨(tr { verb := Verb.PUT, resource := "micro-service",
                 body := some (Body.updateMicroService m) } w.server).2,
            w.sent ++ [{ verb := Verb.PUT, resource := "micro-service",
                         body := some (Body.updateMicroService m) }]⟩) := by
    intro h
    have c1 : ¬ (m.LoadBalance ≠ "masterSlave" ∧ m.LoadBalanceDetail.length > 0) := by
      rw [hlen]; rintro ⟨h1, h2⟩; exact h1 (h.2 h2)
    have c2 : ¬ (m.LoadBalance = "masterSlave" ∧ m.LoadBalanceDetail.length = 0) := by
      rw [hlen0]; rintro ⟨h1, h2⟩; exact h.1 h1 h2
    simp only [MicroserviceClient.UpdateMicroService, c1, c2, if_false, Request.Do,
      Request.Body, Request.Resource, Request.Put]
    split <;> simp_all [errOf]
  have hno : ¬ (m.LoadBalance = "masterSlave" ↔ m.LoadBalanceDetail ≠ []) →
      ∃ msg, MicroserviceClient.UpdateMicroService tr m w =
        (some (GoError.errorf msg), w) := by
    intro h
    by_cases c1 : m.LoadBalance ≠ "masterSlave" ∧ m.LoadBalanceDetail.length > 0
    · exact ⟨_, by unfold MicroserviceClient.UpdateMicroService; rw [if_pos c1]⟩
    · by_cases c2 : m.LoadBalance = "masterSlave" ∧ m.LoadBalanceDetail.length = 0
      · exact ⟨_, by
          unfold MicroserviceClient.UpdateMicroService; rw [if_neg c1, if_pos c2]⟩
      · exfalso
        apply h
        rw [hlen] at c1
        rw [hlen0] at c2
        constructor
        · intro h1 h2; exact c2 ⟨h1, h2⟩
        · intro h2
          by_contra h1
          exact c1 ⟨h1, h2⟩
  refine ⟨hyes, hno, ⟨?_, ?_⟩⟩
  · intro h
    by_contra hc
    obtain ⟨msg, hm⟩ := hno hc
    rw [hm] at h
    exact h rfl
  · intro h
    rw [hyes h]
    exact append_singleton_ne _ _

/-- C19, worked instances: `roundRobin` with a detail entry fails locally,
`masterSlave` with the empty (or nil) detail list fails locally, `masterSlave`
with a detail entry is sent as one PUT on `micro-service`. -/
theorem C19_conditional_field_witness :
    MicroserviceClient.UpdateMicroService (constServer ()) ⟨"ms-1", "roundRobin", [⟨"n1", "t1"⟩]⟩
        world0 =
      (some (GoError.errorf ("validation failed: loadBalanceDetail can only be set when " ++
        "loadBalance strategy is 'masterSlave', but the strategy was 'roundRobin'")), world0) ∧
    (∃ msg, MicroserviceClient.UpdateMicroService (constServer ()) ⟨"ms-1", "masterSlave", []⟩
        world0 = (some (GoError.errorf msg), world0)) ∧
    MicroserviceClient.UpdateMicroService (constServer ())
        ⟨"ms-1", "masterSlave", [⟨"n1", "t1"⟩]⟩ world0 =
      (none, ⟨(), [{ verb := Verb.PUT, resource := "micro-service",
                     body := some (Body.updateMicroService
                       ⟨"ms-1", "masterSlave", [⟨"n1", "t1"⟩]⟩) }]⟩) :=
  ⟨rfl,
   (C19_conditional_field (constServer ()) ⟨"ms-1", "masterSlave", []⟩ world0).2.1
     (by decide),
   (C19_conditional_field (constServer ()) ⟨"ms-1", "masterSlave", [⟨"n1", "t1"⟩]⟩
     world0).1 (by decide)⟩

theorem validActions_lookup (action : String) :
    ((List.lookup action [("start", true), ("stop", true), ("restart", true),
        ("pause", true), ("unpause", true), ("destroy", true)]).getD false = true) ↔
      action ∈ ["start", "stop", "restart", "pause", "unpause", "destroy"] := by
  simp only [List.lookup, List.mem_cons, List.mem_singleton, List.not_mem_nil, or_false]
  by_cases h1 : action = "start"
  · simp [h1]
  by_cases h2 : action = "stop"
  · simp [h2]
  by_cases h3 : action = "restart"
  · simp [h3]
  by_cases h4 : action = "pause"
  · simp [h4]
  by_cases h5 : action = "unpause"
  · simp [h5]
  by_cases h6 : action = "destroy"
  · simp [h6]
  have e1 : (action == "start") = false := by simpa using h1
  have e2 : (action == "stop") = false := by simpa using h2
  have e3 : (action == "restart") = false := by simpa using h3
  have e4 : (action == "pause") = false := by simpa using h4
  have e5 : (action == "unpause") = false := by simpa using h5
  have e6 : (action == "destroy") = false := by simpa using h6
  simp [e1, e2, e3, e4, e5, e6, h1, h2, h3, h4, h5, h6]

/-- C20 (action enum guard): for every action string, `ControlByID` and
`ControlByLabel` issue a request, exactly one POST on `service/<action>/ids`
resp. `service/<action>/path-label` with the body, if and only if the action
is one of start, stop, restart, pause, unpause, destroy; for every other
action they return a nil response and the error `invalid action: 'A', must be
one of [start, stop, restart, pause, unpause, destroy]`, which contains the
offending action and the allowed list, and leave the world untouched. -/
theorem C20_action_enum_guard {σ ε : Type} (tr : Transport σ ε ControlServicesResponse)
    (serviceIDs : List String) (path action : String) (w : World σ) :
    (action ∈ ["start", "stop", "restart", "pause", "unpause", "destroy"] →
      (serviceClient.ControlByID tr serviceIDs action w).world.sent =
        w.sent ++ [{ verb := Verb.POST, resource := "service",
                     subresources := [action, "ids"],
                     body := some (Body.controlIDs ⟨serviceIDs⟩) }] ∧
      (serviceClient.ControlByLabel tr path action w).world.sent =
        w.sent ++ [{ verb := Verb.POST, resource := "service",
                     subresources := [action, "path-label"],
                     body := some (Body.path path) }]) ∧
    (action ∉ ["start", "stop", "restart", "pause", "unpause", "destroy"] →
      serviceClient.ControlByID tr serviceIDs action w =
        ⟨none, some (GoError.errorf ("invalid action: '" ++ action ++
          "', must be one of [start, stop, restart, pause, unpause, destroy]")), w⟩ ∧
      serviceClient.ControlByLabel tr path action w =
        ⟨none, some (GoError.errorf ("invalid action: '" ++ action ++
          "', must be one of [start, stop, restart, pause, unpause, destroy]")), w⟩ ∧
      Contains ("invalid action: '" ++ action ++
          "', must be one of [start, stop, restart, pause, unpause, destroy]")
        ("'" ++ action ++ "'") ∧
      Contains ("invalid action: '" ++ action ++
          "', must be one of [start, stop, restart, pause, unpause, destroy]")
        "[start, stop, restart, pause, unpause, destroy]") ∧
    (((serviceClient.ControlByID tr serviceIDs action w).world.sent ≠ w.sent ↔
        action ∈ ["start", "stop", "restart", "pause", "unpause", "destroy"]) ∧
      ((serviceClient.ControlByLabel tr path action w).world.sent ≠ w.sent ↔
        action ∈ ["start", "stop", "restart", "pause", "unpause", "destroy"])) := by
  have hyes : action ∈ ["start", "stop", "restart", "pause", "unpause", "destroy"] →
      (serviceClient.ControlByID tr serviceIDs action w).world.sent =
        w.sent ++ [{ verb := Verb.POST, resource := "service",
                     subresources := [action, "ids"],
                     body := some (Body.controlIDs ⟨serviceIDs⟩) }] ∧
      (serviceClient.ControlByLabel tr path action w).world.sent =
        w.sent ++ [{ verb := Verb.POST, resource := "service",
                     subresources := [action, "path-label"],
                     body := some (Body.path path) }] := by
    intro h
    have hv := (validActions_lookup action).2 h
    constructor
    · simp only [serviceClient.ControlByID, hv, not_true_eq_false, if_false, Request.Do,
        Request.Body, Request.Resource, Request.Subresource, Request.Post, List.nil_append,
        List.cons_append]
      split <;> (rename_i heq; have h2 := (Prod.mk.inj heq).2; rw [← h2])
    · simp only [serviceClient.ControlByLabel, hv, not_true_eq_false, if_false, Request.Do,
        Request.Body, Request.Resource, Request.Subresource, Request.Post, List.nil_append,
        List.cons_append]
      split <;> (rename_i heq; have h2 := (Prod.mk.inj heq).2; rw [← h2])
  have hno : action ∉ ["start", "stop", "restart", "pause", "unpause", "destroy"] →
      serviceClient.ControlByID tr serviceIDs action w =
        ⟨none, some (GoError.errorf ("invalid action: '" ++ action ++
          "', must be one of [start, stop, restart, pause, unpause, destroy]")), w⟩ ∧
      serviceClient.ControlByLabel tr path action w =
        ⟨none, some (GoError.errorf ("invalid action: '" ++ action ++
          "', must be one of [start, stop, restart, pause, unpause, destroy]")), w⟩ := by
    intro h
    have hv : ¬ ((List.lookup action [("start", true), ("stop", true), ("restart", true),
        ("pause", true), ("unpause", true), ("destroy", true)]).getD false = true) :=
      fun hc => h ((validActions_lookup action).1 hc)
    constructor
    · unfold serviceClient.ControlByID
      exact if_pos hv
    · unfold serviceClient.ControlByLabel
      exact if_pos hv
  refine ⟨hyes, ?_, ⟨?_, ?_⟩, ⟨?_, ?_⟩⟩
  · intro h
    refine ⟨(hno h).1, (hno h).2, ?_, ?_⟩
    · refine ⟨"invalid action: ",
        ", must be one of [start, stop, restart, pause, unpause, destroy]", ?_⟩
      simp only [String.append_assoc]
      rfl
    · refine ⟨"invalid action: '" ++ action ++ "', must be one of ", "", ?_⟩
      simp only [String.append_assoc, String.append_empty]
      rfl
  · intro h
    by_contra hc
    rw [(hno hc).1] at h
    exact h rfl
  · intro h
    rw [(hyes h).1]
    exact append_singleton_ne _ _
  · intro h
    by_contra hc
    rw [(hno hc).2] at h
    exact h rfl
  · intro h
    rw [(hyes h).2]
    exact append_singleton_ne _ _

/-- C20, worked instances: `explode` is refused locally by both operations,
`restart` is sent. -/
theorem C20_action_enum_guard_witness :
    serviceClient.ControlByID (constServer (⟨["a"]⟩ : ControlServicesResponse)) ["a", "b"]
        "explode" world0 =
      ⟨none, some (GoError.errorf ("invalid action: 'explode', must be one of " ++
        "[start, stop, restart, pause, unpause, destroy]")), world0⟩ ∧
    serviceClient.ControlByLabel (constServer (⟨["a"]⟩ : ControlServicesResponse)) "/lab"
        "explode" world0 =
      ⟨none, some (GoError.errorf ("invalid action: 'explode', must be one of " ++
        "[start, stop, restart, pause, unpause, destroy]")), world0⟩ ∧
    (serviceClient.ControlByID (constServer (⟨["a"]⟩ : ControlServicesResponse)) ["a", "b"]
        "restart" world0).world.sent =
      [{ verb := Verb.POST, resource := "service", subresources := ["restart", "ids"],
         body := some (Body.controlIDs ⟨["a", "b"]⟩) }] ∧
    (serviceClient.ControlByLabel (constServer (⟨["a"]⟩ : ControlServicesResponse)) "/lab"
        "restart" world0).world.sent =
      [{ verb := Verb.POST, resource := "service", subresources := ["restart", "path-label"],
         body := some (Body.path "/lab") }] :=
  ⟨((C20_action_enum_guard (constServer (⟨["a"]⟩ : ControlServicesResponse)) ["a", "b"]
      "/lab" "explode" world0).2.1 (by decide)).1,
   ((C20_action_enum_guard (constServer (⟨["a"]⟩ : ControlServicesResponse)) ["a", "b"]
      "/lab" "explode" world0).2.1 (by decide)).2.1,
   ((C20_action_enum_guard (constServer (⟨["a"]⟩ : ControlServicesResponse)) ["a", "b"]
      "/lab" "restart" world0).1 (by decide)).1,
   ((C20_action_enum_guard (constServer (⟨["a"]⟩ : ControlServicesResponse)) ["a", "b"]
      "/lab" "restart" world0).1 (by decide)).2⟩

/-! ## Name validation, rollback, batch template update -/

theorem exists_message_ne_empty (name : String) :
    "service name '" ++ name ++ "' already exists" ≠ "" := by
  intro h
  have := congrArg String.length h
  simp only [String.length_append] at this
  have h1 : ("service name '" : String).length = 14 := by decide
  have h2 : ("" : String).length = 0 := by decide
  omega

/-- C21 (name-validation inversion): `ValidateName` sends one GET on
`service/name/check` carrying the name; for every successful server answer
`nameExists` it returns `IsValid = not nameExists` with no error, the
returned `Message` is non-empty if and only if `nameExists` is true, and then
it contains the name; when the request fails it returns a nil result and the
transport's error. -/
theorem C21_name_validation_inversion {σ ε : Type} (tr : Transport σ ε Bool)
    (opts : ValidateNameOptions) (w : World σ) :
    ∃ req : Request, req.verb = Verb.GET ∧ req.resource = "service/name/check" ∧
      req.getParam "name" = some opts.Name ∧
      (∀ nameExists, (tr req w.server).1 = Except.ok nameExists →
        ∃ res, serviceClient.ValidateName tr opts w =
            ⟨some res, none, ⟨(tr req w.server).2, w.sent ++ [req]⟩⟩ ∧
          res.IsValid = !nameExists ∧
          (res.Message ≠ "" ↔ nameExists = true) ∧
          (nameExists = true → Contains res.Message opts.Name)) ∧
      (∀ err, (tr req w.server).1 = Except.error err →
        serviceClient.ValidateName tr opts w =
          ⟨none, some (GoError.transport err), ⟨(tr req w.server).2, w.sent ++ [req]⟩⟩) := by
  refine ⟨if opts.ID ≠ "" then
      ((Request.Get.Resource "service/name/check").Param "name" opts.Name).Param "id" opts.ID
    else (Request.Get.Resource "service/name/check").Param "name" opts.Name, ?_, ?_, ?_, ?_, ?_⟩
  · split <;> rfl
  · split <;> rfl
  · split <;> rfl
  · intro nameExists h
    cases nameExists with
    | false =>
      refine ⟨⟨true, ""⟩, ?_, rfl, by simp, by simp⟩
      simp only [serviceClient.ValidateName, Request.Do, h]
      rfl
    | true =>
      refine ⟨⟨false, "service name '" ++ opts.Name ++ "' already exists"⟩, ?_, rfl,
        by simpa using exists_message_ne_empty opts.Name,
        fun _ => ⟨"service name '", "' already exists", rfl⟩⟩
      simp only [serviceClient.ValidateName, Request.Do, h]
      rfl
  · intro err h
    simp only [serviceClient.ValidateName, Request.Do, h]

/-- Worked instances of `ValidateName`: an existing name, a free name, a
failing request. -/
theorem validateName_worked :
    serviceClient.ValidateName (constServer true) ⟨"web", ""⟩ world0 =
      ⟨some ⟨false, "service name 'web' already exists"⟩, none,
        ⟨(), [{ verb := Verb.GET, resource := "service/name/check",
                params := [("name", "web")] }]⟩⟩ ∧
    serviceClient.ValidateName (constServer false) ⟨"web", "svc-1"⟩ world0 =
      ⟨some ⟨true, ""⟩, none,
        ⟨(), [{ verb := Verb.GET, resource := "service/name/check",
                params := [("name", "web"), ("id", "svc-1")] }]⟩⟩ ∧
    serviceClient.ValidateName (errorServer "timeout") ⟨"web", ""⟩ world0 =
      ⟨none, some (GoError.transport "timeout"),
        ⟨(), [{ verb := Verb.GET, resource := "service/name/check",
                params := [("name", "web")] }]⟩⟩ :=
  ⟨rfl, rfl, rfl⟩

/-- C22, the code at the failing input: when the PUT on `service/rollback`
fails, `RollBack` returns the error together with the pointer to the zero
`Transaction` it allocated, not a nil transaction; and whatever the transport
answers, the returned transaction is never nil. -/
theorem C22_rollback_returns_transaction :
    serviceClient.RollBack "zero Transaction" (errorServer "record not found")
        ⟨"svc-1", "non-existent-record-id-for-testing"⟩ world0 =
      ⟨some "zero Transaction", some (GoError.transport "record not found"),
        ⟨(), [{ verb := Verb.PUT, resource := "service", subresources := ["rollback"],
                body := some (Body.rollBack
                  ⟨"svc-1", "non-existent-record-id-for-testing"⟩) }]⟩⟩ ∧
    ∀ (tr : Transport Unit String String) (req : RollBackRequest) (w : World Unit),
      (serviceClient.RollBack "zero Transaction" tr req w).result ≠ none := by
  refine ⟨rfl, ?_⟩
  intro tr req w
  simp only [serviceClient.RollBack]
  split <;> simp

theorem byID_check_spec :
    ∀ (ts : List TemplateUpdateBatchSpec) (i : Nat),
      (templateClient.UpdateTemplatesByID.check ts i = none ↔ ∀ t ∈ ts, t.ID ≠ "") ∧
      (∀ msg, templateClient.UpdateTemplatesByID.check ts i = some msg →
        ∃ j, ∃ hj : j < ts.length, (ts.get ⟨j, hj⟩).ID = "" ∧
          (∀ k, ∀ hk : k < ts.length, k < j → (ts.get ⟨k, hk⟩).ID ≠ "") ∧
          msg = "template ID is required for UpdateTemplatesByID at index " ++
            Itoa ((i + j : Nat) : Int)) := by
  intro ts
  induction ts with
  | nil =>
    intro i
    simp [templateClient.UpdateTemplatesByID.check]
  | cons t rest ih =>
    intro i
    by_cases h : t.ID = ""
    · simp only [templateClient.UpdateTemplatesByID.check, h, if_true, reduceCtorEq,
        List.mem_cons, ne_eq, forall_eq_or_imp, not_true_eq_false, false_and,
        Option.some.injEq]
      refine ⟨by simp, ?_⟩
      intro msg hmsg
      refine ⟨0, by simp, by simpa using h, by intro k hk hlt; omega, ?_⟩
      rw [← hmsg]; rfl
    · simp only [templateClient.UpdateTemplatesByID.check, h, if_false, List.mem_cons, ne_eq,
        forall_eq_or_imp, not_false_eq_true, true_and]
      refine ⟨(ih (i + 1)).1, ?_⟩
      intro msg hmsg
      obtain ⟨j, hj, h1, h2, h3⟩ := (ih (i + 1)).2 msg hmsg
      refine ⟨j + 1, by simp; omega, by simpa using h1, ?_, ?_⟩
      · intro k hk hlt
        cases k with
        | zero => simpa using h
        | succ k => simpa using h2 k (by simp at hk; omega) (by omega)
      · rw [h3]
        have : i + 1 + j = i + (j + 1) := by omega
        rw [this]

theorem byName_check_spec :
    ∀ (ts : List TemplateUpdateBatchSpec) (i : Nat),
      (templateClient.UpdateTemplatesByName.check ts i = none ↔ ∀ t ∈ ts, t.Name ≠ "") ∧
      (∀ msg, templateClient.UpdateTemplatesByName.check ts i = some msg →
        ∃ j, ∃ hj : j < ts.length, (ts.get ⟨j, hj⟩).Name = "" ∧
          (∀ k, ∀ hk : k < ts.length, k < j → (ts.get ⟨k, hk⟩).Name ≠ "") ∧
          msg = "template Name is required for UpdateTemplatesByName at index " ++
            Itoa ((i + j : Nat) : Int)) := by
  intro ts
  induction ts with
  | nil =>
    intro i
    simp [templateClient.UpdateTemplatesByName.check]
  | cons t rest ih =>
    intro i
    by_cases h : t.Name = ""
    · simp only [templateClient.UpdateTemplatesByName.check, h, if_true, reduceCtorEq,
        List.mem_cons, ne_eq, forall_eq_or_imp, not_true_eq_false, false_and,
        Option.some.injEq]
      refine ⟨by simp, ?_⟩
      intro msg hmsg
      refine ⟨0, by simp, by simpa using h, by intro k hk hlt; omega, ?_⟩
      rw [← hmsg]; rfl
    · simp only [templateClient.UpdateTemplatesByName.check, h, if_false, List.mem_cons, ne_eq,
        forall_eq_or_imp, not_false_eq_true, true_and]
      refine ⟨(ih (i + 1)).1, ?_⟩
      intro msg hmsg
      obtain ⟨j, hj, h1, h2, h3⟩ := (ih (i + 1)).2 msg hmsg
      refine ⟨j + 1, by simp; omega, by simpa using h1, ?_, ?_⟩
      · intro k hk hlt
        cases k with
        | zero => simpa using h
        | succ k => simpa using h2 k (by simp at hk; omega) (by omega)
      · rw [h3]
        have : i + 1 + j = i + (j + 1) := by omega
        rw [this]

/-- C24 (batch-update pre-check): for every batch request,
`UpdateTemplatesByID` (resp. `UpdateTemplatesByName`) fails locally if and
only if some template entry has an empty `ID` (resp. `Name`); the error then
names the least index of such an entry, the result is nil and the world is
untouched; when every entry has the required field (the empty template list
included) exactly one PUT is issued, on `provision-templates` (resp.
`provision-templates/images`) with the request as body. -/
theorem C24_batch_update_precheck {σ ε α : Type} (tr : Transport σ ε (List α))
    (req : UpdateTemplatesBatchRequest) (w : World σ) :
    ((∃ t ∈ req.Templates, t.ID = "") →
      ∃ j, ∃ hj : j < req.Templates.length, (req.Templates.get ⟨j, hj⟩).ID = "" ∧
        (∀ k, ∀ hk : k < req.Templates.length, k < j →
          (req.Templates.get ⟨k, hk⟩).ID ≠ "") ∧
        templateClient.UpdateTemplatesByID tr req w =
          ⟨[], some (GoError.errorf
            ("template ID is required for UpdateTemplatesByID at index " ++
              Itoa (j : Int))), w⟩) ∧
    ((∀ t ∈ req.Templates, t.ID ≠ "") →
      (templateClient.UpdateTemplatesByID tr req w).world.sent =
        w.sent ++ [{ verb := Verb.PUT, resource := "provision-templates",
                     body := some (Body.updateTemplatesBatch req) }]) ∧
    ((∃ t ∈ req.Templates, t.Name = "") →
      ∃ j, ∃ hj : j < req.Templates.length, (req.Templates.get ⟨j, hj⟩).Name = "" ∧
        (∀ k, ∀ hk : k < req.Templates.length, k < j →
          (req.Templates.get ⟨k, hk⟩).Name ≠ "") ∧
        templateClient.UpdateTemplatesByName tr req w =
          ⟨[], some (GoError.errorf
            ("template Name is required for UpdateTemplatesByName at index " ++
              Itoa (j : Int))), w⟩) ∧
    ((∀ t ∈ req.Templates, t.Name ≠ "") →
      (templateClient.UpdateTemplatesByName tr req w).world.sent =
        w.sent ++ [{ verb := Verb.PUT, resource := "provision-templates/images",
                     body := some (Body.updateTemplatesBatch req) }]) := by
  refine ⟨?_, ?_, ?_, ?_⟩
  · rintro ⟨t, ht, hid⟩
    cases hc : templateClient.UpdateTemplatesByID.check req.Templates 0 with
    | none => exact absurd hid ((byID_check_spec req.Templates 0).1.1 hc t ht)
    | some msg =>
      obtain ⟨j, hj, h1, h2, h3⟩ := (byID_check_spec req.Templates 0).2 msg hc
      refine ⟨j, hj, h1, h2, ?_⟩
      simp only [templateClient.UpdateTemplatesByID, hc, h3, Nat.zero_add]
  · intro h
    have hc := (byID_check_spec req.Templates 0).1.2 h
    simp only [templateClient.UpdateTemplatesByID, hc, Request.Do, Request.Body,
      Request.Resource, Request.Put]
    split <;> (rename_i heq; have h2 := (Prod.mk.inj heq).2; rw [← h2])
  · rintro ⟨t, ht, hid⟩
    cases hc : templateClient.UpdateTemplatesByName.check req.Templates 0 with
    | none => exact absurd hid ((byName_check_spec req.Templates 0).1.1 hc t ht)
    | some msg =>
      obtain ⟨j, hj, h1, h2, h3⟩ := (byName_check_spec req.Templates 0).2 msg hc
      refine ⟨j, hj, h1, h2, ?_⟩
      simp only [templateClient.UpdateTemplatesByName, hc, h3, Nat.zero_add]
  · intro h
    have hc := (byName_check_spec req.Templates 0).1.2 h
    simp only [templateClient.UpdateTemplatesByName, hc, Request.Do, Request.Body,
      Request.Resource, Request.Put]
    split <;> (rename_i heq; have h2 := (Prod.mk.inj heq).2; rw [← h2])

/-- C24, worked instances: a batch whose entries 1 and 2 lack the `ID` fails
by ID naming index 1 and is sent by name; the empty batch is sent. -/
theorem C24_batch_update_precheck_witness :
    templateClient.UpdateTemplatesByID (constServer ([] : List Nat))
        ⟨[⟨"a", "t1", "img@2", ""⟩, ⟨"b", "", "img@2", ""⟩, ⟨"c", "", "img@2", ""⟩], "load"⟩
        world0 =
      ⟨[], some (GoError.errorf
        "template ID is required for UpdateTemplatesByID at index 1"), world0⟩ ∧
    (templateClient.UpdateTemplatesByName (constServer ([] : List Nat))
        ⟨[⟨"a", "t1", "img@2", ""⟩, ⟨"b", "", "img@2", ""⟩, ⟨"c", "", "img@2", ""⟩], "load"⟩
        world0).world.sent =
      world0.sent ++ [{ verb := Verb.PUT, resource := "provision-templates/images",
                        body := some (Body.updateTemplatesBatch
                          ⟨[⟨"a", "t1", "img@2", ""⟩, ⟨"b", "", "img@2", ""⟩,
                            ⟨"c", "", "img@2", ""⟩], "load"⟩) }] ∧
    (templateClient.UpdateTemplatesByID (constServer ([] : List Nat)) ⟨[], ""⟩
        world0).world.sent =
      world0.sent ++ [{ verb := Verb.PUT, resource := "provision-templates",
                        body := some (Body.updateTemplatesBatch ⟨[], ""⟩) }] := by
  refine ⟨?_, ?_, ?_⟩
  · obtain ⟨j, hj, h1, h2, h3⟩ := (C24_batch_update_precheck (constServer ([] : List Nat))
      ⟨[⟨"a", "t1", "img@2", ""⟩, ⟨"b", "", "img@2", ""⟩, ⟨"c", "", "img@2", ""⟩], "load"⟩
      world0).1 ⟨⟨"b", "", "img@2", ""⟩, by simp, rfl⟩
    rfl
  · exact (C24_batch_update_precheck (constServer ([] : List Nat))
      ⟨[⟨"a", "t1", "img@2", ""⟩, ⟨"b", "", "img@2", ""⟩, ⟨"c", "", "img@2", ""⟩], "load"⟩
      world0).2.2.2 (by simp)
  · exact (C24_batch_update_precheck (constServer ([] : List Nat)) ⟨[], ""⟩ world0).2.1
      (by simp)

/-- C30 (an absent value is always rejected): for every declared type and
every key, `CreateConfig` and `UpdateConfig` with a nil raw value return an
error built by the client-side check and leave the world untouched. -/
theorem C30_nil_value_rejected {σ ε ρ : Type} (tr : Transport σ ε ρ) (w : World σ)
    (id key : String) (t : ConfigItemType) :
    (∃ msg, configClient.CreateConfig tr ⟨key, t, none⟩ w = (some (GoError.errorf msg), w)) ∧
    (∃ msg, configClient.UpdateConfig tr ⟨id, key, t, none⟩ w =
      (some (GoError.errorf msg), w)) := by
  have hc : ∃ msg, configClient.CreateConfig.validate ⟨key, t, none⟩ = some msg := by
    by_cases h1 : t = "string"
    · subst h1; exact ⟨_, rfl⟩
    by_cases h2 : t = "number"
    · subst h2; exact ⟨_, rfl⟩
    by_cases h3 : t = "json"
    · subst h3; exact ⟨_, rfl⟩
    exact ⟨_, create_validate_other key t none h1 h2 h3⟩
  have hu : ∃ msg, configClient.UpdateConfig.validate ⟨id, key, t, none⟩ = some msg := by
    by_cases h1 : t = "string"
    · subst h1; exact ⟨_, rfl⟩
    by_cases h2 : t = "number"
    · subst h2; exact ⟨_, rfl⟩
    by_cases h3 : t = "json"
    · subst h3; exact ⟨_, rfl⟩
    exact ⟨_, update_validate_other id key t none h1 h2 h3⟩
  obtain ⟨m1, h1⟩ := hc
  obtain ⟨m2, h2⟩ := hu
  exact ⟨⟨m1, by simp only [configClient.CreateConfig, h1]⟩,
    ⟨m2, by simp only [configClient.UpdateConfig, h2]⟩⟩

/-! ## Query parameters of the single-page operations -/

/-- C23, refuted as stated: with all-zero options `Services().List` still
sends `pageNum=0` and `pageSize=0`, and `ListRecord` with an empty
`ServiceID` still sends `id=`. -/
theorem C23_counterexample :
    (serviceClient.List (servicesServer ([] : List Nat) 2 0) ⟨0, 0, "", "", "", ""⟩
        world0).2.sent =
      [{ verb := Verb.GET, resource := "service",
         params := [("pageNum", "0"), ("pageSize", "0")] }] ∧
    (recordClient.ListRecord (recordsServer ([] : List Nat) 2 0) ⟨0, 0, ""⟩ world0).2.sent =
      [{ verb := Verb.GET, resource := "service/record",
         params := [("id", ""), ("pageNum", "0"), ("pageSize", "0")] }] :=
  ⟨rfl, rfl⟩

/-- C23 (amended): every single-page list operation sends one GET whose query
is: `pageNum` and `pageSize` always, as the decimal text of the option
values, zero included; for `ListRecord` also `id` always, the empty
`ServiceID` included; and each remaining filter (`name`, `id`, `nodeId`,
`label` for services; `name`, `projectId`, `nodeId`, `label` for
microservices; `key` for configs) if and only if the caller supplied a
non-empty (non-zero for `projectId`) value, with that value, in this order. -/
theorem C23_query_parameters {σ ε α : Type} (w : World σ) :
    (∀ (tr : Transport σ ε (ServiceList α)) (opts : ListServicesOptions),
      (serviceClient.List tr opts w).2.sent =
        w.sent ++ [{ verb := Verb.GET, resource := "service",
                     params := [("pageNum", Itoa opts.PageNum),
                         ("pageSize", Itoa opts.PageSize)] ++
                       (if opts.Name ≠ "" then [("name", opts.Name)] else []) ++
                       (if opts.ImageID ≠ "" then [("id", opts.ImageID)] else []) ++
                       (if opts.NodeID ≠ "" then [("nodeId", opts.NodeID)] else []) ++
                       (if opts.Label ≠ "" then [("label", opts.Label)] else []) }]) ∧
    (∀ (tr : Transport σ ε (RecordList α)) (opts : ListRecordOptions),
      (recordClient.ListRecord tr opts w).2.sent =
        w.sent ++ [{ verb := Verb.GET, resource := "service/record",
                     params := [("id", opts.ServiceID), ("pageNum", Itoa opts.PageNum),
                       ("pageSize", Itoa opts.PageSize)] }]) ∧
    (∀ (tr : Transport σ ε (MicroServiceList α)) (opts : ListMicroServicesOptions),
      (MicroserviceClient.ListMicroService tr opts w).2.sent =
        w.sent ++ [{ verb := Verb.GET, resource := "micro-service",
                     params := [("pageNum", Itoa opts.PageNum),
                         ("pageSize", Itoa opts.PageSize)] ++
                       (if opts.KeyWord ≠ "" then [("name", opts.KeyWord)] else []) ++
                       (if opts.ImageID ≠ 0 then [("projectId", Itoa opts.ImageID)]
                        else []) ++
                       (if opts.NodeID ≠ "" then [("nodeId", opts.NodeID)] else []) ++
                       (if opts.Label ≠ "" then [("label", opts.Label)] else []) }]) ∧
    (∀ (tr : Transport σ ε (List α)) (opts : ListConfigsOptions),
      (configClient.ListConfig tr opts w).2.sent =
        w.sent ++ [{ verb := Verb.GET, resource := "configmap",
                     params := [("pageNum", Itoa opts.PageNum),
                         ("pageSize", Itoa opts.PageSize)] ++
                       (if opts.Key ≠ "" then [("key", opts.Key)] else []) }]) := by
  refine ⟨?_, ?_, ?_, ?_⟩
  · intro tr opts
    rw [services_sent]
    unfold servicesRequest
    split_ifs <;> rfl
  · intro tr opts
    rw [records_sent]
    rfl
  · intro tr opts
    rw [micro_sent]
    unfold microServicesRequest
    split_ifs <;> rfl
  · intro tr opts
    rw [configs_sent]
    unfold configsRequest
    split_ifs <;> rfl

/-! ## Further runs of the traversal engine -/

section Scripted

variable {O ρ σ ε α : Type} (list : O → World σ → Except ε ρ × World σ)
  (items : ρ → List α) (stop : O → List α → ρ → Bool) (next : O → O)
  (reqOf : O → Request) (o : O)

theorem sent_step (n i : Nat) (pre mid : List Request)
    (hmid : mid = pre ++ [reqOf (next^[i] o)]) (fin : List Request)
    (hfin : fin = mid ++ (List.range (n + 1)).map (fun j => reqOf (next^[i + 1 + j] o))) :
    fin = pre ++ (List.range (n + 1 + 1)).map (fun j => reqOf (next^[i + j] o)) := by
  rw [hfin, hmid, List.range_succ_eq_map (n + 1)]
  simp only [List.map_cons, List.map_map, List.append_assoc, List.singleton_append,
    Nat.add_zero, Function.comp_def]
  have : ∀ j, i + 1 + j = i + (j + 1) := by intro j; omega
  simp only [this, Nat.succ_eq_add_one]

/-- Count-based policy against an arbitrary sequence of successful pages
(`its p` the items and `tot p` the total of page `p`): if page `k` is the
first one that is empty or completes the count, the loop returns the items of
pages `1 .. k` after exactly `k` requests. -/
theorem script_run (its : Nat → List α) (tot : Nat → Int) (k : Nat)
    (hsent : ∀ o w, (list o w).2.sent = w.sent ++ [reqOf o])
    (hpage : ∀ i, i < k → ∀ w0, ∃ pg, (list (next^[i] o) w0).1 = Except.ok pg ∧
      items pg = its (i + 1) ∧
      ∀ acc, stop (next^[i] o) acc pg = decide (tot (i + 1) ≤ (acc.length : Int)))
    (hcont : ∀ j, 1 ≤ j → j < k →
      its j ≠ [] ∧ ¬ tot j ≤ ((concatPages its j).length : Int))
    (hstop : its k = [] ∨ tot k ≤ ((concatPages its k).length : Int)) :
    ∀ (m i : Nat) (acc : List α) (w : World σ) (extra : Nat),
      i + m + 1 = k → acc = concatPages its i →
      ∃ w1, pageLoop list items stop next (m + 1 + extra) (next^[i] o) acc w =
          Run.done ⟨concatPages its k, none, w1⟩ ∧
        w1.sent = w.sent ++ (List.range (m + 1)).map (fun j => reqOf (next^[i + j] o)) := by
  intro m
  induction m with
  | zero =>
    intro i acc w extra hk hacc
    obtain ⟨pg, hpg, hit, hst⟩ := hpage i (by omega) w
    have hl : list (next^[i] o) w = (Except.ok pg, (list (next^[i] o) w).2) := by
      rw [← hpg]
    have hki : k = i + 1 := by omega
    have hcat : concatPages its k = acc ++ its (i + 1) := by
      rw [hki, hacc]; rfl
    have hfuel : 0 + 1 + extra = 0 + extra + 1 := by omega
    refine ⟨(list (next^[i] o) w).2, ?_, by simpa using hsent (next^[i] o) w⟩
    rw [hfuel]
    by_cases h0 : items pg = []
    · rw [pageLoop_empty list items stop next _ _ acc w _ pg hl h0, hcat, ← hit, h0]
      simp
    · have hs : stop (next^[i] o) (acc ++ items pg) pg = true := by
        rw [hst, hit, ← hcat]
        rcases hstop with h | h
        · rw [hki, ← hit] at h
          exact absurd h h0
        · simp only [decide_eq_true_eq]
          rw [← hki]
          exact h
      rw [pageLoop_stop list items stop next _ _ acc w _ pg hl h0 hs, hcat, hit]
  | succ n ih =>
    intro i acc w extra hk hacc
    obtain ⟨pg, hpg, hit, hst⟩ := hpage i (by omega) w
    have hl : list (next^[i] o) w = (Except.ok pg, (list (next^[i] o) w).2) := by
      rw [← hpg]
    obtain ⟨hne, hns⟩ := hcont (i + 1) (by omega) (by omega)
    have hcat : concatPages its (i + 1) = acc ++ items pg := by
      rw [hacc, hit]; rfl
    have h0 : items pg ≠ [] := by rw [hit]; exact hne
    have hs : stop (next^[i] o) (acc ++ items pg) pg = false := by
      rw [hst, ← hcat]
      simpa using hns
    obtain ⟨w1, hrun, hsent1⟩ := ih (i + 1) (acc ++ items pg) (list (next^[i] o) w).2 extra
      (by omega) hcat.symm
    refine ⟨w1, ?_, ?_⟩
    · have hfuel : n + 1 + 1 + extra = (n + 1 + extra) + 1 := by omega
      rw [hfuel, pageLoop_next list items stop next _ _ acc w _ pg hl h0 hs,
        ← Function.iterate_succ_apply' next i o]
      exact hrun
    · exact sent_step next reqOf o n i w.sent _ (hsent (next^[i] o) w) _ hsent1

/-- Count-based policy against any server whose every answer succeeds and
reports the same total `T`: the loop returns without error after at most
`d + 1` requests as soon as at most `d + 1` items are missing to `T`. -/
theorem fixed_total_bound (T : Int)
    (hsent : ∀ o w, (list o w).2.sent = w.sent ++ [reqOf o])
    (hall : ∀ o w0, ∃ pg, (list o w0).1 = Except.ok pg ∧
      ∀ acc, stop o acc pg = decide (T ≤ (acc.length : Int))) :
    ∀ (d : Nat) (o : O) (acc : List α) (w : World σ) (extra : Nat),
      T - (acc.length : Int) ≤ ((d + 1 : Nat) : Int) →
      ∃ r, pageLoop list items stop next (d + 1 + extra) o acc w = Run.done r ∧
        r.err = none ∧ r.world.sent.length ≤ w.sent.length + (d + 1) := by
  intro d
  induction d with
  | zero =>
    intro o acc w extra hT
    obtain ⟨pg, hpg, hst⟩ := hall o w
    have hl : list o w = (Except.ok pg, (list o w).2) := by rw [← hpg]
    have hlen : (list o w).2.sent.length = w.sent.length + 1 := by
      rw [hsent o w]; simp
    have hfuel : 0 + 1 + extra = 0 + extra + 1 := by omega
    rw [hfuel]
    by_cases h0 : items pg = []
    · exact ⟨_, pageLoop_empty list items stop next _ _ acc w _ pg hl h0, rfl, by
        simp only [hlen]; omega⟩
    · have hpos : 0 < (items pg).length := List.length_pos.2 h0
      have hs : stop o (acc ++ items pg) pg = true := by
        rw [hst]
        simp only [List.length_append, Nat.cast_add, decide_eq_true_eq]
        push_cast at hT
        omega
      exact ⟨_, pageLoop_stop list items stop next _ _ acc w _ pg hl h0 hs, rfl, by
        simp only [hlen]; omega⟩
  | succ n ih =>
    intro o acc w extra hT
    obtain ⟨pg, hpg, hst⟩ := hall o w
    have hl : list o w = (Except.ok pg, (list o w).2) := by rw [← hpg]
    have hlen : (list o w).2.sent.length = w.sent.length + 1 := by
      rw [hsent o w]; simp
    have hfuel : n + 1 + 1 + extra = (n + 1 + extra) + 1 := by omega
    rw [hfuel]
    by_cases h0 : items pg = []
    · exact ⟨_, pageLoop_empty list items stop next _ _ acc w _ pg hl h0, rfl, by
        simp only [hlen]; omega⟩
    · have hpos : 0 < (items pg).length := List.length_pos.2 h0
      by_cases hs : stop o (acc ++ items pg) pg = true
      · exact ⟨_, pageLoop_stop list items stop next _ _ acc w _ pg hl h0 hs, rfl, by
          simp only [hlen]; omega⟩
      · have hs1 : stop o (acc ++ items pg) pg = false := by simpa using hs
        obtain ⟨r, hr, he, hn⟩ := ih (next o) (acc ++ items pg) (list o w).2 extra (by
          simp only [List.length_append, Nat.cast_add]
          push_cast at hT ⊢
          omega)
        refine ⟨r, ?_, he, ?_⟩
        · rw [pageLoop_next list items stop next _ _ acc w _ pg hl h0 hs1]
          exact hr
        · rw [hlen] at hn; omega

end Scripted

section UnderReported

variable {O ρ σ ε α : Type} (list : O → World σ → Except ε ρ × World σ)
  (items : ρ → List α) (stop : O → List α → ρ → Bool) (next : O → O)
  (reqOf : O → Request) (data : List α) (S : Nat) (o : O)

/-- Count-based policy, total `T` reported at or below the real size: from
iteration `i`, if the count is first reached after `k + 1` more pages, the
loop returns the first `(i + k + 1) * S` items of the dataset after exactly
`k + 1` requests. -/
theorem count_under (T B : Nat) (hS : 1 ≤ S) (hT : T ≤ data.length)
    (hsent : ∀ o w, (list o w).2.sent = w.sent ++ [reqOf o])
    (hpage : ∀ i, i ≤ B → ∀ w0, ∃ pg, (list (next^[i] o) w0).1 = Except.ok pg ∧
      items pg = (data.drop (i * S)).take S ∧
      ∀ acc, stop (next^[i] o) acc pg = decide (T ≤ acc.length)) :
    ∀ (k i : Nat) (acc : List α) (w : World σ) (extra : Nat),
      acc = data.take (i * S) → (i + k) * S < data.length →
      (1 ≤ k → (i + k) * S < T) → T ≤ (i + k + 1) * S → i + k ≤ B →
      ∃ w1, pageLoop list items stop next (k + 1 + extra) (next^[i] o) acc w =
          Run.done ⟨data.take ((i + k + 1) * S), none, w1⟩ ∧
        w1.sent = w.sent ++ (List.range (k + 1)).map (fun j => reqOf (next^[i + j] o)) := by
  intro k
  induction k with
  | zero =>
    intro i acc w extra hacc hlt _ hle hB
    obtain ⟨pg, hpg, hit, hst⟩ := hpage i (by omega) w
    have hl : list (next^[i] o) w = (Except.ok pg, (list (next^[i] o) w).2) := by
      rw [← hpg]
    have hi : i * S + S = (i + 1) * S := by rw [Nat.succ_mul]
    simp only [Nat.add_zero] at hlt hle
    have hne : items pg ≠ [] := by
      intro h0
      have := congrArg List.length h0
      rw [hit, page_length] at this
      simp only [List.length_nil] at this
      omega
    have hacc1 : acc ++ items pg = data.take ((i + 1) * S) := by
      rw [hacc, hit, take_page]
    have hs : stop (next^[i] o) (acc ++ items pg) pg = true := by
      rw [hst, hacc1, List.length_take]
      simp only [decide_eq_true_eq]
      omega
    refine ⟨(list (next^[i] o) w).2, ?_, by simpa using hsent (next^[i] o) w⟩
    have hfuel : 0 + 1 + extra = 0 + extra + 1 := by omega
    rw [hfuel, pageLoop_stop list items stop next _ _ acc w _ pg hl hne hs, hacc1]
  | succ n ih =>
    intro i acc w extra hacc hlt hcont hle hB
    obtain ⟨pg, hpg, hit, hst⟩ := hpage i (by omega) w
    have hl : list (next^[i] o) w = (Except.ok pg, (list (next^[i] o) w).2) := by
      rw [← hpg]
    have hmono : (i + 1) * S ≤ (i + (n + 1)) * S := Nat.mul_le_mul_right S (by omega)
    have hi : i * S + S = (i + 1) * S := by rw [Nat.succ_mul]
    have hltT := hcont (by omega)
    have hne : items pg ≠ [] := by
      intro h0
      have := congrArg List.length h0
      rw [hit, page_length] at this
      simp only [List.length_nil] at this
      omega
    have hacc1 : acc ++ items pg = data.take ((i + 1) * S) := by
      rw [hacc, hit, take_page]
    have hns : stop (next^[i] o) (acc ++ items pg) pg = false := by
      rw [hst, hacc1, List.length_take]
      simp only [decide_eq_false_iff_not, not_le]
      omega
    have h1 : i + 1 + n = i + (n + 1) := by omega
    obtain ⟨w1, hrun, hsent1⟩ := ih (i + 1) (acc ++ items pg) (list (next^[i] o) w).2 extra
      hacc1 (by rw [h1]; exact hlt) (by intro _; rw [h1]; exact hltT)
      (by rw [h1]; exact hle) (by omega)
    refine ⟨w1, ?_, ?_⟩
    · have hfuel : n + 1 + 1 + extra = (n + 1 + extra) + 1 := by omega
      rw [hfuel, pageLoop_next list items stop next _ _ acc w _ pg hl hne hns,
        ← Function.iterate_succ_apply' next i o]
      rw [h1] at hrun
      exact hrun
    · exact sent_step next reqOf o n i w.sent _ (hsent (next^[i] o) w) _ hsent1

/-- Count-based policy against a server that under-reports the total
(`T < N`): the first `max 1 (ceil (T/S)) * S` items after exactly
`max 1 (ceil (T/S))` requests. -/
theorem under_run (T B : Nat) (hS : 1 ≤ S) (hT : T < data.length)
    (hsent : ∀ o w, (list o w).2.sent = w.sent ++ [reqOf o])
    (hpage : ∀ i, i ≤ B → ∀ w0, ∃ pg, (list (next^[i] o) w0).1 = Except.ok pg ∧
      items pg = (data.drop (i * S)).take S ∧
      ∀ acc, stop (next^[i] o) acc pg = decide (T ≤ acc.length))
    (hB : max 1 (ceilDiv T S) ≤ B + 1) (w : World σ) (extra : Nat) :
    ∃ w1, pageLoop list items stop next (max 1 (ceilDiv T S) + extra) o [] w =
        Run.done ⟨data.take (max 1 (ceilDiv T S) * S), none, w1⟩ ∧
      w1.sent = w.sent ++
        (List.range (max 1 (ceilDiv T S))).map (fun j => reqOf (next^[j] o)) := by
  have h3 := le_ceilDiv_mul S T hS
  rcases Nat.eq_zero_or_pos T with h0 | hpos
  · have hc : max 1 (ceilDiv T S) = 0 + 1 := by
      rw [h0]
      have : ceilDiv 0 S = 0 := by
        unfold ceilDiv
        exact Nat.div_eq_of_lt (by omega)
      rw [this]; rfl
    rw [hc] at hB ⊢
    have := count_under list items stop next reqOf data S o T B hS (le_of_lt hT) hsent hpage
      0 0 [] w extra (by simp) (by simpa using (by omega : 0 < data.length))
      (by intro h; omega) (by omega) (by omega)
    simpa using this
  · have h1 := one_le_ceilDiv S T hS hpos
    have h2 := ceilDiv_pred_mul_lt S T hS hpos
    have hc : max 1 (ceilDiv T S) = (ceilDiv T S - 1) + 1 := by
      rw [Nat.max_eq_right h1]; omega
    have h4 : 0 + (ceilDiv T S - 1) + 1 = ceilDiv T S := by omega
    rw [hc] at hB ⊢
    have := count_under list items stop next reqOf data S o T B hS (le_of_lt hT) hsent hpage
      (ceilDiv T S - 1) 0 [] w extra (by simp)
      (by simp only [Nat.zero_add]; omega)
      (by intro _; simpa using h2)
      (by rw [h4]; exact h3) (by omega)
    simpa using this

end UnderReported

section ServicesMore

variable {σ ε α : Type} (tr : Transport σ ε (ServiceList α))

theorem services_iterate_start (opts : ListServicesOptions) (i : Nat) :
    (fun o : ListServicesOptions => { o with PageNum := o.PageNum + 1 })^[i]
        { opts with PageNum := 1,
                    PageSize := if opts.PageSize = 0 then 100 else opts.PageSize } =
      { opts with PageNum := ((i + 1 : Nat) : Int),
                  PageSize := if opts.PageSize = 0 then 100 else opts.PageSize } := by
  rw [services_iterate]
  simp only [Nat.cast_add, Nat.cast_one]
  rw [Int.add_comm]

/-- Requests of a run: the options of the caller with `PageNum` running from
1 and the page size defaulted, nothing else changed. -/
theorem services_frame (opts : ListServicesOptions) (w : World σ) (fuel : Nat) :
    ∃ n, n ≤ fuel ∧ (serviceClient.ListAll tr fuel opts w).world.sent =
      w.sent ++ (List.range n).map (fun j => servicesRequest
        { opts with PageNum := ((j + 1 : Nat) : Int),
                    PageSize := if opts.PageSize = 0 then 100 else opts.PageSize }) := by
  rw [services_start]
  obtain ⟨n, hn, _, hsent⟩ := pageLoop_sent (serviceClient.List tr) (fun pg => pg.Items)
    (fun _ acc pg => decide ((acc.length : Int) ≥ pg.Total))
    (fun o => { o with PageNum := o.PageNum + 1 }) servicesRequest (services_sent tr)
    fuel { opts with PageNum := 1,
                     PageSize := if opts.PageSize = 0 then 100 else opts.PageSize } [] w
  refine ⟨n, hn, ?_⟩
  rw [hsent]
  congr 1
  apply List.map_congr_left
  intro j _
  rw [services_iterate_start]

/-- Arbitrary successful pages: the items of pages `1 .. k` after `k`
requests, `k` the first page that is empty or completes the count. -/
theorem services_script (opts : ListServicesOptions) (pg : Nat → ServiceList α) (k : Nat)
    (hk : 1 ≤ k)
    (hserve : ∀ p : Nat, 1 ≤ p → p ≤ k → ∀ w0 : World σ,
      (serviceClient.List tr
        { opts with PageNum := (p : Int),
                    PageSize := if opts.PageSize = 0 then 100 else opts.PageSize } w0).1 =
        Except.ok (pg p))
    (hcont : ∀ j, 1 ≤ j → j < k → (pg j).Items ≠ [] ∧
      ¬ (pg j).Total ≤ ((concatPages (fun p => (pg p).Items) j).length : Int))
    (hstop : (pg k).Items = [] ∨
      (pg k).Total ≤ ((concatPages (fun p => (pg p).Items) k).length : Int))
    (w : World σ) (extra : Nat) :
    ∃ w1, serviceClient.ListAll tr (k + extra) opts w =
        Run.done ⟨concatPages (fun p => (pg p).Items) k, none, w1⟩ ∧
      w1.sent = w.sent ++ (List.range k).map (fun j => servicesRequest
        { opts with PageNum := ((j + 1 : Nat) : Int),
                    PageSize := if opts.PageSize = 0 then 100 else opts.PageSize }) := by
  rw [services_start]
  obtain ⟨m, rfl⟩ : ∃ m, k = m + 1 := ⟨k - 1, by omega⟩
  have := script_run (serviceClient.List tr) (fun pg => pg.Items)
    (fun _ acc pg => decide ((acc.length : Int) ≥ pg.Total))
    (fun o => { o with PageNum := o.PageNum + 1 }) servicesRequest
    { opts with PageNum := 1,
                PageSize := if opts.PageSize = 0 then 100 else opts.PageSize }
    (fun p => (pg p).Items) (fun p => (pg p).Total) (m + 1) (services_sent tr)
    (by
      intro i hi w0
      refine ⟨pg (i + 1), ?_, rfl, fun acc => rfl⟩
      rw [services_iterate_start]
      exact hserve (i + 1) (by omega) (by omega) w0)
    hcont hstop m 0 [] w extra (by omega) rfl
  obtain ⟨w1, h1, h2⟩ := this
  refine ⟨w1, by simpa using h1, ?_⟩
  rw [h2]
  congr 1
  apply List.map_congr_left
  intro j _
  rw [Nat.zero_add, services_iterate_start]

/-- Every answer succeeds with the same total `T`: done, without error, after
at most `max 1 T` requests. -/
theorem services_fixed_total (opts : ListServicesOptions) (T : Int)
    (hall : ∀ (o : ListServicesOptions) (w0 : World σ), ∃ pg,
      (serviceClient.List tr o w0).1 = Except.ok pg ∧ pg.Total = T)
    (w : World σ) (extra : Nat) :
    ∃ r, serviceClient.ListAll tr ((max 1 T).toNat + extra) opts w = Run.done r ∧
      r.err = none ∧ r.world.sent.length ≤ w.sent.length + (max 1 T).toNat := by
  rw [services_start]
  have hd : (max 1 T).toNat = ((max 1 T).toNat - 1) + 1 := by omega
  rw [hd]
  apply fixed_total_bound (serviceClient.List tr) (fun pg => pg.Items)
    (fun _ acc pg => decide ((acc.length : Int) ≥ pg.Total))
    (fun o => { o with PageNum := o.PageNum + 1 }) servicesRequest T (services_sent tr)
  · intro o w0
    obtain ⟨pg, h1, h2⟩ := hall o w0
    exact ⟨pg, h1, fun acc => by simp [h2]⟩
  · simp only [List.length_nil, Nat.cast_zero, sub_zero]
    omega

/-- Total under-reported as `T < N`: the first `max 1 (ceil (T/S)) * S` items
after `max 1 (ceil (T/S))` requests. -/
theorem services_under (opts : ListServicesOptions) (data : List α) (S T : Nat)
    (hS : 1 ≤ S) (hps : opts.PageSize = S) (hT : T < data.length)
    (hf : FaithfulServices tr opts data S (T : Int) (max 1 (ceilDiv T S)))
    (w : World σ) (extra : Nat) :
    ∃ w1, serviceClient.ListAll tr (max 1 (ceilDiv T S) + extra) opts w =
        Run.done ⟨data.take (max 1 (ceilDiv T S) * S), none, w1⟩ ∧
      w1.sent = w.sent ++ (List.range (max 1 (ceilDiv T S))).map
        (fun j => servicesRequest { opts with PageNum := ((j + 1 : Nat) : Int) }) := by
  have hne : opts.PageSize ≠ 0 := by rw [hps]; exact_mod_cast (by omega : S ≠ 0)
  rw [services_start, ← services_reqs opts hne]
  apply under_run (serviceClient.List tr) (fun pg => pg.Items) _ _ servicesRequest data S _
    T (max 1 (ceilDiv T S) - 1) hS hT (services_sent tr)
  · intro i hi w0
    obtain ⟨pg, h1, h2, h3⟩ := services_pages tr opts data S (T : Int) _ hne hf i
      (by omega) w0
    exact ⟨pg, h1, h2, by intro acc; simp [h3]⟩
  · omega

end ServicesMore

section RecordsMore

variable {σ ε α : Type} (tr : Transport σ ε (RecordList α))

theorem records_iterate_start (opts : ListRecordOptions) (i : Nat) :
    (fun o : ListRecordOptions => { o with PageNum := o.PageNum + 1 })^[i]
        { opts with PageNum := 1,
                    PageSize := if opts.PageSize = 0 then 100 else opts.PageSize } =
      { opts with PageNum := ((i + 1 : Nat) : Int),
                  PageSize := if opts.PageSize = 0 then 100 else opts.PageSize } := by
  rw [records_iterate]
  simp only [Nat.cast_add, Nat.cast_one]
  rw [Int.add_comm]

/-- Requests of a run: the options of the caller with `PageNum` running from
1 and the page size defaulted, nothing else changed. -/
theorem records_frame (opts : ListRecordOptions) (w : World σ) (fuel : Nat) :
    ∃ n, n ≤ fuel ∧ (recordClient.ListAllRecord tr fuel opts w).world.sent =
      w.sent ++ (List.range n).map (fun j => recordsRequest
        { opts with PageNum := ((j + 1 : Nat) : Int),
                    PageSize := if opts.PageSize = 0 then 100 else opts.PageSize }) := by
  rw [records_start]
  obtain ⟨n, hn, _, hsent⟩ := pageLoop_sent (recordClient.ListRecord tr) (fun pg => pg.Items)
    (fun _ acc pg => decide ((acc.length : Int) ≥ pg.Total))
    (fun o => { o with PageNum := o.PageNum + 1 }) recordsRequest (records_sent tr)
    fuel { opts with PageNum := 1,
                     PageSize := if opts.PageSize = 0 then 100 else opts.PageSize } [] w
  refine ⟨n, hn, ?_⟩
  rw [hsent]
  congr 1
  apply List.map_congr_left
  intro j _
  rw [records_iterate_start]

/-- Arbitrary successful pages: the items of pages `1 .. k` after `k`
requests, `k` the first page that is empty or completes the count. -/
theorem records_script (opts : ListRecordOptions) (pg : Nat → RecordList α) (k : Nat)
    (hk : 1 ≤ k)
    (hserve : ∀ p : Nat, 1 ≤ p → p ≤ k → ∀ w0 : World σ,
      (recordClient.ListRecord tr
        { opts with PageNum := (p : Int),
                    PageSize := if opts.PageSize = 0 then 100 else opts.PageSize } w0).1 =
        Except.ok (pg p))
    (hcont : ∀ j, 1 ≤ j → j < k → (pg j).Items ≠ [] ∧
      ¬ (pg j).Total ≤ ((concatPages (fun p => (pg p).Items) j).length : Int))
    (hstop : (pg k).Items = [] ∨
      (pg k).Total ≤ ((concatPages (fun p => (pg p).Items) k).length : Int))
    (w : World σ) (extra : Nat) :
    ∃ w1, recordClient.ListAllRecord tr (k + extra) opts w =
        Run.done ⟨concatPages (fun p => (pg p).Items) k, none, w1⟩ ∧
      w1.sent = w.sent ++ (List.range k).map (fun j => recordsRequest
        { opts with PageNum := ((j + 1 : Nat) : Int),
                    PageSize := if opts.PageSize = 0 then 100 else opts.PageSize }) := by
  rw [records_start]
  obtain ⟨m, rfl⟩ : ∃ m, k = m + 1 := ⟨k - 1, by omega⟩
  have := script_run (recordClient.ListRecord tr) (fun pg => pg.Items)
    (fun _ acc pg => decide ((acc.length : Int) ≥ pg.Total))
    (fun o => { o with PageNum := o.PageNum + 1 }) recordsRequest
    { opts with PageNum := 1,
                PageSize := if opts.PageSize = 0 then 100 else opts.PageSize }
    (fun p => (pg p).Items) (fun p => (pg p).Total) (m + 1) (records_sent tr)
    (by
      intro i hi w0
      refine ⟨pg (i + 1), ?_, rfl, fun acc => rfl⟩
      rw [records_iterate_start]
      exact hserve (i + 1) (by omega) (by omega) w0)
    hcont hstop m 0 [] w extra (by omega) rfl
  obtain ⟨w1, h1, h2⟩ := this
  refine ⟨w1, by simpa using h1, ?_⟩
  rw [h2]
  congr 1
  apply List.map_congr_left
  intro j _
  rw [Nat.zero_add, records_iterate_start]

/-- Every answer succeeds with the same total `T`: done, without error, after
at most `max 1 T` requests. -/
theorem records_fixed_total (opts : ListRecordOptions) (T : Int)
    (hall : ∀ (o : ListRecordOptions) (w0 : World σ), ∃ pg,
      (recordClient.ListRecord tr o w0).1 = Except.ok pg ∧ pg.Total = T)
    (w : World σ) (extra : Nat) :
    ∃ r, recordClient.ListAllRecord tr ((max 1 T).toNat + extra) opts w = Run.done r ∧
      r.err = none ∧ r.world.sent.length ≤ w.sent.length + (max 1 T).toNat := by
  rw [records_start]
  have hd : (max 1 T).toNat = ((max 1 T).toNat - 1) + 1 := by omega
  rw [hd]
  apply fixed_total_bound (recordClient.ListRecord tr) (fun pg => pg.Items)
    (fun _ acc pg => decide ((acc.length : Int) ≥ pg.Total))
    (fun o => { o with PageNum := o.PageNum + 1 }) recordsRequest T (records_sent tr)
  · intro o w0
    obtain ⟨pg, h1, h2⟩ := hall o w0
    exact ⟨pg, h1, fun acc => by simp [h2]⟩
  · simp only [List.length_nil, Nat.cast_zero, sub_zero]
    omega

/-- Total under-reported as `T < N`: the first `max 1 (ceil (T/S)) * S` items
after `max 1 (ceil (T/S))` requests. -/
theorem records_under (opts : ListRecordOptions) (data : List α) (S T : Nat)
    (hS : 1 ≤ S) (hps : opts.PageSize = S) (hT : T < data.length)
    (hf : FaithfulRecords tr opts data S (T : Int) (max 1 (ceilDiv T S)))
    (w : World σ) (extra : Nat) :
    ∃ w1, recordClient.ListAllRecord tr (max 1 (ceilDiv T S) + extra) opts w =
        Run.done ⟨data.take (max 1 (ceilDiv T S) * S), none, w1⟩ ∧
      w1.sent = w.sent ++ (List.range (max 1 (ceilDiv T S))).map
        (fun j => recordsRequest { opts with PageNum := ((j + 1 : Nat) : Int) }) := by
  have hne : opts.PageSize ≠ 0 := by rw [hps]; exact_mod_cast (by omega : S ≠ 0)
  rw [records_start, ← records_reqs opts hne]
  apply under_run (recordClient.ListRecord tr) (fun pg => pg.Items) _ _ recordsRequest data S _
    T (max 1 (ceilDiv T S) - 1) hS hT (records_sent tr)
  · intro i hi w0
    obtain ⟨pg, h1, h2, h3⟩ := records_pages tr opts data S (T : Int) _ hne hf i
      (by omega) w0
    exact ⟨pg, h1, h2, by intro acc; simp [h3]⟩
  · omega

end RecordsMore

section MicroMore

variable {σ ε α : Type} (tr : Transport σ ε (MicroServiceList α))

theorem micro_iterate_start (opts : ListMicroServicesOptions) (i : Nat) :
    (fun o : ListMicroServicesOptions => { o with PageNum := o.PageNum + 1 })^[i]
        { opts with PageNum := 1,
                    PageSize := if opts.PageSize = 0 then 100 else opts.PageSize } =
      { opts with PageNum := ((i + 1 : Nat) : Int),
                  PageSize := if opts.PageSize = 0 then 100 else opts.PageSize } := by
  rw [micro_iterate]
  simp only [Nat.cast_add, Nat.cast_one]
  rw [Int.add_comm]

/-- Requests of a run: the options of the caller with `PageNum` running from
1 and the page size defaulted, nothing else changed. -/
theorem micro_frame (opts : ListMicroServicesOptions) (w : World σ) (fuel : Nat) :
    ∃ n, n ≤ fuel ∧ (MicroserviceClient.ListAllMicroService tr fuel opts w).world.sent =
      w.sent ++ (List.range n).map (fun j => microServicesRequest
        { opts with PageNum := ((j + 1 : Nat) : Int),
                    PageSize := if opts.PageSize = 0 then 100 else opts.PageSize }) := by
  rw [micro_start]
  obtain ⟨n, hn, _, hsent⟩ := pageLoop_sent (MicroserviceClient.ListMicroService tr) (fun pg => pg.Items)
    (fun _ acc pg => decide ((acc.length : Int) ≥ pg.Total))
    (fun o => { o with PageNum := o.PageNum + 1 }) microServicesRequest (micro_sent tr)
    fuel { opts with PageNum := 1,
                     PageSize := if opts.PageSize = 0 then 100 else opts.PageSize } [] w
  refine ⟨n, hn, ?_⟩
  rw [hsent]
  congr 1
  apply List.map_congr_left
  intro j _
  rw [micro_iterate_start]

/-- Arbitrary successful pages: the items of pages `1 .. k` after `k`
requests, `k` the first page that is empty or completes the count. -/
theorem micro_script (opts : ListMicroServicesOptions) (pg : Nat → MicroServiceList α) (k : Nat)
    (hk : 1 ≤ k)
    (hserve : ∀ p : Nat, 1 ≤ p → p ≤ k → ∀ w0 : World σ,
      (MicroserviceClient.ListMicroService tr
        { opts with PageNum := (p : Int),
                    PageSize := if opts.PageSize = 0 then 100 else opts.PageSize } w0).1 =
        Except.ok (pg p))
    (hcont : ∀ j, 1 ≤ j → j < k → (pg j).Items ≠ [] ∧
      ¬ (pg j).Total ≤ ((concatPages (fun p => (pg p).Items) j).length : Int))
    (hstop : (pg k).Items = [] ∨
      (pg k).Total ≤ ((concatPages (fun p => (pg p).Items) k).length : Int))
    (w : World σ) (extra : Nat) :
    ∃ w1, MicroserviceClient.ListAllMicroService tr (k + extra) opts w =
        Run.done ⟨concatPages (fun p => (pg p).Items) k, none, w1⟩ ∧
      w1.sent = w.sent ++ (List.range k).map (fun j => microServicesRequest
        { opts with PageNum := ((j + 1 : Nat) : Int),
                    PageSize := if opts.PageSize = 0 then 100 else opts.PageSize }) := by
  rw [micro_start]
  obtain ⟨m, rfl⟩ : ∃ m, k = m + 1 := ⟨k - 1, by omega⟩
  have := script_run (MicroserviceClient.ListMicroService tr) (fun pg => pg.Items)
    (fun _ acc pg => decide ((acc.length : Int) ≥ pg.Total))
    (fun o => { o with PageNum := o.PageNum + 1 }) microServicesRequest
    { opts with PageNum := 1,
                PageSize := if opts.PageSize = 0 then 100 else opts.PageSize }
    (fun p => (pg p).Items) (fun p => (pg p).Total) (m + 1) (micro_sent tr)
    (by
      intro i hi w0
      refine ⟨pg (i + 1), ?_, rfl, fun acc => rfl⟩
      rw [micro_iterate_start]
      exact hserve (i + 1) (by omega) (by omega) w0)
    hcont hstop m 0 [] w extra (by omega) rfl
  obtain ⟨w1, h1, h2⟩ := this
  refine ⟨w1, by simpa using h1, ?_⟩
  rw [h2]
  congr 1
  apply List.map_congr_left
  intro j _
  rw [Nat.zero_add, micro_iterate_start]

/-- Every answer succeeds with the same total `T`: done, without error, after
at most `max 1 T` requests. -/
theorem micro_fixed_total (opts : ListMicroServicesOptions) (T : Int)
    (hall : ∀ (o : ListMicroServicesOptions) (w0 : World σ), ∃ pg,
      (MicroserviceClient.ListMicroService tr o w0).1 = Except.ok pg ∧ pg.Total = T)
    (w : World σ) (extra : Nat) :
    ∃ r, MicroserviceClient.ListAllMicroService tr ((max 1 T).toNat + extra) opts w = Run.done r ∧
      r.err = none ∧ r.world.sent.length ≤ w.sent.length + (max 1 T).toNat := by
  rw [micro_start]
  have hd : (max 1 T).toNat = ((max 1 T).toNat - 1) + 1 := by omega
  rw [hd]
  apply fixed_total_bound (MicroserviceClient.ListMicroService tr) (fun pg => pg.Items)
    (fun _ acc pg => decide ((acc.length : Int) ≥ pg.Total))
    (fun o => { o with PageNum := o.PageNum + 1 }) microServicesRequest T (micro_sent tr)
  · intro o w0
    obtain ⟨pg, h1, h2⟩ := hall o w0
    exact ⟨pg, h1, fun acc => by simp [h2]⟩
  · simp only [List.length_nil, Nat.cast_zero, sub_zero]
    omega

/-- Total under-reported as `T < N`: the first `max 1 (ceil (T/S)) * S` items
after `max 1 (ceil (T/S))` requests. -/
theorem micro_under (opts : ListMicroServicesOptions) (data : List α) (S T : Nat)
    (hS : 1 ≤ S) (hps : opts.PageSize = S) (hT : T < data.length)
    (hf : FaithfulMicroServices tr opts data S (T : Int) (max 1 (ceilDiv T S)))
    (w : World σ) (extra : Nat) :
    ∃ w1, MicroserviceClient.ListAllMicroService tr (max 1 (ceilDiv T S) + extra) opts w =
        Run.done ⟨data.take (max 1 (ceilDiv T S) * S), none, w1⟩ ∧
      w1.sent = w.sent ++ (List.range (max 1 (ceilDiv T S))).map
        (fun j => microServicesRequest { opts with PageNum := ((j + 1 : Nat) : Int) }) := by
  have hne : opts.PageSize ≠ 0 := by rw [hps]; exact_mod_cast (by omega : S ≠ 0)
  rw [micro_start, ← micro_reqs opts hne]
  apply under_run (MicroserviceClient.ListMicroService tr) (fun pg => pg.Items) _ _ microServicesRequest data S _
    T (max 1 (ceilDiv T S) - 1) hS hT (micro_sent tr)
  · intro i hi w0
    obtain ⟨pg, h1, h2, h3⟩ := micro_pages tr opts data S (T : Int) _ hne hf i
      (by omega) w0
    exact ⟨pg, h1, h2, by intro acc; simp [h3]⟩
  · omega

end MicroMore

section ConfigsMore

variable {σ ε α : Type} (tr : Transport σ ε (List α))

theorem configs_iterate_start (opts : ListConfigsOptions) (i : Nat) :
    (fun o : ListConfigsOptions => { o with PageNum := o.PageNum + 1 })^[i]
        { opts with PageNum := 1,
                    PageSize := if opts.PageSize = 0 then 100 else opts.PageSize } =
      { opts with PageNum := ((i + 1 : Nat) : Int),
                  PageSize := if opts.PageSize = 0 then 100 else opts.PageSize } := by
  rw [configs_iterate]
  simp only [Nat.cast_add, Nat.cast_one]
  rw [Int.add_comm]

/-- Requests of a run: the options of the caller with `PageNum` running from
1 and the page size defaulted, nothing else changed. -/
theorem configs_frame (opts : ListConfigsOptions) (w : World σ) (fuel : Nat) :
    ∃ n, n ≤ fuel ∧ (configClient.ListAllConfig tr fuel opts w).world.sent =
      w.sent ++ (List.range n).map (fun j => configsRequest
        { opts with PageNum := ((j + 1 : Nat) : Int),
                    PageSize := if opts.PageSize = 0 then 100 else opts.PageSize }) := by
  rw [configs_start]
  obtain ⟨n, hn, _, hsent⟩ := pageLoop_sent (configClient.ListConfig tr) (fun pg => pg)
    (fun o _ pg => decide ((pg.length : Int) < o.PageSize))
    (fun o => { o with PageNum := o.PageNum + 1 }) configsRequest (configs_sent tr)
    fuel { opts with PageNum := 1,
                     PageSize := if opts.PageSize = 0 then 100 else opts.PageSize } [] w
  refine ⟨n, hn, ?_⟩
  rw [hsent]
  congr 1
  apply List.map_congr_left
  intro j _
  rw [configs_iterate_start]

end ConfigsMore

theorem div_succ_eq_ceilDiv_add (N S : Nat) (hS : 1 ≤ S) :
    N / S + 1 = max 1 (ceilDiv N S) + (if 0 < N ∧ S ∣ N then 1 else 0) := by
  have h1 := Nat.div_add_mod N S
  have h2 := Nat.mod_lt N (show 0 < S by omega)
  have h4 := Nat.mul_comm S (N / S)
  by_cases hd : S ∣ N
  · have h3 : N % S = 0 := Nat.mod_eq_zero_of_dvd hd
    have hc : ceilDiv N S = N / S := by
      unfold ceilDiv
      apply Nat.div_eq_of_lt_le
      · omega
      · rw [Nat.succ_mul]; omega
    rcases Nat.eq_zero_or_pos N with h0 | hpos
    · subst h0
      simp [hc]
    · have hq : 1 ≤ N / S := by
        rw [Nat.one_le_div_iff (by omega)]
        exact Nat.le_of_dvd hpos hd
      simp only [hpos, hd, and_self, if_true, hc]
      omega
  · have h3 : N % S ≠ 0 := fun h0 => hd (Nat.dvd_of_mod_eq_zero h0)
    have hc : ceilDiv N S = N / S + 1 := by
      unfold ceilDiv
      apply Nat.div_eq_of_lt_le
      · rw [Nat.succ_mul] at *; omega
      · rw [Nat.succ_mul, Nat.succ_mul]; omega
    simp only [hd, and_false, if_false, hc]
    generalize N / S = q
    omega

theorem pageNums_of_sent {O : Type} (reqOf : O → Request) (at_ : Int → O) (k : Nat)
    (pre sent : List Request)
    (hp : ∀ n : Int, (reqOf (at_ n)).getParam "pageNum" = some (Itoa n))
    (hs : sent = pre ++ (List.range k).map (fun j => reqOf (at_ ((j + 1 : Nat) : Int)))) :
    (sent.drop pre.length).map (fun r => r.getParam "pageNum") =
      (List.range k).map (fun j => some (Itoa ((j + 1 : Nat) : Int))) := by
  rw [hs, List.drop_left, List.map_map]
  apply List.map_congr_left
  intro j _
  simp only [Function.comp_apply, hp]

/-! ## Further claims about the pagination traversal -/

/-- C25 (count-based traversal characterisation): for every sequence of
successful page responses `pg 1, pg 2, ...`, each with its own items and
total, if `k ≥ 1` is the least index such that page `k` has zero items or the
total length of pages `1 .. k` is at least the total of page `k`, then each
count-based list-all issues exactly `k` requests, with `pageNum = 1, 2, ...,
k` in that order, and returns with no error the concatenation of the items
of pages `1 .. k` in page order and in-page order. -/
theorem C25_count_based_characterisation {σ ε α : Type} (k : Nat) (hk : 1 ≤ k)
    (extra : Nat) :
    (∀ (tr : Transport σ ε (ServiceList α)) (opts : ListServicesOptions) (w : World σ)
        (pg : Nat → ServiceList α),
      (∀ p : Nat, 1 ≤ p → p ≤ k → ∀ w0 : World σ,
        (serviceClient.List tr
          { opts with PageNum := (p : Int),
                      PageSize := if opts.PageSize = 0 then 100 else opts.PageSize } w0).1 =
          Except.ok (pg p)) →
      (∀ j, 1 ≤ j → j < k → (pg j).Items ≠ [] ∧
        ¬ (pg j).Total ≤ ((concatPages (fun p => (pg p).Items) j).length : Int)) →
      ((pg k).Items = [] ∨
        (pg k).Total ≤ ((concatPages (fun p => (pg p).Items) k).length : Int)) →
      ∃ w1, serviceClient.ListAll tr (k + extra) opts w =
          Run.done ⟨concatPages (fun p => (pg p).Items) k, none, w1⟩ ∧
        (w1.sent.drop w.sent.length).map (fun r => r.getParam "pageNum") =
          (List.range k).map (fun j => some (Itoa ((j + 1 : Nat) : Int)))) ∧
    (∀ (tr : Transport σ ε (RecordList α)) (opts : ListRecordOptions) (w : World σ)
        (pg : Nat → RecordList α),
      (∀ p : Nat, 1 ≤ p → p ≤ k → ∀ w0 : World σ,
        (recordClient.ListRecord tr
          { opts with PageNum := (p : Int),
                      PageSize := if opts.PageSize = 0 then 100 else opts.PageSize } w0).1 =
          Except.ok (pg p)) →
      (∀ j, 1 ≤ j → j < k → (pg j).Items ≠ [] ∧
        ¬ (pg j).Total ≤ ((concatPages (fun p => (pg p).Items) j).length : Int)) →
      ((pg k).Items = [] ∨
        (pg k).Total ≤ ((concatPages (fun p => (pg p).Items) k).length : Int)) →
      ∃ w1, recordClient.ListAllRecord tr (k + extra) opts w =
          Run.done ⟨concatPages (fun p => (pg p).Items) k, none, w1⟩ ∧
        (w1.sent.drop w.sent.length).map (fun r => r.getParam "pageNum") =
          (List.range k).map (fun j => some (Itoa ((j + 1 : Nat) : Int)))) ∧
    (∀ (tr : Transport σ ε (MicroServiceList α)) (opts : ListMicroServicesOptions)
        (w : World σ) (pg : Nat → MicroServiceList α),
      (∀ p : Nat, 1 ≤ p → p ≤ k → ∀ w0 : World σ,
        (MicroserviceClient.ListMicroService tr
          { opts with PageNum := (p : Int),
                      PageSize := if opts.PageSize = 0 then 100 else opts.PageSize } w0).1 =
          Except.ok (pg p)) →
      (∀ j, 1 ≤ j → j < k → (pg j).Items ≠ [] ∧
        ¬ (pg j).Total ≤ ((concatPages (fun p => (pg p).Items) j).length : Int)) →
      ((pg k).Items = [] ∨
        (pg k).Total ≤ ((concatPages (fun p => (pg p).Items) k).length : Int)) →
      ∃ w1, MicroserviceClient.ListAllMicroService tr (k + extra) opts w =
          Run.done ⟨concatPages (fun p => (pg p).Items) k, none, w1⟩ ∧
        (w1.sent.drop w.sent.length).map (fun r => r.getParam "pageNum") =
          (List.range k).map (fun j => some (Itoa ((j + 1 : Nat) : Int)))) := by
  refine ⟨?_, ?_, ?_⟩
  · intro tr opts w pg hserve hcont hstop
    obtain ⟨w1, h1, h2⟩ := services_script tr opts pg k hk hserve hcont hstop w extra
    exact ⟨w1, h1, pageNums_of_sent servicesRequest
      (fun n => { opts with PageNum := n,
                            PageSize := if opts.PageSize = 0 then 100 else opts.PageSize })
      k _ _ (fun n => services_pageNum _) h2⟩
  · intro tr opts w pg hserve hcont hstop
    obtain ⟨w1, h1, h2⟩ := records_script tr opts pg k hk hserve hcont hstop w extra
    exact ⟨w1, h1, pageNums_of_sent recordsRequest
      (fun n => { opts with PageNum := n,
                            PageSize := if opts.PageSize = 0 then 100 else opts.PageSize })
      k _ _ (fun n => records_pageNum _) h2⟩
  · intro tr opts w pg hserve hcont hstop
    obtain ⟨w1, h1, h2⟩ := micro_script tr opts pg k hk hserve hcont hstop w extra
    exact ⟨w1, h1, pageNums_of_sent microServicesRequest
      (fun n => { opts with PageNum := n,
                            PageSize := if opts.PageSize = 0 then 100 else opts.PageSize })
      k _ _ (fun n => micro_pageNum _) h2⟩

/-- C25, worked instance: page 1 carries `[10, 20]` with total 5, page 2
carries `[30]` with total 3; the traversal stops at page 2 with
`[10, 20, 30]`. -/
theorem C25_count_based_characterisation_witness :
    (1 ≤ 2) ∧
    (∃ w1, serviceClient.ListAll (scriptedServer demoServicePages ⟨0, 0, 0, []⟩) 2
        (demoServices 2) world0 = Run.done ⟨[10, 20, 30], none, w1⟩ ∧
      (w1.sent.drop world0.sent.length).map (fun r => r.getParam "pageNum") =
        [some "1", some "2"]) ∧
    (∃ w1, recordClient.ListAllRecord (scriptedServer demoRecordPages ⟨0, 0, 0, []⟩) 2
        (demoRecords 2) world0 = Run.done ⟨[10, 20, 30], none, w1⟩ ∧
      (w1.sent.drop world0.sent.length).map (fun r => r.getParam "pageNum") =
        [some "1", some "2"]) ∧
    (∃ w1, MicroserviceClient.ListAllMicroService
        (scriptedServer demoMicroPages ⟨0, 0, 0, []⟩) 2
        (demoMicroServices 2) world0 = Run.done ⟨[10, 20, 30], none, w1⟩ ∧
      (w1.sent.drop world0.sent.length).map (fun r => r.getParam "pageNum") =
        [some "1", some "2"]) :=
  ⟨by decide,
    (@C25_count_based_characterisation Unit String Nat 2 (by decide) 0).1
      (scriptedServer demoServicePages ⟨0, 0, 0, []⟩) (demoServices 2) world0
      (fun p => demoServicePages.getD (p - 1) ⟨0, 0, 0, []⟩)
      (by intro p h1 h2 w0; interval_cases p <;> rfl)
      (by intro j h1 h2; interval_cases j; exact ⟨by decide, by decide⟩)
      (Or.inr (by decide)),
    (@C25_count_based_characterisation Unit String Nat 2 (by decide) 0).2.1
      (scriptedServer demoRecordPages ⟨0, 0, 0, []⟩) (demoRecords 2) world0
      (fun p => demoRecordPages.getD (p - 1) ⟨0, 0, 0, []⟩)
      (by intro p h1 h2 w0; interval_cases p <;> rfl)
      (by intro j h1 h2; interval_cases j; exact ⟨by decide, by decide⟩)
      (Or.inr (by decide)),
    (@C25_count_based_characterisation Unit String Nat 2 (by decide) 0).2.2
      (scriptedServer demoMicroPages ⟨0, 0, 0, []⟩) (demoMicroServices 2) world0
      (fun p => demoMicroPages.getD (p - 1) ⟨0, 0, 0, []⟩)
      (by intro p h1 h2 w0; interval_cases p <;> rfl)
      (by intro j h1 h2; interval_cases j; exact ⟨by decide, by decide⟩)
      (Or.inr (by decide))⟩

/-- C26 (filters are framed across pages): for each of the four list-all
operations, every transport, options value and budget, the requests issued
are, in order, the requests the single-page operation sends for the caller's
options with `PageNum` set to 1, 2, 3, ... and the page size defaulted:
every other field (the resource-specific filters) is the caller's, so only
`pageNum` differs between requests.  The options are a by-value parameter,
so the caller's own value is not touched. -/
theorem C26_filters_framed {σ ε α : Type} (fuel : Nat) :
    (∀ (tr : Transport σ ε (ServiceList α)) (opts : ListServicesOptions) (w : World σ),
      (∃ n, n ≤ fuel ∧ (serviceClient.ListAll tr fuel opts w).world.sent =
        w.sent ++ (List.range n).map (fun j => servicesRequest
          { opts with PageNum := ((j + 1 : Nat) : Int),
                      PageSize := if opts.PageSize = 0 then 100 else opts.PageSize })) ∧
      ∀ (o : ListServicesOptions) (w0 : World σ),
        (serviceClient.List tr o w0).2.sent = w0.sent ++ [servicesRequest o]) ∧
    (∀ (tr : Transport σ ε (RecordList α)) (opts : ListRecordOptions) (w : World σ),
      (∃ n, n ≤ fuel ∧ (recordClient.ListAllRecord tr fuel opts w).world.sent =
        w.sent ++ (List.range n).map (fun j => recordsRequest
          { opts with PageNum := ((j + 1 : Nat) : Int),
                      PageSize := if opts.PageSize = 0 then 100 else opts.PageSize })) ∧
      ∀ (o : ListRecordOptions) (w0 : World σ),
        (recordClient.ListRecord tr o w0).2.sent = w0.sent ++ [recordsRequest o]) ∧
    (∀ (tr : Transport σ ε (MicroServiceList α)) (opts : ListMicroServicesOptions)
        (w : World σ),
      (∃ n, n ≤ fuel ∧ (MicroserviceClient.ListAllMicroService tr fuel opts w).world.sent =
        w.sent ++ (List.range n).map (fun j => microServicesRequest
          { opts with PageNum := ((j + 1 : Nat) : Int),
                      PageSize := if opts.PageSize = 0 then 100 else opts.PageSize })) ∧
      ∀ (o : ListMicroServicesOptions) (w0 : World σ),
        (MicroserviceClient.ListMicroService tr o w0).2.sent =
          w0.sent ++ [microServicesRequest o]) ∧
    (∀ (tr : Transport σ ε (List α)) (opts : ListConfigsOptions) (w : World σ),
      (∃ n, n ≤ fuel ∧ (configClient.ListAllConfig tr fuel opts w).world.sent =
        w.sent ++ (List.range n).map (fun j => configsRequest
          { opts with PageNum := ((j + 1 : Nat) : Int),
                      PageSize := if opts.PageSize = 0 then 100 else opts.PageSize })) ∧
      ∀ (o : ListConfigsOptions) (w0 : World σ),
        (configClient.ListConfig tr o w0).2.sent = w0.sent ++ [configsRequest o]) :=
  ⟨fun tr opts w => ⟨services_frame tr opts w fuel, services_sent tr⟩,
   fun tr opts w => ⟨records_frame tr opts w fuel, records_sent tr⟩,
   fun tr opts w => ⟨micro_frame tr opts w fuel, micro_sent tr⟩,
   fun tr opts w => ⟨configs_frame tr opts w fuel, configs_sent tr⟩⟩

/-- C27, refuted as stated: five items are served faithfully in pages of two
with total 5 to `Services.ListAll` and in pages of two to `ListAllConfig`,
both called with `PageSize = 3`.  The count-based traversal returns the five
items after three requests; the short-page traversal returns the first two
after one request, because a page of two is shorter than the three it asked
for.  The two policies return different sequences. -/
theorem C27_counterexample :
    (∀ opts : ListServicesOptions,
      FaithfulServices (servicesServer demoData 2 5) opts demoData 2 5 3) ∧
    (∀ opts : ListConfigsOptions,
      FaithfulConfigs (configsServer demoData 2) opts demoData 2 3) ∧
    (∃ w1, serviceClient.ListAll (servicesServer demoData 2 5) 3 (demoServices 3) world0 =
        Run.done ⟨demoData, none, w1⟩ ∧ w1.sent.length = 3) ∧
    (∃ w2, configClient.ListAllConfig (configsServer demoData 2) 3 (demoConfigs 3) world0 =
        Run.done ⟨[10, 20], none, w2⟩ ∧ w2.sent.length = 1) ∧
    ([10, 20] : List Nat) ≠ demoData :=
  ⟨fun opts => demo_services_faithful_any opts 2 5 3 (by decide),
    fun opts => demo_configs_faithful_any opts 2 3 (by decide),
    ⟨_, rfl, rfl⟩, ⟨_, rfl, rfl⟩, by decide⟩

/-- C27 (amended; the two termination policies agree on consistent servers):
for every dataset of `N ≥ 0` items and page length `S ≥ 1` served faithfully
(page `p` holds positions `(p-1)*S .. min(p*S, N)-1`, total `N`) to the
requests the traversals issue, where `S` is the page size the short-page
traversal requests (the `ListAllConfig` caller's `PageSize`, or 100 when left
0) and the count-based caller may ask for any page size: `Services.ListAll`
and `ListAllConfig` both return exactly the dataset, and `ListAllConfig`
issues the same number of requests as `Services.ListAll`, except when `N > 0`
and `S` divides `N`, where it issues exactly one more. -/
theorem C27_policies_agree {σ ε α : Type} (data : List α) (S : Nat) (hS : 1 ≤ S)
    (fuel : Nat) (hfuel : data.length / S + 1 ≤ fuel)
    (trS : Transport σ ε (ServiceList α)) (oS : ListServicesOptions) (wS : World σ)
    (hfS : FaithfulServices trS
      { oS with PageSize := if oS.PageSize = 0 then 100 else oS.PageSize }
      data S data.length (data.length / S + 1))
    (trC : Transport σ ε (List α)) (oC : ListConfigsOptions) (wC : World σ)
    (heff : (if oC.PageSize = 0 then 100 else oC.PageSize) = (S : Int))
    (hfC : FaithfulConfigs trC
      { oC with PageSize := if oC.PageSize = 0 then 100 else oC.PageSize }
      data S (data.length / S + 1)) :
    ∃ w1 w2 n,
      serviceClient.ListAll trS fuel oS wS = Run.done ⟨data, none, w1⟩ ∧
      configClient.ListAllConfig trC fuel oC wC = Run.done ⟨data, none, w2⟩ ∧
      w1.sent.length = wS.sent.length + n ∧
      w2.sent.length =
        wC.sent.length + n + (if 0 < data.length ∧ S ∣ data.length then 1 else 0) := by
  have harith := div_succ_eq_ceilDiv_add data.length S hS
  have hc : max 1 (ceilDiv data.length S) ≤ data.length / S + 1 := by
    rw [harith]; exact Nat.le_add_right _ _
  obtain ⟨e1, he1⟩ := Nat.exists_eq_add_of_le (le_trans hc hfuel)
  obtain ⟨e2, he2⟩ := Nat.exists_eq_add_of_le hfuel
  obtain ⟨w1, h1, hs1⟩ := services_exact_any trS oS data S hS
    (faithfulServices_mono trS _ data S _ _ _ hc hfS) wS e1
  obtain ⟨w2, h2, hs2⟩ := configs_short_any trC oC data S hS heff hfC wC e2
  refine ⟨w1, w2, max 1 (ceilDiv data.length S), by rw [he1]; exact h1,
    by rw [he2]; exact h2, hs1, ?_⟩
  rw [hs2, Nat.add_assoc, ← harith]

/-- C27 (amended), worked instances: five items in pages of two, the
count-based caller leaving the page size 0 and the short-page caller asking
for 2 (three requests each); and four items in pages of two, where the
short-page traversal takes one request more (three against two). -/
theorem C27_policies_agree_witness :
    (1 ≤ 2) ∧ (demoData.length / 2 + 1 ≤ 3) ∧
    (∃ w1 w2 n,
      serviceClient.ListAll (servicesServer demoData 2 5) 3 (demoServices 0) world0 =
        Run.done ⟨demoData, none, w1⟩ ∧
      configClient.ListAllConfig (configsServer demoData 2) 3 (demoConfigs 2) world0 =
        Run.done ⟨demoData, none, w2⟩ ∧
      w1.sent.length = world0.sent.length + n ∧
      w2.sent.length =
        world0.sent.length + n +
          (if 0 < demoData.length ∧ 2 ∣ demoData.length then 1 else 0)) ∧
    (∃ w1 w2,
      serviceClient.ListAll (servicesServer [10, 20, 30, 40] 2 4) 3 (demoServices 2) world0 =
        Run.done ⟨[10, 20, 30, 40], none, w1⟩ ∧
      configClient.ListAllConfig (configsServer [10, 20, 30, 40] 2) 3 (demoConfigs 2)
          world0 = Run.done ⟨[10, 20, 30, 40], none, w2⟩ ∧
      w1.sent.length = 2 ∧ w2.sent.length = 3) :=
  ⟨by decide, by decide,
    C27_policies_agree demoData 2 (by decide) 3 (by decide)
      (servicesServer demoData 2 5) (demoServices 0) world0
      (demo_services_faithful_any _ 2 5 _ (by decide))
      (configsServer demoData 2) (demoConfigs 2) world0 rfl
      (demo_configs_faithful_any _ 2 _ (by decide)),
    ⟨_, _, rfl, rfl, rfl, rfl⟩⟩

/-- C28 (bounded requests under a fixed total): for each count-based
list-all operation, if every page response succeeds and reports the same
total `T`, whatever the request and whatever items the pages carry, then
with a budget of `max 1 T` iterations the call returns, with no error, after
at most `max 1 T` page requests. -/
theorem C28_bounded_requests {σ ε α : Type} (T : Int) (extra : Nat) :
    (∀ (tr : Transport σ ε (ServiceList α)) (opts : ListServicesOptions) (w : World σ),
      (∀ (o : ListServicesOptions) (w0 : World σ), ∃ pg,
        (serviceClient.List tr o w0).1 = Except.ok pg ∧ pg.Total = T) →
      ∃ r, serviceClient.ListAll tr ((max 1 T).toNat + extra) opts w = Run.done r ∧
        r.err = none ∧ r.world.sent.length ≤ w.sent.length + (max 1 T).toNat) ∧
    (∀ (tr : Transport σ ε (RecordList α)) (opts : ListRecordOptions) (w : World σ),
      (∀ (o : ListRecordOptions) (w0 : World σ), ∃ pg,
        (recordClient.ListRecord tr o w0).1 = Except.ok pg ∧ pg.Total = T) →
      ∃ r, recordClient.ListAllRecord tr ((max 1 T).toNat + extra) opts w = Run.done r ∧
        r.err = none ∧ r.world.sent.length ≤ w.sent.length + (max 1 T).toNat) ∧
    (∀ (tr : Transport σ ε (MicroServiceList α)) (opts : ListMicroServicesOptions)
        (w : World σ),
      (∀ (o : ListMicroServicesOptions) (w0 : World σ), ∃ pg,
        (MicroserviceClient.ListMicroService tr o w0).1 = Except.ok pg ∧ pg.Total = T) →
      ∃ r, MicroserviceClient.ListAllMicroService tr ((max 1 T).toNat + extra) opts w =
          Run.done r ∧
        r.err = none ∧ r.world.sent.length ≤ w.sent.length + (max 1 T).toNat) :=
  ⟨fun tr opts w hall => services_fixed_total tr opts T hall w extra,
   fun tr opts w hall => records_fixed_total tr opts T hall w extra,
   fun tr opts w hall => micro_fixed_total tr opts T hall w extra⟩

/-- C28, worked instance: a server that ignores `pageNum` and always answers
one item with total 3 is left after three requests. -/
theorem C28_bounded_requests_witness :
    (∃ r, serviceClient.ListAll (constServer (⟨3, 1, 2, [7]⟩ : ServiceList Nat)) 3
        (demoServices 2) world0 = Run.done r ∧ r.err = none ∧
      r.world.sent.length ≤ world0.sent.length + 3) ∧
    (∃ r, recordClient.ListAllRecord (constServer (⟨3, 1, 2, [7]⟩ : RecordList Nat)) 3
        (demoRecords 2) world0 = Run.done r ∧ r.err = none ∧
      r.world.sent.length ≤ world0.sent.length + 3) ∧
    (∃ r, MicroserviceClient.ListAllMicroService
        (constServer (⟨3, 1, 2, [7]⟩ : MicroServiceList Nat)) 3
        (demoMicroServices 2) world0 = Run.done r ∧ r.err = none ∧
      r.world.sent.length ≤ world0.sent.length + 3) :=
  ⟨(@C28_bounded_requests Unit String Nat 3 0).1
      (constServer (⟨3, 1, 2, [7]⟩ : ServiceList Nat)) (demoServices 2) world0
      (fun o w0 => ⟨_, by rw [services_list_eq]; rfl, rfl⟩),
   (@C28_bounded_requests Unit String Nat 3 0).2.1
      (constServer (⟨3, 1, 2, [7]⟩ : RecordList Nat)) (demoRecords 2) world0
      (fun o w0 => ⟨_, by rw [records_list_eq]; rfl, rfl⟩),
   (@C28_bounded_requests Unit String Nat 3 0).2.2
      (constServer (⟨3, 1, 2, [7]⟩ : MicroServiceList Nat)) (demoMicroServices 2) world0
      (fun o w0 => ⟨_, by rw [micro_list_eq]; rfl, rfl⟩)⟩

theorem lt_max_ceilDiv_mul (T S : Nat) (hS : 1 ≤ S) (h : ¬ S ∣ T ∨ T = 0) :
    T < max 1 (ceilDiv T S) * S := by
  have h1 : ceilDiv T S * S ≤ max 1 (ceilDiv T S) * S :=
    Nat.mul_le_mul_right S (le_max_right 1 (ceilDiv T S))
  have h2 : 1 * S ≤ max 1 (ceilDiv T S) * S :=
    Nat.mul_le_mul_right S (le_max_left 1 (ceilDiv T S))
  rcases h with h | h
  · have h3 := le_ceilDiv_mul (S := S) T hS
    have h4 : T ≠ ceilDiv T S * S := fun e => h ⟨ceilDiv T S, by rw [Nat.mul_comm]; exact e⟩
    omega
  · omega

theorem take_under_facts {α : Type} (data : List α) (S T : Nat) (hS : 1 ≤ S)
    (hT : T < data.length) :
    (data.take (max 1 (ceilDiv T S) * S)).length =
        min data.length (S * max 1 (ceilDiv T S)) ∧
    (∃ rest, data = data.take (max 1 (ceilDiv T S) * S) ++ rest ∧
      ((data.take (max 1 (ceilDiv T S) * S)).length < data.length → rest ≠ [])) ∧
    T ≤ (data.take (max 1 (ceilDiv T S) * S)).length ∧
    ((¬ S ∣ T ∨ T = 0) → T < (data.take (max 1 (ceilDiv T S) * S)).length) := by
  have hlen : (data.take (max 1 (ceilDiv T S) * S)).length =
      min data.length (S * max 1 (ceilDiv T S)) := by
    rw [List.length_take, Nat.mul_comm, Nat.min_comm]
  have h1 : ceilDiv T S * S ≤ max 1 (ceilDiv T S) * S :=
    Nat.mul_le_mul_right S (le_max_right 1 (ceilDiv T S))
  have h3 := le_ceilDiv_mul (S := S) T hS
  refine ⟨hlen, ⟨data.drop (max 1 (ceilDiv T S) * S), (List.take_append_drop _ _).symm, ?_⟩,
    ?_, ?_⟩
  · intro hlt hnil
    have h5 := congrArg List.length (List.take_append_drop (max 1 (ceilDiv T S) * S) data)
    rw [hnil, List.append_nil] at h5
    omega
  · rw [List.length_take]
    exact Nat.le_min.mpr ⟨le_trans h3 h1, Nat.le_of_lt hT⟩
  · intro h
    rw [List.length_take]
    exact Nat.lt_min.mpr ⟨lt_max_ceilDiv_mul T S hS h, hT⟩

/-- C29 (an under-reported total truncates silently): for every dataset of
`N` items served faithfully in pages of size `S ≥ 1` by a server that reports
total `T` with `0 ≤ T < N` on every page, each count-based list-all operation
returns, with no error and after `max 1 ⌈T/S⌉` requests, the first
`min N (S * max 1 ⌈T/S⌉)` items of the dataset.  The result is followed in the
dataset by a remainder that is non-empty whenever the result is shorter than
`N`; it has at least `T` items, and strictly more than `T` whenever `T` is
zero or not a multiple of `S`. -/
theorem C29_under_reported_total {σ ε α : Type} (data : List α) (S T : Nat)
    (hS : 1 ≤ S) (hT : T < data.length) (fuel : Nat)
    (hfuel : max 1 (ceilDiv T S) ≤ fuel) :
    (∀ (tr : Transport σ ε (ServiceList α)) (opts : ListServicesOptions) (w : World σ),
      opts.PageSize = S →
      FaithfulServices tr opts data S (T : Int) (max 1 (ceilDiv T S)) →
      ∃ w1, serviceClient.ListAll tr fuel opts w =
          Run.done ⟨data.take (max 1 (ceilDiv T S) * S), none, w1⟩ ∧
        w1.sent.length = w.sent.length + max 1 (ceilDiv T S)) ∧
    (∀ (tr : Transport σ ε (RecordList α)) (opts : ListRecordOptions) (w : World σ),
      opts.PageSize = S →
      FaithfulRecords tr opts data S (T : Int) (max 1 (ceilDiv T S)) →
      ∃ w1, recordClient.ListAllRecord tr fuel opts w =
          Run.done ⟨data.take (max 1 (ceilDiv T S) * S), none, w1⟩ ∧
        w1.sent.length = w.sent.length + max 1 (ceilDiv T S)) ∧
    (∀ (tr : Transport σ ε (MicroServiceList α)) (opts : ListMicroServicesOptions)
        (w : World σ),
      opts.PageSize = S →
      FaithfulMicroServices tr opts data S (T : Int) (max 1 (ceilDiv T S)) →
      ∃ w1, MicroserviceClient.ListAllMicroService tr fuel opts w =
          Run.done ⟨data.take (max 1 (ceilDiv T S) * S), none, w1⟩ ∧
        w1.sent.length = w.sent.length + max 1 (ceilDiv T S)) ∧
    (data.take (max 1 (ceilDiv T S) * S)).length =
        min data.length (S * max 1 (ceilDiv T S)) ∧
    (∃ rest, data = data.take (max 1 (ceilDiv T S) * S) ++ rest ∧
      ((data.take (max 1 (ceilDiv T S) * S)).length < data.length → rest ≠ [])) ∧
    T ≤ (data.take (max 1 (ceilDiv T S) * S)).length ∧
    ((¬ S ∣ T ∨ T = 0) → T < (data.take (max 1 (ceilDiv T S) * S)).length) := by
  obtain ⟨e, he⟩ := Nat.exists_eq_add_of_le hfuel
  refine ⟨?_, ?_, ?_, take_under_facts data S T hS hT⟩
  · intro tr opts w hps hf
    obtain ⟨w1, h1, hs1⟩ := services_under tr opts data S T hS hps hT hf w e
    exact ⟨w1, by rw [he]; exact h1, by rw [hs1]; simp⟩
  · intro tr opts w hps hf
    obtain ⟨w1, h1, hs1⟩ := records_under tr opts data S T hS hps hT hf w e
    exact ⟨w1, by rw [he]; exact h1, by rw [hs1]; simp⟩
  · intro tr opts w hps hf
    obtain ⟨w1, h1, hs1⟩ := micro_under tr opts data S T hS hps hT hf w e
    exact ⟨w1, by rw [he]; exact h1, by rw [hs1]; simp⟩

/-- C29, worked instance: five items in pages of two with reported total 1:
one request, and the two items of the first page are returned (more than the
reported total, fewer than the dataset). -/
theorem C29_under_reported_total_witness :
    (1 ≤ 2) ∧ (1 < demoData.length) ∧ (max 1 (ceilDiv 1 2) ≤ 1) ∧
    (∃ w1, serviceClient.ListAll (servicesServer demoData 2 1) 1 (demoServices 2) world0 =
        Run.done ⟨[10, 20], none, w1⟩ ∧ w1.sent.length = 1) ∧
    (∃ w1, recordClient.ListAllRecord (recordsServer demoData 2 1) 1 (demoRecords 2) world0 =
        Run.done ⟨[10, 20], none, w1⟩ ∧ w1.sent.length = 1) ∧
    (∃ w1, MicroserviceClient.ListAllMicroService (microServicesServer demoData 2 1) 1
        (demoMicroServices 2) world0 = Run.done ⟨[10, 20], none, w1⟩ ∧
      w1.sent.length = 1) ∧
    ([10, 20] : List Nat).length = min demoData.length (2 * 1) ∧
    (1 < ([10, 20] : List Nat).length) :=
  have h := @C29_under_reported_total Unit String Nat demoData 2 1 (by decide) (by decide) 1
    (by decide)
  ⟨by decide, by decide, by decide,
    h.1 (servicesServer demoData 2 1) (demoServices 2) world0 rfl
      (demo_services_faithful 1 _ (by decide)),
    h.2.1 (recordsServer demoData 2 1) (demoRecords 2) world0 rfl
      (demo_records_faithful 1 _ (by decide)),
    h.2.2.1 (microServicesServer demoData 2 1) (demoMicroServices 2) world0 rfl
      (demo_micro_faithful 1 _ (by decide)),
    h.2.2.2.1, h.2.2.2.2.2.2 (Or.inl (by decide))⟩

end EcsmClient
